import Mathlib

set_option maxHeartbeats 1000000
set_option maxRecDepth 10000

open scoped Classical

/-!  Shallow embedding of gemmi's PDB reader (`include/gemmi/pdb.hpp`) and of
its unit-cell engine (`include/gemmi/unitcell.hpp`).

Modelling conventions, used throughout:
* a C `const char*` is a function `ℕ → Char` (the byte at each offset);
* C `int` is `ℤ`; C `double` (in the scanners) is `ℚ`, holding the exact
  decimal value the source accumulates digit by digit; the unit-cell engine
  works over `ℝ`, so real arithmetic stands for `double` arithmetic
  (floating-point rounding is idealized away);
* a C++ exception thrown by `gemmi::fail` is the `.error` case of
  `Except String`;
* the scanner primitives also return the list of byte offsets they read
  (`read_int_instr` and friends), so that claims about out-of-bounds reads
  can be stated; the plain value is the first component.
-/

/-- C `isspace` in the default locale: space, \t, \n, \v, \f, \r. -/
def cIsSpace (c : Char) : Bool :=
  c == ' ' || c == '\t' || c == '\n' || c == '\x0b' || c == '\x0c' || c == '\r'

/-- The test `p[i] >= '0' && p[i] <= '9'` of the source. -/
def cIsDigit (c : Char) : Bool :=
  decide (48 ≤ c.toNat ∧ c.toNat ≤ 57)

/-- The loop `while (i < field_length && std::isspace(p[i])) ++i;` shared by
`read_int` and `read_double` (pdb.hpp lines 42-43 and 66-67).  `fuel` is
`field_length - i`; the result is the final `i` together with the offsets read. -/
def skipSpacesFrom (p : ℕ → Char) (i : ℕ) : ℕ → ℕ × List ℕ
  | 0 => (i, [])
  | fuel + 1 =>
    if cIsSpace (p i) then
      let r := skipSpacesFrom p (i + 1) fuel
      (r.1, i :: r.2)
    else (i, [i])

/-- The digit loop of `read_int` (pdb.hpp lines 50-52):
`for (; i < field_length && digit; ++i) n = n * 10 + (p[i] - '0');`.
Returns the accumulated value, the final `i` and the offsets read. -/
def readDigitsInt (p : ℕ → Char) (i : ℕ) (n : ℤ) : ℕ → ℤ × ℕ × List ℕ
  | 0 => (n, i, [])
  | fuel + 1 =>
    if cIsDigit (p i) then
      let r := readDigitsInt p (i + 1) (n * 10 + ((p i).toNat - 48 : ℤ)) fuel
      (r.1, r.2.1, i :: r.2.2)
    else (n, i, [i])

/-- `read_int` of pdb.hpp lines 38-54, instrumented with the offsets read.
Note that the sign test `if (p[i] == '-')` of the source runs without a bound
check, so after a fully blank field it reads `p[field_length]`. -/
def read_int_instr (p : ℕ → Char) (field_length : ℕ) : ℤ × List ℕ :=
  let s := skipSpacesFrom p 0 field_length
  let i := s.1
  if p i = '-' then
    let r := readDigitsInt p (i + 1) 0 (field_length - (i + 1))
    (-r.1, s.2 ++ [i] ++ r.2.2)
  else if p i = '+' then
    let r := readDigitsInt p (i + 1) 0 (field_length - (i + 1))
    (r.1, s.2 ++ [i] ++ r.2.2)
  else
    let r := readDigitsInt p i 0 (field_length - i)
    (r.1, s.2 ++ [i] ++ r.2.2)

/-- `read_int` of pdb.hpp lines 38-54 (the value alone). -/
def read_int (p : ℕ → Char) (field_length : ℕ) : ℤ :=
  (read_int_instr p field_length).1

/-- The integer-part digit loop of `read_double` (pdb.hpp lines 74-75),
accumulating a rational. -/
def readDigitsRat (p : ℕ → Char) (i : ℕ) (d : ℚ) : ℕ → ℚ × ℕ × List ℕ
  | 0 => (d, i, [])
  | fuel + 1 =>
    if cIsDigit (p i) then
      let r := readDigitsRat p (i + 1) (d * 10 + ((p i).toNat - 48 : ℚ)) fuel
      (r.1, r.2.1, i :: r.2.2)
    else (d, i, [i])

/-- The fraction loop of `read_double` (pdb.hpp lines 77-79):
`for (++i; i < field_length && digit; ++i, mult *= 0.1) d += mult * (p[i]-'0');`. -/
def readFracDigits (p : ℕ → Char) (i : ℕ) (d mult : ℚ) : ℕ → ℚ × List ℕ
  | 0 => (d, [])
  | fuel + 1 =>
    if cIsDigit (p i) then
      let r := readFracDigits p (i + 1) (d + mult * ((p i).toNat - 48 : ℚ))
                 (mult * (1 / 10)) fuel
      (r.1, i :: r.2)
    else (d, [i])

/-- `read_double` of pdb.hpp lines 62-82, instrumented with the offsets read.
Like `read_int` it reads the single byte `p[field_length]` after a blank field
(the unguarded sign test); the decimal-point test is guarded by
`i < field_length`. -/
def read_double_instr (p : ℕ → Char) (field_length : ℕ) : ℚ × List ℕ :=
  let s := skipSpacesFrom p 0 field_length
  let i := s.1
  if p i = '-' then
    let r := readDigitsRat p (i + 1) 0 (field_length - (i + 1))
    let f := if r.2.1 < field_length ∧ p r.2.1 = '.' then
               let q := readFracDigits p (r.2.1 + 1) r.1 (1 / 10) (field_length - (r.2.1 + 1))
               (q.1, r.2.1 :: q.2)
             else if r.2.1 < field_length then (r.1, [r.2.1]) else (r.1, [])
    (-f.1, s.2 ++ [i] ++ r.2.2 ++ f.2)
  else if p i = '+' then
    let r := readDigitsRat p (i + 1) 0 (field_length - (i + 1))
    let f := if r.2.1 < field_length ∧ p r.2.1 = '.' then
               let q := readFracDigits p (r.2.1 + 1) r.1 (1 / 10) (field_length - (r.2.1 + 1))
               (q.1, r.2.1 :: q.2)
             else if r.2.1 < field_length then (r.1, [r.2.1]) else (r.1, [])
    (f.1, s.2 ++ [i] ++ r.2.2 ++ f.2)
  else
    let r := readDigitsRat p i 0 (field_length - i)
    let f := if r.2.1 < field_length ∧ p r.2.1 = '.' then
               let q := readFracDigits p (r.2.1 + 1) r.1 (1 / 10) (field_length - (r.2.1 + 1))
               (q.1, r.2.1 :: q.2)
             else if r.2.1 < field_length then (r.1, [r.2.1]) else (r.1, [])
    (f.1, s.2 ++ [i] ++ r.2.2 ++ f.2)

/-- `read_double` of pdb.hpp lines 62-82 (the value alone). -/
def read_double (p : ℕ → Char) (field_length : ℕ) : ℚ :=
  (read_double_instr p field_length).1

/-- The left-trim loop of `read_string` (pdb.hpp lines 86-89): advance the
pointer while the remaining length is nonzero and the head is whitespace.
Returns the final pointer offset (starting from `i`) and the offsets read. -/
def lstripFrom (p : ℕ → Char) (i : ℕ) : ℕ → ℕ × List ℕ
  | 0 => (i, [])
  | fl + 1 =>
    if cIsSpace (p i) then
      let r := lstripFrom p (i + 1) fl
      (r.1, i :: r.2)
    else (i, [i])

/-- The terminator scan of `read_string` (pdb.hpp lines 91-95): the first
index `< fl` holding \n, \r or NUL truncates the field.  `j` counts from 0
relative to the trimmed start `off`. -/
def scanTerminator (p : ℕ → Char) (off j : ℕ) : ℕ → ℕ × List ℕ
  | 0 => (j, [])
  | rem + 1 =>
    if p (off + j) = '\n' ∨ p (off + j) = '\r' ∨ p (off + j) = '\x00' then
      (j, [off + j])
    else
      let r := scanTerminator p off (j + 1) rem
      (r.1, (off + j) :: r.2)

/-- The right-trim loop of `read_string` (pdb.hpp lines 97-98):
`while (field_length != 0 && isspace(p[field_length-1])) --field_length;`. -/
def rstripLen (p : ℕ → Char) (off : ℕ) : ℕ → ℕ × List ℕ
  | 0 => (0, [])
  | fl + 1 =>
    if cIsSpace (p (off + fl)) then
      let r := rstripLen p off fl
      (r.1, (off + fl) :: r.2)
    else (fl + 1, [off + fl])

/-- `read_string` of pdb.hpp lines 84-100, instrumented with the offsets read
(including those the final `std::string(p, field_length)` constructor copies). -/
def read_string_instr (p : ℕ → Char) (field_length : ℕ) : String × List ℕ :=
  let l := lstripFrom p 0 field_length
  let off := l.1
  let fl1 := field_length - off
  let t := scanTerminator p off 0 fl1
  let r := rstripLen p off t.1
  let fl3 := r.1
  (String.mk ((List.range fl3).map fun k => p (off + k)),
   l.2 ++ t.2 ++ r.2 ++ (List.range fl3).map fun k => off + k)

/-- `read_string` of pdb.hpp lines 84-100 (the value alone). -/
def read_string (p : ℕ → Char) (field_length : ℕ) : String :=
  (read_string_instr p field_length).1

/-- The value `strtol` assigns to one character in base 36: ASCII digits,
then letters of either case (the C library parses base-36 case-insensitively). -/
def base36DigitVal (c : Char) : Option ℕ :=
  if 48 ≤ c.toNat ∧ c.toNat ≤ 57 then some (c.toNat - 48)
  else if 65 ≤ c.toNat ∧ c.toNat ≤ 90 then some (c.toNat - 55)
  else if 97 ≤ c.toNat ∧ c.toNat ≤ 122 then some (c.toNat - 87)
  else none

/-- The digit-accumulation loop of `strtol` in base 36; stops at the first
character that is no base-36 digit (a NUL in particular). -/
def strtolDigits (acc : ℤ) : List Char → ℤ
  | [] => acc
  | c :: cs =>
    match base36DigitVal c with
    | some d => strtolDigits (acc * 36 + d) cs
    | none => acc

/-- `std::strtol(zstr, NULL, 36)` on a NUL-terminated copy of the field:
skip leading whitespace, accept one optional sign, then fold base-36 digits.
Overflow clamping is not modelled (the caller's fields have at most 4 digits). -/
def strtol36 : List Char → ℤ
  | [] => 0
  | c :: cs =>
    if cIsSpace c then strtol36 cs
    else if c = '-' then -(strtolDigits 0 cs)
    else if c = '+' then strtolDigits 0 cs
    else strtolDigits 0 (c :: cs)

/-- `read_base36<N>` of pdb.hpp lines 56-60: `memcpy` the `N` field bytes into
a NUL-terminated buffer and run `strtol` with base 36 on it. -/
def read_base36 (p : ℕ → Char) (N : ℕ) : ℤ :=
  strtol36 ((List.range N).map p)

/-- `ResidueId::SNIC` of model.hpp as pdb.hpp uses it: a sequence number and
an insertion code. -/
structure SNIC where
  seqnum : ℤ
  icode : Char
deriving Repr, DecidableEq

/-- `read_snic` of pdb.hpp lines 186-191: a first byte below `'A'` selects
signed decimal over 4 columns, anything else hybrid-36
(`base36 - 466560 + 10000`); the 5th byte is the insertion code, NUL if blank. -/
def read_snic (p : ℕ → Char) : SNIC :=
  { seqnum := if p 0 < 'A' then read_int p 4 else read_base36 p 4 - 466560 + 10000,
    icode := if p 4 = ' ' then '\x00' else p 4 }

/-- A C pointer into a byte buffer: `bufPtr buf off` is `buf + off`, reading
NUL beyond the end (the parser's 88-byte buffer always covers the fields it
reads). -/
def bufPtr (buf : List Char) (off : ℕ) : ℕ → Char :=
  fun i => buf.getD (off + i) '\x00'

/-- The ASCII character of a decimal digit. -/
def decDigit (d : ℕ) : Char := Char.ofNat (48 + d)

/-- The ASCII character of a base-36 digit in its canonical uppercase form. -/
def b36UpperDigit (d : ℕ) : Char :=
  if d < 10 then Char.ofNat (48 + d) else Char.ofNat (55 + d)

/-- Modelled from the spec: the 4-character hybrid-36 encoding of a residue
sequence number (glossary: "base-10 in the low range, base-36 starting with
`'A000'` for values >= 10000").  Decimal values are right-justified in the 4
columns; from 10000 on the encoding is the base-36 numeral of
`n - 10000 + 466560` (466560 = A000 in base 36), in uppercase.  The encoder
itself is not part of the repository (only the decoding side is, in
`read_snic`), so it is reconstructed here from the spec's description. -/
def encodeHybrid36 (n : ℕ) : List Char :=
  if n ≤ 9 then [' ', ' ', ' ', decDigit n]
  else if n ≤ 99 then [' ', ' ', decDigit (n / 10), decDigit (n % 10)]
  else if n ≤ 999 then
    [' ', decDigit (n / 100), decDigit (n / 10 % 10), decDigit (n % 10)]
  else if n ≤ 9999 then
    [decDigit (n / 1000), decDigit (n / 100 % 10), decDigit (n / 10 % 10),
     decDigit (n % 10)]
  else
    [b36UpperDigit ((n - 10000 + 466560) / 46656),
     b36UpperDigit ((n - 10000 + 466560) / 1296 % 36),
     b36UpperDigit ((n - 10000 + 466560) / 36 % 36),
     b36UpperDigit ((n - 10000 + 466560) % 36)]

/-- `read_charge` of pdb.hpp lines 158-171.  The thrown `gemmi::fail` is the
`.error` case. -/
def read_charge (digit sign : Char) : Except String ℤ :=
  if sign = ' ' ∧ digit = ' ' then .ok 0
  else
    let dg := if 48 ≤ sign.toNat ∧ sign.toNat ≤ 57 then sign else digit
    let sg := if 48 ≤ sign.toNat ∧ sign.toNat ≤ 57 then digit else sign
    if 48 ≤ dg.toNat ∧ dg.toNat ≤ 57 then
      if sg ≠ '+' ∧ sg ≠ '-' ∧ sg ≠ '\x00' ∧ cIsSpace sg = false then
        .error ("Wrong format for charge: " ++ String.mk [dg] ++ String.mk [sg])
      else
        .ok (((dg.toNat : ℤ) - 48) * (if sg = '-' then -1 else 1))
    else
      .ok 0

/-! ### The unit-cell engine (include/gemmi/unitcell.hpp)

C++ `double` is modelled as `ℝ` (exact real arithmetic stands for the
floating-point arithmetic of the source).  The basic vector/matrix types live
in the repository's math.hpp, which is not under src/; they are modelled from
the spec (§3, §4.3: 3-vectors, 3×3 matrices, affine transforms applied as
`mat·v + vec`, `frac = orth⁻¹`). -/

/-- Modelled from the spec: `Vec3` of math.hpp, a 3-vector of doubles. -/
structure Vec3 where
  x : ℝ
  y : ℝ
  z : ℝ

noncomputable def Vec3.add (a b : Vec3) : Vec3 := ⟨a.x + b.x, a.y + b.y, a.z + b.z⟩

noncomputable def Vec3.sub (a b : Vec3) : Vec3 := ⟨a.x - b.x, a.y - b.y, a.z - b.z⟩

/-- `Vec3::length_sq`. -/
noncomputable def Vec3.length_sq (a : Vec3) : ℝ := a.x * a.x + a.y * a.y + a.z * a.z

/-- `Vec3::dist_sq`. -/
noncomputable def Vec3.dist_sq (a b : Vec3) : ℝ := (Vec3.sub a b).length_sq

/-- Componentwise comparison within a tolerance (`Vec3::approx`). -/
def Vec3.approx (a b : Vec3) (epsilon : ℝ) : Prop :=
  |a.x - b.x| ≤ epsilon ∧ |a.y - b.y| ≤ epsilon ∧ |a.z - b.z| ≤ epsilon

/-- Modelled from the spec: `Mat33` of math.hpp, a row-major 3×3 matrix
(`mij` is row `i`, column `j`, matching the brace-lists of
`calculate_properties`). -/
structure Mat33 where
  m00 : ℝ
  m01 : ℝ
  m02 : ℝ
  m10 : ℝ
  m11 : ℝ
  m12 : ℝ
  m20 : ℝ
  m21 : ℝ
  m22 : ℝ

noncomputable def Mat33.identity : Mat33 := ⟨1, 0, 0, 0, 1, 0, 0, 0, 1⟩

noncomputable def Mat33.mulVec (m : Mat33) (v : Vec3) : Vec3 :=
  ⟨m.m00 * v.x + m.m01 * v.y + m.m02 * v.z,
   m.m10 * v.x + m.m11 * v.y + m.m12 * v.z,
   m.m20 * v.x + m.m21 * v.y + m.m22 * v.z⟩

noncomputable def Mat33.mul (a b : Mat33) : Mat33 :=
  ⟨a.m00 * b.m00 + a.m01 * b.m10 + a.m02 * b.m20,
   a.m00 * b.m01 + a.m01 * b.m11 + a.m02 * b.m21,
   a.m00 * b.m02 + a.m01 * b.m12 + a.m02 * b.m22,
   a.m10 * b.m00 + a.m11 * b.m10 + a.m12 * b.m20,
   a.m10 * b.m01 + a.m11 * b.m11 + a.m12 * b.m21,
   a.m10 * b.m02 + a.m11 * b.m12 + a.m12 * b.m22,
   a.m20 * b.m00 + a.m21 * b.m10 + a.m22 * b.m20,
   a.m20 * b.m01 + a.m21 * b.m11 + a.m22 * b.m21,
   a.m20 * b.m02 + a.m21 * b.m12 + a.m22 * b.m22⟩

/-- Componentwise comparison within a tolerance (`Mat33::approx`). -/
def Mat33.approx (a b : Mat33) (epsilon : ℝ) : Prop :=
  |a.m00 - b.m00| ≤ epsilon ∧ |a.m01 - b.m01| ≤ epsilon ∧ |a.m02 - b.m02| ≤ epsilon ∧
  |a.m10 - b.m10| ≤ epsilon ∧ |a.m11 - b.m11| ≤ epsilon ∧ |a.m12 - b.m12| ≤ epsilon ∧
  |a.m20 - b.m20| ≤ epsilon ∧ |a.m21 - b.m21| ≤ epsilon ∧ |a.m22 - b.m22| ≤ epsilon

noncomputable def Mat33.det (m : Mat33) : ℝ :=
  m.m00 * (m.m11 * m.m22 - m.m12 * m.m21)
    - m.m01 * (m.m10 * m.m22 - m.m12 * m.m20)
    + m.m02 * (m.m10 * m.m21 - m.m11 * m.m20)

/-- Modelled from the spec: the matrix inverse of math.hpp (adjugate over
determinant), used only through `Transform::inverse`. -/
noncomputable def Mat33.inverse (m : Mat33) : Mat33 :=
  let d := m.det
  ⟨(m.m11 * m.m22 - m.m12 * m.m21) / d,
   (m.m02 * m.m21 - m.m01 * m.m22) / d,
   (m.m01 * m.m12 - m.m02 * m.m11) / d,
   (m.m12 * m.m20 - m.m10 * m.m22) / d,
   (m.m00 * m.m22 - m.m02 * m.m20) / d,
   (m.m02 * m.m10 - m.m00 * m.m12) / d,
   (m.m10 * m.m21 - m.m11 * m.m20) / d,
   (m.m01 * m.m20 - m.m00 * m.m21) / d,
   (m.m00 * m.m11 - m.m01 * m.m10) / d⟩

/-- Modelled from the spec: `Transform` of math.hpp, an affine transform
applied as `mat · v + vec` (§4.3 "affine application of the stored
transforms").  The source's `FTransform` is the same data with a
`Fractional`-typed `apply`; the type-safety wrapper is dropped here. -/
structure Transform where
  mat : Mat33
  vec : Vec3

noncomputable def Transform.identity : Transform := ⟨Mat33.identity, ⟨0, 0, 0⟩⟩

noncomputable def Transform.apply (t : Transform) (p : Vec3) : Vec3 :=
  Vec3.add (t.mat.mulVec p) t.vec

/-- Modelled from the spec: `Transform::inverse` of math.hpp, the affine
inverse `x ↦ mat⁻¹·x − mat⁻¹·vec`. -/
noncomputable def Transform.inverse (t : Transform) : Transform :=
  let mi := t.mat.inverse
  ⟨mi, Vec3.sub ⟨0, 0, 0⟩ (mi.mulVec t.vec)⟩

/-- `SymmetryImage` of unitcell.hpp line 51. -/
inductive SymmetryImage
  | Same
  | Different
  | Unspecified
deriving DecidableEq

/-- `NearbyImage` of unitcell.hpp lines 54-68.  `dist_sq` is an `EReal` so
that the C++ `INFINITY` sentinel is `⊤`; finite distances enter as real
coercions. -/
structure NearbyImage where
  dist_sq : EReal
  box : ℤ × ℤ × ℤ
  sym_id : ℕ

/-- `NearbyImage::dist`, `sqrt(dist_sq)` (only used on finite distances). -/
noncomputable def NearbyImage.dist (im : NearbyImage) : ℝ :=
  Real.sqrt im.dist_sq.toReal

/-- Modelled from the spec: `iround` of math.hpp, "round each component to
nearest integer" (§4.3). -/
noncomputable def iround (x : ℝ) : ℤ := round x

/-- The degree-aware cosine of `calculate_properties`: exactly 0 at an input
of exactly 90, `cos(pi/180 * x)` otherwise (unitcell.hpp lines 108-110). -/
noncomputable def cosDeg (x : ℝ) : ℝ :=
  if x = 90 then 0 else Real.cos (Real.pi / 180 * x)

/-- The degree-aware sine of `calculate_properties`: exactly 1 at an input of
exactly 90, `sin(pi/180 * x)` otherwise (unitcell.hpp lines 111-113). -/
noncomputable def sinDeg (x : ℝ) : ℝ :=
  if x = 90 then 1 else Real.sin (Real.pi / 180 * x)

/-- `cos_alphar_sin_beta` of unitcell.hpp line 126. -/
noncomputable def cosAlphaRsb (alpha beta gamma : ℝ) : ℝ :=
  (cosDeg beta * cosDeg gamma - cosDeg alpha) / sinDeg gamma

/-- `cos_alphar` of unitcell.hpp line 127. -/
noncomputable def cosAlphaR (alpha beta gamma : ℝ) : ℝ :=
  cosAlphaRsb alpha beta gamma / sinDeg beta

/-- `sin_alphar` of unitcell.hpp line 140. -/
noncomputable def sinAlphaR (alpha beta gamma : ℝ) : ℝ :=
  Real.sqrt (1 - cosAlphaR alpha beta gamma * cosAlphaR alpha beta gamma)

/-- The volume formula of unitcell.hpp lines 118-120 (Giacovazzo p.62). -/
noncomputable def cellVolume (a b c alpha beta gamma : ℝ) : ℝ :=
  a * b * c * Real.sqrt (1 - cosDeg alpha * cosDeg alpha
    - cosDeg beta * cosDeg beta - cosDeg gamma * cosDeg gamma
    + 2 * cosDeg alpha * cosDeg beta * cosDeg gamma)

/-- `UnitCell` of unitcell.hpp lines 82-97, with the in-class initializers as
default field values. -/
structure UnitCell where
  a : ℝ := 1
  b : ℝ := 1
  c : ℝ := 1
  alpha : ℝ := 90
  beta : ℝ := 90
  gamma : ℝ := 90
  orth : Transform := Transform.identity
  frac : Transform := Transform.identity
  volume : ℝ := 1
  ar : ℝ := 1
  br : ℝ := 1
  cr : ℝ := 1
  cos_alphar : ℝ := 0
  cos_betar : ℝ := 0
  cos_gammar : ℝ := 0
  explicit_matrices : Bool := false
  images : List Transform := []

/-- A fresh `UnitCell` (the default-constructed object). -/
noncomputable def defaultUnitCell : UnitCell := {}

/-- `UnitCell::is_crystal` (unitcell.hpp line 103). -/
def UnitCell.is_crystal (u : UnitCell) : Prop :=
  u.a ≠ 1 ∧ u.frac.mat.m00 ≠ 1

/-- `UnitCell::calculate_properties` (unitcell.hpp lines 105-154).  The
`gemmi::fail` on a zero sine is the `.error` case; on success the updated
object is returned.  When `explicit_matrices` is set the function returns
before rebuilding `orth`/`frac` (line 132-133). -/
noncomputable def UnitCell.calculate_properties (u : UnitCell) : Except String UnitCell :=
  if sinDeg u.alpha = 0 ∨ sinDeg u.beta = 0 ∨ sinDeg u.gamma = 0 then
    .error "Impossible angle - N*180deg."
  else
    let volume := cellVolume u.a u.b u.c u.alpha u.beta u.gamma
    let ar := u.b * u.c * sinDeg u.alpha / volume
    let br := u.a * u.c * sinDeg u.beta / volume
    let cr := u.a * u.b * sinDeg u.gamma / volume
    let cos_alphar := cosAlphaR u.alpha u.beta u.gamma
    let cos_betar := (cosDeg u.alpha * cosDeg u.gamma - cosDeg u.beta)
      / (sinDeg u.alpha * sinDeg u.gamma)
    let cos_gammar := (cosDeg u.alpha * cosDeg u.beta - cosDeg u.gamma)
      / (sinDeg u.alpha * sinDeg u.beta)
    if u.explicit_matrices then
      .ok { u with
            volume := volume
            ar := ar
            br := br
            cr := cr
            cos_alphar := cos_alphar
            cos_betar := cos_betar
            cos_gammar := cos_gammar }
    else
      let sin_alphar := sinAlphaR u.alpha u.beta u.gamma
      let orthMat : Mat33 :=
        ⟨u.a, u.b * cosDeg u.gamma, u.c * cosDeg u.beta,
         0, u.b * sinDeg u.gamma, -(u.c * cosAlphaRsb u.alpha u.beta u.gamma),
         0, 0, u.c * sinDeg u.beta * sin_alphar⟩
      let o12 := -cosDeg u.gamma / (sinDeg u.gamma * u.a)
      let o13 := -(cosDeg u.gamma * cosAlphaRsb u.alpha u.beta u.gamma
          + cosDeg u.beta * sinDeg u.gamma)
        / (sin_alphar * sinDeg u.beta * sinDeg u.gamma * u.a)
      let o23 := cos_alphar / (sin_alphar * sinDeg u.gamma * u.b)
      let fracMat : Mat33 :=
        ⟨1 / u.a, o12, o13,
         0, 1 / orthMat.m11, o23,
         0, 0, 1 / orthMat.m22⟩
      .ok { u with
            volume := volume
            ar := ar
            br := br
            cr := cr
            cos_alphar := cos_alphar
            cos_betar := cos_betar
            cos_gammar := cos_gammar
            orth := ⟨orthMat, ⟨0, 0, 0⟩⟩
            frac := ⟨fracMat, ⟨0, 0, 0⟩⟩ }

/-- `UnitCell::set` (unitcell.hpp lines 171-182): a zero `gamma_` is an
empty/partial CRYST1 and leaves the cell untouched; otherwise the six
parameters are stored and the properties recomputed. -/
noncomputable def UnitCell.set (u : UnitCell)
    (a_ b_ c_ alpha_ beta_ gamma_ : ℝ) : Except String UnitCell :=
  if gamma_ = 0 then .ok u
  else UnitCell.calculate_properties
    { u with
      a := a_
      b := b_
      c := c_
      alpha := alpha_
      beta := beta_
      gamma := gamma_ }

/-- `UnitCell::set_matrices_from_fract` (unitcell.hpp lines 156-169). -/
noncomputable def UnitCell.set_matrices_from_fract (u : UnitCell) (f : Transform) : UnitCell :=
  if f.mat.approx u.frac.mat (5e-6) ∧ f.vec.approx u.frac.vec (1e-6) then u
  else if u.frac.mat.m00 = 1 ∧ (f.mat.m00 = 0 ∨ f.mat.m00 > 1) then u
  else { u with frac := f, orth := f.inverse, explicit_matrices := true }

/-- `UnitCell::orthogonalize` (unitcell.hpp lines 186-188). -/
noncomputable def UnitCell.orthogonalize (u : UnitCell) (f : Vec3) : Vec3 :=
  u.orth.apply f

/-- `UnitCell::fractionalize` (unitcell.hpp lines 189-191). -/
noncomputable def UnitCell.fractionalize (u : UnitCell) (o : Vec3) : Vec3 :=
  u.frac.apply o

/-- `UnitCell::search_pbc_images` (unitcell.hpp lines 198-212): round the
fractional difference to the nearest cell, and keep the image when the
orthogonal distance improves on the current best. -/
noncomputable def UnitCell.search_pbc_images (u : UnitCell) (diff : Vec3)
    (image : NearbyImage) : Bool × NearbyImage :=
  let b0 := iround diff.x
  let b1 := iround diff.y
  let b2 := iround diff.z
  let d : Vec3 := ⟨diff.x - b0, diff.y - b1, diff.z - b2⟩
  let orth_diff := u.orthogonalize d
  let dsq := orth_diff.length_sq
  if (dsq : EReal) < image.dist_sq then
    (true, { image with dist_sq := (dsq : EReal), box := (b0, b1, b2) })
  else (false, image)

/-- `UnitCell::find_nearest_image` (unitcell.hpp lines 214-233). -/
noncomputable def UnitCell.find_nearest_image (u : UnitCell) (ref pos : Vec3)
    (sym_image : SymmetryImage) : NearbyImage :=
  let image : NearbyImage :=
    { dist_sq := ((Vec3.dist_sq ref pos : ℝ) : EReal), box := (0, 0, 0), sym_id := 0 }
  if sym_image = SymmetryImage.Same ∨ ¬ u.is_crystal then
    if sym_image = SymmetryImage.Different ∨ image.dist_sq = 0 then
      { image with dist_sq := ⊤ }
    else image
  else
    let fpos := u.fractionalize pos
    let fref := u.fractionalize ref
    let image1 := (u.search_pbc_images (Vec3.sub fpos fref) image).2
    let image2 :=
      if (sym_image = SymmetryImage.Different ∨ image1.dist_sq = 0) ∧
          image1.box = (0, 0, 0) then
        { image1 with dist_sq := ⊤ }
      else image1
    u.images.enum.foldl (fun img nt =>
      let r := u.search_pbc_images (Vec3.sub (nt.2.apply fpos) fref) img
      if r.1 then { r.2 with sym_id := nt.1 + 1 } else r.2) image2



/-- A unit cell that has adopted explicit matrices (for the frame-effect
claims): a default cell with `a = 5` and `explicit_matrices` set. -/
noncomputable def cellExp : UnitCell := { a := 5, explicit_matrices := true }

/-- The 10x10x10 all-90 cell as `UnitCell::set` computes it from
`(10,10,10,90,90,90)` (proved in `set_cell10`). -/
noncomputable def cell10 : UnitCell :=
  { a := 10, b := 10, c := 10, alpha := 90, beta := 90, gamma := 90,
    orth := ⟨⟨10, 0, 0, 0, 10, 0, 0, 0, 10⟩, ⟨0, 0, 0⟩⟩,
    frac := ⟨⟨1/10, 0, 0, 0, 1/10, 0, 0, 0, 1/10⟩, ⟨0, 0, 0⟩⟩,
    volume := 1000, ar := 1/10, br := 1/10, cr := 1/10,
    cos_alphar := 0, cos_betar := 0, cos_gammar := 0,
    explicit_matrices := false, images := [] }

/-! ### The PDB reader (include/gemmi/pdb.hpp)

The Structure/Model/Chain/Residue/Atom/Entity tree lives in the repository's
model.hpp, which is not under src/; those types and their small helpers
(`find_or_add_model`, `find_or_add_chain`, `find_or_add_residue`,
`ResidueId::matches`, `in_vector`, `Structure::finish`) are modelled from the
spec (§3 data model, §4.4, §4.5).  C++ pointers into the tree are modelled as
indices: the current model is an index into `models`, the current chain a
(model, chain) index pair, the current residue an index into the current
chain's residues.  Entity pointers are modelled by unique creation tags. -/

/-- `EntityType` of model.hpp; modelled from the spec (§3). -/
inductive EntityType
  | Polymer
  | NonPolymer
  | Water
  | Unknown
deriving DecidableEq, Repr

/-- `PolymerType` of model.hpp; only `NA` ("not applicable") is ever used by
the reader; modelled from the spec (§3). -/
inductive PolymerType
  | NA
deriving DecidableEq, Repr

/-- `Entity` of model.hpp (modelled from the spec §3): id string (assigned at
finalize), type, polymer type and the SEQRES monomer list. -/
structure EntityData where
  eid : String
  etype : EntityType
  ptype : PolymerType
  sequence : List String
deriving DecidableEq, Repr

/-- `Atom` of model.hpp, modelled from the spec (§3); coordinates and the
anisotropic u-values are exact rationals standing for the doubles/floats. -/
structure PAtom where
  name : String
  group : Char
  altloc : Char
  charge : ℤ
  element : String
  x : ℚ
  y : ℚ
  z : ℚ
  occ : ℚ
  b_iso : ℚ
  u11 : ℚ
  u22 : ℚ
  u33 : ℚ
  u12 : ℚ
  u13 : ℚ
  u23 : ℚ
deriving DecidableEq, Repr

/-- `ResidueId` as pdb.hpp builds it: snic (sequence number + insertion
code), residue name and segment. -/
structure ResidueIdQ where
  seqnum : ℤ
  icode : Char
  rname : String
  segment : String
deriving DecidableEq, Repr

/-- `Residue` of model.hpp, modelled from the spec (§3). -/
structure PResidue where
  seqnum : ℤ
  icode : Char
  rname : String
  segment : String
  atoms : List PAtom
  conn : List String
  is_cis : Bool
deriving DecidableEq, Repr

/-- `Chain` of model.hpp, modelled from the spec (§3); `entity` is the tag of
the chain's entity (`none` before finalize). -/
structure PChain where
  name : String
  auth_name : String
  entity : Option ℕ
  residues : List PResidue
deriving DecidableEq, Repr

/-- `Model` of model.hpp, modelled from the spec (§3); connections are not
modelled (no claim touches them). -/
structure PModel where
  mname : String
  chains : List PChain
deriving DecidableEq, Repr

/-- A column of linalg's `Mat4x4` (math.hpp is not under src/; modelled from
the spec §4.5: a 4×4 accumulator whose row `n-1` receives the three matrix
entries and the translation of row-record `n`). -/
structure Vec4 where
  e0 : ℚ
  e1 : ℚ
  e2 : ℚ
  e3 : ℚ
deriving DecidableEq, Repr

/-- `Mat4x4 = linalg::mat<double,4,4>`: four columns x, y, z, w. -/
structure Mat4x4 where
  x : Vec4
  y : Vec4
  z : Vec4
  w : Vec4
deriving DecidableEq, Repr

/-- `linalg::identity`. -/
def Mat4x4.identity : Mat4x4 :=
  ⟨⟨1, 0, 0, 0⟩, ⟨0, 1, 0, 0⟩, ⟨0, 0, 1, 0⟩, ⟨0, 0, 0, 1⟩⟩

/-- Write component `i` of a column (the `matrix.x[n-1] = ...` stores of
`read_matrix`). -/
def Vec4.setAt (v : Vec4) (i : ℕ) (q : ℚ) : Vec4 :=
  match i with
  | 0 => { v with e0 := q }
  | 1 => { v with e1 := q }
  | 2 => { v with e2 := q }
  | 3 => { v with e3 := q }
  | _ => v

/-- The 3×3 part and translation of an accumulated `Mat4x4` as a `Transform`
(the implicit `Mat4x4 → Transform` conversion of math.hpp, modelled from the
spec; entries are coerced to the real-valued cell world). -/
noncomputable def Mat4x4.toTransform (m : Mat4x4) : Transform :=
  ⟨⟨(m.x.e0 : ℝ), (m.y.e0 : ℝ), (m.z.e0 : ℝ),
    (m.x.e1 : ℝ), (m.y.e1 : ℝ), (m.z.e1 : ℝ),
    (m.x.e2 : ℝ), (m.y.e2 : ℝ), (m.z.e2 : ℝ)⟩,
   ⟨(m.w.e0 : ℝ), (m.w.e1 : ℝ), (m.w.e2 : ℝ)⟩⟩

/-- One named NCS operator of `Structure::ncs` (modelled from the spec §3:
"list of named non-crystallographic transforms with a `given` flag"). -/
structure NcsOp where
  nid : String
  given : Bool
  tr : Mat4x4
deriving DecidableEq, Repr

/-- `Structure` of model.hpp, modelled from the spec (§3); connections and
the opaque `finish()` housekeeping are not modelled (no claim touches them). -/
structure PStructure where
  sname : String
  info : List (String × String)
  cell : UnitCell
  sg_hm : String
  origx : Mat4x4
  ncs : List NcsOp
  models : List PModel
  entities : List (ℕ × EntityData)

/-- Pointer shift: `p + k` for a byte pointer. -/
def ptrAdd (p : ℕ → Char) (k : ℕ) : ℕ → Char := fun i => p (k + i)

/-- `read_matrix` of pdb.hpp lines 173-184: a line shorter than 46 bytes is
ignored (returns 0); otherwise row `n = line[5] - '0'`, when between 1 and 3,
receives three 10-column doubles at offsets 10/20/30 and the translation at
offset 45. -/
def read_matrix (matrix : Mat4x4) (p : ℕ → Char) (len : ℕ) : ℤ × Mat4x4 :=
  if len < 46 then (0, matrix)
  else
    let n : ℤ := ((p 5).toNat : ℤ) - 48
    if 1 ≤ n ∧ n ≤ 3 then
      let r := (n - 1).toNat
      (n, { x := matrix.x.setAt r (read_double (ptrAdd p 10) 10)
            y := matrix.y.setAt r (read_double (ptrAdd p 20) 10)
            z := matrix.z.setAt r (read_double (ptrAdd p 30) 10)
            w := matrix.w.setAt r (read_double (ptrAdd p 45) 10) })
    else (n, matrix)

/-- `is_record_type` of pdb.hpp lines 104-107: compare the first 4 bytes of
the line, with the ASCII-case bit `0x20` masked off (so lower case matches
and space matches NUL), against the record name's first 4 bytes (the packed
32-bit word comparison, done bytewise). -/
def is_record_type (buf : List Char) (record : String) : Bool :=
  let m : ℕ → ℕ := fun k => (buf.getD k '\x00').toNat &&& 0xDF
  let q := record.toList
  let rn : ℕ → ℕ := fun k => (q.getD k '\x00').toNat
  decide (m 0 = rn 0 ∧ m 1 = rn 1 ∧ m 2 = rn 2 ∧ m 3 = rn 3)

/-- `rtrimmed` of pdb.hpp lines 31-36 on a byte list. -/
def rtrimmed (l : List Char) : String :=
  String.mk ((l.reverse.dropWhile (fun c => cIsSpace c)).reverse)

/-- `std::string(line + start, cnt)`: a raw byte-range copy. -/
def bufSub (buf : List Char) (start cnt : ℕ) : List Char :=
  (List.range cnt).map (fun k => buf.getD (start + k) '\x00')

/-- `std::string(line)`: the bytes up to the first NUL. -/
def bufCString (buf : List Char) : List Char :=
  buf.takeWhile (fun c => c ≠ '\x00')

/-- `std::strstr(hay, needle)` as an index: the first position where `needle`
(truncated at its first NUL) occurs. -/
def strstrIdx (hay needle : List Char) : Option ℕ :=
  let nd := needle.takeWhile (fun c => c ≠ '\x00')
  (List.range (hay.length + 1)).find? (fun i => nd.isPrefixOf (hay.drop i))

/-- The month lookup table of the HEADER handler (pdb.hpp lines 334-335). -/
def monthsChars : List Char :=
  "JAN01FEB02MAR03APR04MAY05JUN06JUL07AUG08SEP09OCT10NOV11DEC122222".toList

/-- `st.info[key] = value` (`std::map::operator[]` assignment: replace the
existing entry or append a new one). -/
def infoSet (info : List (String × String)) (k v : String) : List (String × String) :=
  if (info.lookup k).isSome then
    info.map (fun kv => if kv.1 = k then (k, v) else kv)
  else info ++ [(k, v)]

/-- `st.info[key] += value`. -/
def infoAppend (info : List (String × String)) (k v : String) : List (String × String) :=
  infoSet info k (((info.lookup k).getD "") ++ v)

/-- Modelled from the spec: `gemmi::path_basename` of util.hpp ("name
(basename of source)", §3). -/
def pathBasename (s : String) : String :=
  String.mk ((s.toList.reverse.takeWhile (fun c => c ≠ '/')).reverse)

/-- In-place update of the i-th list element (the effect of writing through a
C++ reference/pointer into a vector). -/
def listModify (f : α → α) : ℕ → List α → List α
  | _, [] => []
  | 0, a :: l => f a :: l
  | n + 1, a :: l => a :: listModify f n l

def modelAt' (st : PStructure) (mi : ℕ) : Option PModel := st.models.get? mi

def chainAt' (st : PStructure) (mi ci : ℕ) : Option PChain :=
  (modelAt' st mi).bind (fun m => m.chains.get? ci)

def modelNameD (st : PStructure) (mi : ℕ) : String :=
  ((modelAt' st mi).map (fun m => m.mname)).getD ""

def chainNameD (st : PStructure) (mi ci : ℕ) : String :=
  ((chainAt' st mi ci).map (fun c => c.name)).getD ""

def chainAuthD (st : PStructure) (mi ci : ℕ) : String :=
  ((chainAt' st mi ci).map (fun c => c.auth_name)).getD ""

def setModelAt (st : PStructure) (mi : ℕ) (f : PModel → PModel) : PStructure :=
  { st with models := listModify f mi st.models }

def setChainAt (st : PStructure) (mi ci : ℕ) (f : PChain → PChain) : PStructure :=
  setModelAt st mi (fun m => { m with chains := listModify f ci m.chains })

def setResidueAt (st : PStructure) (mi ci ri : ℕ) (f : PResidue → PResidue) : PStructure :=
  setChainAt st mi ci (fun c => { c with residues := listModify f ri c.residues })

/-- Modelled from the spec: `Structure::find_or_add_model` — find the model
with the given name, else append a fresh one; returns its index. -/
def find_or_add_model (st : PStructure) (name : String) : ℕ × PStructure :=
  match st.models.findIdx? (fun m => m.mname == name) with
  | some mi => (mi, st)
  | none => (st.models.length,
      { st with models := st.models ++ [{ mname := name, chains := [] }] })

/-- Modelled from the spec: `Model::find_or_add_chain` — find the chain with
the given (possibly `_H`-suffixed) name, else append a fresh one. -/
def find_or_add_chain (st : PStructure) (mi : ℕ) (cname : String) : ℕ × PStructure :=
  match modelAt' st mi with
  | none => (0, st)
  | some m =>
    match m.chains.findIdx? (fun c => c.name == cname) with
    | some ci => (ci, st)
    | none => (m.chains.length, setModelAt st mi (fun m =>
        { m with chains := m.chains ++
            [{ name := cname, auth_name := "", entity := none, residues := [] }] }))

/-- Modelled from the spec: `ResidueId::matches` — "consecutive ATOM records
with the same snic/segment/name extend the current residue, any mismatch
opens a new residue" (§3 invariants). -/
def residueMatches (r : PResidue) (rid : ResidueIdQ) : Bool :=
  r.seqnum == rid.seqnum && r.icode == rid.icode &&
    r.rname == rid.rname && r.segment == rid.segment

def newResidue (rid : ResidueIdQ) : PResidue :=
  { seqnum := rid.seqnum, icode := rid.icode, rname := rid.rname,
    segment := rid.segment, atoms := [], conn := [], is_cis := false }

/-- Modelled from the spec: `Chain::find_or_add_residue`. -/
def find_or_add_residue (st : PStructure) (mi ci : ℕ) (rid : ResidueIdQ) : ℕ × PStructure :=
  match chainAt' st mi ci with
  | none => (0, st)
  | some c =>
    match c.residues.findIdx? (fun r => residueMatches r rid) with
    | some ri => (ri, st)
    | none => (c.residues.length, setChainAt st mi ci (fun c =>
        { c with residues := c.residues ++ [newResidue rid] }))

/-- The reader's running state: the structure under construction plus the
local variables of `read_pdb_from_line_input` (pdb.hpp lines 247-260) and the
`EntitySetter`'s chain-name map (`chain_to_ent_`, with entity tags for the
pointers) and tag counter. -/
structure ParserState where
  st : PStructure
  hasTer : List String
  connRecords : List String
  model : Option ℕ
  chain : Option (ℕ × ℕ)
  resi : Option ℕ
  matrix : Mat4x4
  buf : List Char
  lineNum : ℕ
  entMap : List (String × ℕ)
  nextTag : ℕ

/-- `EntitySetter::set_for_chain` (pdb.hpp lines 112-120): return the entity
already recorded for the chain name, else create a fresh one
`Entity{"", type, PolymerType::NA, {}}` and record the association. -/
def set_for_chain (s : ParserState) (chain_name : String) (ty : EntityType) :
    ℕ × ParserState :=
  match s.entMap.lookup chain_name with
  | some t => (t, s)
  | none =>
    (s.nextTag,
     { s with
       st := { s.st with entities := s.st.entities ++
          [(s.nextTag, { eid := "", etype := ty, ptype := PolymerType.NA, sequence := [] })] }
       entMap := s.entMap ++ [(chain_name, s.nextTag)]
       nextTag := s.nextTag + 1 })

/-- `EntitySetter::same_entity` (pdb.hpp lines 146-153): an empty or
different-length sequence never matches; equal lengths compare elementwise,
which is list equality. -/
def same_entity (a b : List String) : Bool :=
  if a.isEmpty || a.length != b.length then false else a == b

/-- The inner `for (auto j = i + 1; ...)` loop of `EntitySetter::finalize`
with its `erase`: remove from the remainder every entity whose sequence
matches `i`'s, returning the survivors and the removed tags. -/
def eraseMatching (i : ℕ × EntityData) : List (ℕ × EntityData) →
    List (ℕ × EntityData) × List ℕ
  | [] => ([], [])
  | j :: rest =>
    let r := eraseMatching i rest
    if same_entity j.2.sequence i.2.sequence then (r.1, j.1 :: r.2)
    else (j :: r.1, r.2)

/-- The outer loop of `EntitySetter::finalize` (pdb.hpp lines 122-129): for
each surviving entity, erase its later duplicates; the second component
collects the redirections (removed tag ↦ absorbing tag) that the source
applies to `chain_to_ent_` at each removal. -/
def mergeLoop : List (ℕ × EntityData) → List (ℕ × EntityData) × List (ℕ × ℕ)
  | [] => ([], [])
  | i :: rest =>
    let e := eraseMatching i rest
    let r := mergeLoop e.1
    (i :: r.1, e.2.map (fun t => (t, i.1)) ++ r.2)
termination_by l => l.length
decreasing_by
  have h : ∀ (x : ℕ × EntityData) (l : List (ℕ × EntityData)),
      (eraseMatching x l).1.length ≤ l.length := by
    intro x l
    induction l with
    | nil => simp [eraseMatching]
    | cons j rest ih =>
      simp only [eraseMatching]
      split
      · simpa using Nat.le_succ_of_le ih
      · simpa using ih
  simp only [List.length_cons]
  exact Nat.lt_succ_of_le (h _ _)

/-- Apply the collected redirections to one entity tag. -/
def redirectTag (rs : List (ℕ × ℕ)) (t : ℕ) : ℕ :=
  (rs.lookup t).getD t

/-- One chain's `ch.entity = set_for_chain(ch.name, EntityType::Unknown)` in
`EntitySetter::finalize` (pdb.hpp lines 131-133). -/
def assignChainEntity (s : ParserState) (mi ci : ℕ) : ParserState :=
  match chainAt' s.st mi ci with
  | none => s
  | some c =>
    let r := set_for_chain s c.name EntityType.Unknown
    { r.2 with st := setChainAt r.2.st mi ci (fun ch => { ch with entity := some r.1 }) }

/-- Number of chains of model `mi` (0 when the model does not exist). -/
def chainCountD (st : PStructure) (mi : ℕ) : ℕ :=
  ((modelAt' st mi).map (fun m => m.chains.length)).getD 0

/-- The chain loop of `EntitySetter::finalize` for one model (pdb.hpp lines
131-133). -/
def assignModelChains (s : ParserState) (mi : ℕ) : ParserState :=
  (List.range (chainCountD s.st mi)).foldl (fun s2 ci => assignChainEntity s2 mi ci) s

/-- The model/chain loop of `EntitySetter::finalize` (pdb.hpp lines 130-133). -/
def assignEntities (s : ParserState) : ParserState :=
  (List.range s.st.models.length).foldl (fun s1 mi => assignModelChains s1 mi) s

/-- `EntitySetter::finalize` (pdb.hpp lines 121-138): merge entities with
equal nonempty sequences (redirecting the chain map to the earlier one), give
every chain its entity, then assign serial ids "1", "2", ... in list order. -/
def EntitySetter_finalize (s : ParserState) : ParserState :=
  let mr := mergeLoop s.st.entities
  let s1 := { s with
    st := { s.st with entities := mr.1 }
    entMap := s.entMap.map (fun kv => (kv.1, redirectTag mr.2 kv.2)) }
  let s2 := assignEntities s1
  let renum := s2.st.entities.enum.map (fun ke => (ke.2.1, { ke.2.2 with eid := toString (ke.1 + 1) }))
  { s2 with st := { s2.st with entities := renum } }

/-- `copy_line_from_stream`'s effect on the 88-byte buffer (pdb.hpp lines
200-210 with `fgets`): up to 81 bytes of the line, a NUL, and the stale tail
of the previous contents. -/
def writeBuf (buf l : List Char) : List Char :=
  let content := l.take 81
  content ++ '\x00' :: buf.drop (content.length + 1)

/-- The `wrong` lambda of `read_pdb_from_line_input` (pdb.hpp lines 248-250). -/
def wrongMsg (s : ParserState) (msg : String) : String :=
  "Problem in line " ++ toString s.lineNum ++ ": " ++ msg

/-- `if (!resi || !resi->matches(rid)) resi = chain->find_or_add_residue(rid);`
(pdb.hpp lines 283-284): keep the current residue when it matches the new
ResidueId, otherwise find or add one in the current chain. -/
def resolveResidue (s : ParserState) (mi ci : ℕ) (rid : ResidueIdQ) : ℕ × PStructure :=
  let keep : Option ℕ :=
    match s.resi with
    | some ri =>
      match (chainAt' s.st mi ci).bind (fun c => c.residues.get? ri) with
      | some r => if residueMatches r rid then some ri else none
      | none => none
    | none => none
  match keep with
  | some ri => (ri, s.st)
  | none => find_or_add_residue s.st mi ci rid

/-- The shared tail of the ATOM/HETATM handler (pdb.hpp lines 277-296):
resolve the residue, then build the atom and append it.  A malformed charge
throws out of the reader. -/
def atomCore (s : ParserState) (mi ci : ℕ) (len : ℕ) :
    Except String (ParserState × Bool) :=
  let snic := read_snic (bufPtr s.buf 22)
  let rid : ResidueIdQ :=
    { seqnum := snic.seqnum, icode := snic.icode,
      rname := read_string (bufPtr s.buf 17) 3,
      segment := read_string (bufPtr s.buf 72) 4 }
  let rs : ℕ × PStructure := resolveResidue s mi ci rid
  match (if 78 < len then read_charge (s.buf.getD 78 '\x00') (s.buf.getD 79 '\x00')
         else .ok 0) with
  | .error e => .error e
  | .ok chg =>
    let atom : PAtom :=
      { name := read_string (bufPtr s.buf 12) 4
        group := Char.ofNat ((s.buf.getD 0 '\x00').toNat &&& 0xDF)
        altloc := if s.buf.getD 16 '\x00' = ' ' then '\x00' else s.buf.getD 16 '\x00'
        charge := chg
        element := String.mk [s.buf.getD 76 '\x00', s.buf.getD 77 '\x00']
        x := read_double (bufPtr s.buf 30) 8
        y := read_double (bufPtr s.buf 38) 8
        z := read_double (bufPtr s.buf 46) 8
        occ := read_double (bufPtr s.buf 54) 6
        b_iso := read_double (bufPtr s.buf 60) 6
        u11 := 0, u22 := 0, u33 := 0, u12 := 0, u13 := 0, u23 := 0 }
    .ok ({ s with
           st := setResidueAt rs.2 mi ci rs.1
             (fun r => { r with atoms := r.atoms ++ [atom] })
           chain := some (mi, ci)
           resi := some rs.1 }, true)

/-- The ATOM/HETATM branch (pdb.hpp lines 263-296).  When the current chain
is absent or its `auth_name` differs from columns 20-22, a (possibly
`_H`-suffixed, if this chain name was TER-terminated in this model) chain is
found or added and its `auth_name` set. -/
def handleAtom (s : ParserState) (len : ℕ) : Except String (ParserState × Bool) :=
  if len < 77 then
    .error (wrongMsg s ("The line is too short to be correct:\n"
      ++ String.mk (bufCString s.buf)))
  else
    let chain_name := read_string (bufPtr s.buf 20) 2
    let cur : Option (ℕ × ℕ) :=
      match s.chain with
      | some (mi, ci) =>
        if chain_name = chainAuthD s.st mi ci then some (mi, ci) else none
      | none => none
    match cur with
    | some (mi, ci) => atomCore s mi ci len
    | none =>
      match s.model with
      | none => .error (wrongMsg s "ATOM/HETATM between models")
      | some mi =>
        let ter := s.hasTer.contains (modelNameD s.st mi ++ "/" ++ chain_name)
        let r := find_or_add_chain s.st mi (chain_name ++ if ter then "_H" else "")
        let st2 := setChainAt r.2 mi r.1 (fun c => { c with auth_name := chain_name })
        atomCore { s with st := st2, chain := some (mi, r.1), resi := none } mi r.1 len

/-- Update the last atom of a residue's atom list (the `resi->atoms.back()`
reference of the ANISOU handler). -/
def modifyLastAtom (atoms : List PAtom) (f : PAtom → PAtom) : List PAtom :=
  listModify f (atoms.length - 1) atoms

/-- The ANISOU branch (pdb.hpp lines 298-311). -/
def handleAnisou (s : ParserState) : Except String (ParserState × Bool) :=
  match s.model, s.chain, s.resi with
  | some _, some (mi, ci), some ri =>
    match (chainAt' s.st mi ci).bind (fun c => c.residues.get? ri) with
    | some r =>
      match r.atoms.getLast? with
      | some atom =>
        if atom.u11 ≠ 0 then
          .error (wrongMsg s "Duplicated ANISOU record or not directly after ATOM/HETATM.")
        else
          .ok ({ s with st := setResidueAt s.st mi ci ri (fun r =>
            { r with atoms := modifyLastAtom r.atoms (fun a =>
              { a with
                u11 := (read_int (bufPtr s.buf 28) 7 : ℚ) * (1 / 10000)
                u22 := (read_int (bufPtr s.buf 35) 7 : ℚ) * (1 / 10000)
                u33 := (read_int (bufPtr s.buf 42) 7 : ℚ) * (1 / 10000)
                u12 := (read_int (bufPtr s.buf 49) 7 : ℚ) * (1 / 10000)
                u13 := (read_int (bufPtr s.buf 56) 7 : ℚ) * (1 / 10000)
                u23 := (read_int (bufPtr s.buf 63) 7 : ℚ) * (1 / 10000) }) }) }, true)
      | none => .error (wrongMsg s "ANISOU record not directly after ATOM/HETATM.")
    | none => .error (wrongMsg s "ANISOU record not directly after ATOM/HETATM.")
  | _, _, _ => .error (wrongMsg s "ANISOU record not directly after ATOM/HETATM.")

/-- The SEQRES branch (pdb.hpp lines 319-326): register a Polymer entity for
the chain name and append the up-to-13 nonempty monomer names. -/
def handleSeqres (s : ParserState) : Except String (ParserState × Bool) :=
  let chain_name := read_string (bufPtr s.buf 10) 2
  let r := set_for_chain s chain_name EntityType.Polymer
  let names := (List.range 13).map (fun k => read_string (bufPtr r.2.buf (19 + 4 * k)) 3)
  .ok ({ r.2 with st := { r.2.st with entities := r.2.st.entities.map (fun te =>
      if te.1 = r.1 then
        (te.1, { te.2 with sequence := te.2.sequence ++ names.filter (fun n => n ≠ "") })
      else te) } }, true)

/-- The HEADER branch (pdb.hpp lines 328-342). -/
def handleHeader (s : ParserState) (len : ℕ) : Except String (ParserState × Bool) :=
  let s1 := if 50 < len then
      { s with st := { s.st with info := infoSet s.st.info "_struct_keywords.pdbx_keywords" (rtrimmed (bufSub s.buf 10 40)) } }
    else s
  let s2 := if 59 < len then
      let date := bufSub s1.buf 50 9
      let m := strstrIdx monthsChars ((date.drop 3).take 3)
      let val := (if '6' < date.getD 7 '\x00' then "19" else "20")
        ++ String.mk ((date.drop 7).take 2) ++ "-"
        ++ (match m with
            | some idx => String.mk ((monthsChars.drop (idx + 3)).take 2)
            | none => "??")
        ++ "-" ++ String.mk (date.take 2)
      { s1 with st := { s1.st with info := infoSet s1.st.info "_pdbx_database_status.recvd_initial_deposition_date" val } }
    else s1
  let s3 := if 66 < len then
      { s2 with st := { s2.st with info := infoSet s2.st.info "_entry.id" (String.mk (bufSub s2.buf 62 4)) } }
    else s2
  .ok (s3, true)

/-- The TITLE/KEYWDS/EXPDTA branches (pdb.hpp lines 344-355): append the
right-trimmed text from column 10 to the given info key. -/
def handleInfoAppend (s : ParserState) (len : ℕ) (key : String) :
    Except String (ParserState × Bool) :=
  if 10 < len then
    .ok ({ s with st := { s.st with info := infoAppend s.st.info key (rtrimmed (bufSub s.buf 10 (len - 10 - 1))) } }, true)
  else .ok (s, true)

/-- The CRYST1 branch (pdb.hpp lines 357-371); a failing `cell.set`
propagates out of the reader. -/
noncomputable def handleCryst (s : ParserState) (len : ℕ) :
    Except String (ParserState × Bool) :=
  match (if 54 < len then
      UnitCell.set s.st.cell
        ((read_double (bufPtr s.buf 6) 9 : ℚ) : ℝ)
        ((read_double (bufPtr s.buf 15) 9 : ℚ) : ℝ)
        ((read_double (bufPtr s.buf 24) 9 : ℚ) : ℝ)
        ((read_double (bufPtr s.buf 33) 7 : ℚ) : ℝ)
        ((read_double (bufPtr s.buf 40) 7 : ℚ) : ℝ)
        ((read_double (bufPtr s.buf 47) 7 : ℚ) : ℝ)
    else .ok s.st.cell) with
  | .error e => .error e
  | .ok cell2 =>
    let s1 := { s with st := { s.st with cell := cell2 } }
    let s2 := if 56 < len then
        { s1 with st := { s1.st with sg_hm := read_string (bufPtr s1.buf 55) 11 } }
      else s1
    let s3 := if 67 < len then
        let z := read_string (bufPtr s2.buf 66) 4
        if z ≠ "" then
          { s2 with st := { s2.st with info := infoSet s2.st.info "_cell.Z_PDB" z } }
        else s2
      else s2
    .ok (s3, true)

/-- The MTRIXn branch (pdb.hpp lines 372-378): on a completed non-identity
row-3 matrix, push the NCS operator and reset the accumulator. -/
def handleMtrix (s : ParserState) (len : ℕ) : Except String (ParserState × Bool) :=
  let rm := read_matrix s.matrix (bufPtr s.buf 0) len
  if rm.1 = 3 ∧ rm.2 ≠ Mat4x4.identity then
    .ok ({ s with
           st := { s.st with ncs := s.st.ncs ++
             [{ nid := read_string (bufPtr s.buf 7) 3,
                given := decide (59 < len ∧ s.buf.getD 59 '\x00' = '1'),
                tr := rm.2 }] }
           matrix := Mat4x4.identity }, true)
  else .ok ({ s with matrix := rm.2 }, true)

/-- The MODEL branch (pdb.hpp lines 379-386). -/
def handleModel (s : ParserState) : Except String (ParserState × Bool) :=
  if s.model.isSome ∧ s.chain.isSome then .error (wrongMsg s "MODEL without ENDMDL?")
  else
    let name := toString (read_int (bufPtr s.buf 10) 4)
    let r := find_or_add_model s.st name
    if (((modelAt' r.2 r.1).map (fun m => m.chains.isEmpty)).getD true) = false then
      .error (wrongMsg s ("duplicate MODEL number: " ++ name))
    else .ok ({ s with st := r.2, model := some r.1, chain := none }, true)

/-- The ENDMDL branch (pdb.hpp lines 388-390). -/
def handleEndmdl (s : ParserState) : Except String (ParserState × Bool) :=
  .ok ({ s with model := none, chain := none }, true)

/-- The TER branch (pdb.hpp lines 392-395): record "model/chain" for a
current chain (the current model is always set when a chain is current) and
close the chain. -/
def handleTer (s : ParserState) : Except String (ParserState × Bool) :=
  match s.chain with
  | some (mi, ci) =>
    .ok ({ s with
           hasTer := s.hasTer ++
             [((s.model.map (fun m => modelNameD s.st m)).getD "") ++ "/"
               ++ chainNameD s.st mi ci]
           chain := none }, true)
  | none => .ok ({ s with chain := none }, true)

/-- The SCALEn branch (pdb.hpp lines 397-401). -/
noncomputable def handleScale (s : ParserState) (len : ℕ) :
    Except String (ParserState × Bool) :=
  let rm := read_matrix s.matrix (bufPtr s.buf 0) len
  if rm.1 = 3 then
    .ok ({ s with
           st := { s.st with cell := s.st.cell.set_matrices_from_fract rm.2.toTransform }
           matrix := Mat4x4.identity }, true)
  else .ok ({ s with matrix := rm.2 }, true)

/-- The ORIGX branch (pdb.hpp lines 403-405): the completed matrix is stored
in `origx`, but — unlike MTRIXn and SCALEn — the accumulator is NOT reset. -/
def handleOrigx (s : ParserState) (len : ℕ) : Except String (ParserState × Bool) :=
  let rm := read_matrix s.matrix (bufPtr s.buf 0) len
  if rm.1 = 3 then
    .ok ({ s with st := { s.st with origx := rm.2 }, matrix := rm.2 }, true)
  else .ok ({ s with matrix := rm.2 }, true)

/-- The SSBOND branch (pdb.hpp lines 407-410). -/
def handleSsbond (s : ParserState) : Except String (ParserState × Bool) :=
  let record := bufCString s.buf
  if 34 < record.length then
    .ok ({ s with connRecords := s.connRecords ++ [String.mk record] }, true)
  else .ok (s, true)

/-- The CISPEP branch (pdb.hpp lines 412-415). -/
def handleCispep (s : ParserState) : Except String (ParserState × Bool) :=
  let record := bufCString s.buf
  if 21 < record.length then
    .ok ({ s with connRecords := s.connRecords ++ [String.mk record] }, true)
  else .ok (s, true)

/-- The record-type dispatch chain of `read_pdb_from_line_input` (pdb.hpp
lines 262-421), in source order; the returned flag is false after END. -/
noncomputable def dispatch (s : ParserState) (len : ℕ) :
    Except String (ParserState × Bool) :=
  if is_record_type s.buf "ATOM" || is_record_type s.buf "HETATM" then handleAtom s len
  else if is_record_type s.buf "ANISOU" then handleAnisou s
  else if is_record_type s.buf "REMARK" then .ok (s, true)
  else if is_record_type s.buf "CONECT" then .ok (s, true)
  else if is_record_type s.buf "SEQRES" then handleSeqres s
  else if is_record_type s.buf "HEADER" then handleHeader s len
  else if is_record_type s.buf "TITLE" then handleInfoAppend s len "_struct.title"
  else if is_record_type s.buf "KEYWDS" then handleInfoAppend s len "_struct_keywords.text"
  else if is_record_type s.buf "EXPDTA" then handleInfoAppend s len "_exptl.method"
  else if is_record_type s.buf "CRYST1" then handleCryst s len
  else if is_record_type s.buf "MTRIXn" then handleMtrix s len
  else if is_record_type s.buf "MODEL" then handleModel s
  else if is_record_type s.buf "ENDMDL" then handleEndmdl s
  else if is_record_type s.buf "TER" then handleTer s
  else if is_record_type s.buf "SCALEn" then handleScale s len
  else if is_record_type s.buf "ORIGX" then handleOrigx s len
  else if is_record_type s.buf "SSBOND" then handleSsbond s
  else if is_record_type s.buf "CISPEP" then handleCispep s
  else if is_record_type s.buf "END" then .ok (s, false)
  else .ok (s, true)

/-- One iteration of the reader loop: copy the line into the persistent
buffer (`len` is the trimmed length, at most 81), bump the line counter,
dispatch on the record type. -/
noncomputable def step (s0 : ParserState) (l : List Char) :
    Except String (ParserState × Bool) :=
  let s := { s0 with buf := writeBuf s0.buf l, lineNum := s0.lineNum + 1 }
  dispatch s (min l.length 81)

/-- The `while (size_t len = copy_line(...))` loop: an empty line (EOF) or an
END record stops; errors propagate. -/
noncomputable def processLines (s : ParserState) : List (List Char) → Except String ParserState
  | [] => .ok s
  | l :: rest =>
    if l.length = 0 then .ok s
    else
      match step s l with
      | .error e => .error e
      | .ok (s1, cont) => if cont then processLines s1 rest else .ok s1

/-- The initial state of `read_pdb_from_line_input` (pdb.hpp lines 247-260):
a structure named after the source with one model "1" (the current model),
no chain, identity accumulator, empty 88-byte buffer. -/
noncomputable def initState (source : String) : ParserState :=
  { st := { sname := pathBasename source, info := [], cell := defaultUnitCell,
            sg_hm := "", origx := Mat4x4.identity, ncs := [],
            models := [{ mname := "1", chains := [] }], entities := [] }
    hasTer := []
    connRecords := []
    model := some 0
    chain := none
    resi := none
    matrix := Mat4x4.identity
    buf := List.replicate 88 '\x00'
    lineNum := 0
    entMap := []
    nextTag := 0 }

/-- Run the reader on a list of lines (errors mapped to the initial state);
a convenience for stating end-to-end facts about concrete inputs. -/
noncomputable def runParser (source : String) (lines : List (List Char)) : ParserState :=
  match processLines (initState source) lines with
  | .ok s => s
  | .error _ => initState source

/-- A concrete four-line input: SEQRES for chains A and B with identical
two-monomer sequences, then one (blank-fielded) ATOM for each chain. -/
def entLines : List (List Char) :=
  ["SEQRES".toList ++ List.replicate 4 ' ' ++ " A".toList ++ List.replicate 7 ' ' ++ "ALA GLY".toList,
   "SEQRES".toList ++ List.replicate 4 ' ' ++ " B".toList ++ List.replicate 7 ' ' ++ "ALA GLY".toList,
   "ATOM".toList ++ List.replicate 16 ' ' ++ " A".toList ++ List.replicate 55 ' ',
   "ATOM".toList ++ List.replicate 16 ' ' ++ " B".toList ++ List.replicate 55 ' ']

/-- A concrete three-line input: an ATOM in chain A, a TER, and another ATOM
with the same chain-name columns. -/
def terLines : List (List Char) :=
  ["ATOM".toList ++ List.replicate 16 ' ' ++ " A".toList ++ List.replicate 55 ' ',
   "TER".toList,
   "ATOM".toList ++ List.replicate 16 ' ' ++ " A".toList ++ List.replicate 55 ' ']

/-- The entity tag stored on a chain (`none` when the chain does not exist). -/
def chainEntityD (st : PStructure) (mi ci : ℕ) : Option ℕ :=
  ((chainAt' st mi ci).map (fun c => c.entity)).getD none

/-- Total number of atoms in a chain, summed over its residues. -/
def atomCountAt (st : PStructure) (mi ci : ℕ) : ℕ :=
  ((chainAt' st mi ci).map (fun c => (c.residues.map (fun r => r.atoms.length)).sum)).getD 0

/-- The invariant maintained by the reader loop: the current model index is
valid; a current chain lives in the current model at a valid index; and a
current chain whose model/auth_name key has been TER-recorded carries the
`_H`-suffixed name. -/
def ReaderInv (s : ParserState) : Prop :=
  (∀ mi, s.model = some mi → mi < s.st.models.length) ∧
  (∀ mi ci, s.chain = some (mi, ci) → s.model = some mi ∧ ci < chainCountD s.st mi) ∧
  (∀ mi ci, s.chain = some (mi, ci) →
    (modelNameD s.st mi ++ "/" ++ chainAuthD s.st mi ci) ∈ s.hasTer →
    chainNameD s.st mi ci = chainAuthD s.st mi ci ++ "_H")

/-! ### Helper lemmas about characters -/

theorem char_eq_iff_toNat (a b : Char) : a = b ↔ a.toNat = b.toNat := by
  constructor
  · intro h; rw [h]
  · intro h; exact Char.eq_of_val_eq (UInt32.ext h)

theorem char_lt_iff_toNat (a b : Char) : a < b ↔ a.toNat < b.toNat := Iff.rfl

theorem charOfNat_toNat (n : ℕ) (h : n < 55296) : (Char.ofNat n).toNat = n := by
  have hv : Nat.isValidChar n := Or.inl (by omega)
  unfold Char.ofNat
  rw [dif_pos hv]
  rfl

theorem cIsSpace_iff (c : Char) :
    cIsSpace c = true ↔
      c.toNat = 32 ∨ c.toNat = 9 ∨ c.toNat = 10 ∨ c.toNat = 11 ∨
        c.toNat = 12 ∨ c.toNat = 13 := by
  have h32 : (' ' : Char).toNat = 32 := rfl
  have h9 : ('\t' : Char).toNat = 9 := rfl
  have h10 : ('\n' : Char).toNat = 10 := rfl
  have h11 : ('\x0b' : Char).toNat = 11 := rfl
  have h12 : ('\x0c' : Char).toNat = 12 := rfl
  have h13 : ('\r' : Char).toNat = 13 := rfl
  simp only [cIsSpace, Bool.or_eq_true, beq_iff_eq, char_eq_iff_toNat,
    h32, h9, h10, h11, h12, h13]
  tauto

theorem cIsDigit_iff (c : Char) :
    cIsDigit c = true ↔ 48 ≤ c.toNat ∧ c.toNat ≤ 57 := by
  simp [cIsDigit]

theorem decDigit_toNat (d : ℕ) (h : d ≤ 9) : (decDigit d).toNat = 48 + d :=
  charOfNat_toNat _ (by omega)

theorem cIsSpace_decDigit (d : ℕ) (h : d ≤ 9) : cIsSpace (decDigit d) = false := by
  rw [Bool.eq_false_iff]
  intro hsp
  rw [cIsSpace_iff, decDigit_toNat d h] at hsp
  omega

theorem cIsDigit_decDigit (d : ℕ) (h : d ≤ 9) : cIsDigit (decDigit d) = true := by
  rw [cIsDigit_iff, decDigit_toNat d h]
  omega

theorem decDigit_ne_minus (d : ℕ) (h : d ≤ 9) : decDigit d ≠ '-' := by
  have hm : ('-' : Char).toNat = 45 := rfl
  rw [Ne, char_eq_iff_toNat, decDigit_toNat d h, hm]
  omega

theorem decDigit_ne_plus (d : ℕ) (h : d ≤ 9) : decDigit d ≠ '+' := by
  have hm : ('+' : Char).toNat = 43 := rfl
  rw [Ne, char_eq_iff_toNat, decDigit_toNat d h, hm]
  omega

theorem decDigit_lt_A (d : ℕ) (h : d ≤ 9) : decDigit d < 'A' := by
  have hm : ('A' : Char).toNat = 65 := rfl
  rw [char_lt_iff_toNat, decDigit_toNat d h, hm]
  omega

theorem decDigit_val (d : ℕ) (h : d ≤ 9) : ((decDigit d).toNat : ℤ) - 48 = d := by
  rw [decDigit_toNat d h]
  omega

theorem b36UpperDigit_toNat (d : ℕ) (h : d < 36) :
    (b36UpperDigit d).toNat = if d < 10 then 48 + d else 55 + d := by
  unfold b36UpperDigit
  by_cases hd : d < 10
  · rw [if_pos hd, if_pos hd]
    exact charOfNat_toNat _ (by omega)
  · rw [if_neg hd, if_neg hd]
    exact charOfNat_toNat _ (by omega)

theorem cIsSpace_b36UpperDigit (d : ℕ) (h : d < 36) :
    cIsSpace (b36UpperDigit d) = false := by
  rw [Bool.eq_false_iff]
  intro hsp
  rw [cIsSpace_iff, b36UpperDigit_toNat d h] at hsp
  by_cases hd : d < 10 <;> simp [hd] at hsp <;> omega

theorem b36UpperDigit_ne_minus (d : ℕ) (h : d < 36) : b36UpperDigit d ≠ '-' := by
  have hm : ('-' : Char).toNat = 45 := rfl
  rw [Ne, char_eq_iff_toNat, b36UpperDigit_toNat d h, hm]
  by_cases hd : d < 10 <;> simp [hd] <;> omega

theorem b36UpperDigit_ne_plus (d : ℕ) (h : d < 36) : b36UpperDigit d ≠ '+' := by
  have hm : ('+' : Char).toNat = 43 := rfl
  rw [Ne, char_eq_iff_toNat, b36UpperDigit_toNat d h, hm]
  by_cases hd : d < 10 <;> simp [hd] <;> omega

theorem base36DigitVal_b36UpperDigit (d : ℕ) (h : d < 36) :
    base36DigitVal (b36UpperDigit d) = some d := by
  unfold base36DigitVal
  rw [b36UpperDigit_toNat d h]
  by_cases hd : d < 10
  · rw [if_pos hd, if_pos (by omega)]
    congr 1
    omega
  · rw [if_neg hd, if_neg (by omega), if_pos (by omega)]
    congr 1
    omega

theorem not_b36UpperDigit_lt_A (d : ℕ) (h10 : 10 ≤ d) (h : d < 36) :
    ¬ b36UpperDigit d < 'A' := by
  have hm : ('A' : Char).toNat = 65 := rfl
  rw [char_lt_iff_toNat, b36UpperDigit_toNat d h, hm]
  simp only [if_neg (by omega : ¬ d < 10)]
  omega

/-! ### Hybrid-36 roundtrip lemmas (claim C3) -/

theorem decode_dec1 (n : ℕ) (hn : n ≤ 9) :
    (read_snic (bufPtr ([' ', ' ', ' ', decDigit n] ++ [' ']) 0)).seqnum = n := by
  have hp0 : bufPtr ([' ', ' ', ' ', decDigit n] ++ [' ']) 0 0 = ' ' := rfl
  have hp1 : bufPtr ([' ', ' ', ' ', decDigit n] ++ [' ']) 0 1 = ' ' := rfl
  have hp2 : bufPtr ([' ', ' ', ' ', decDigit n] ++ [' ']) 0 2 = ' ' := rfl
  have hp3 : bufPtr ([' ', ' ', ' ', decDigit n] ++ [' ']) 0 3 = decDigit n := rfl
  have hsp : cIsSpace ' ' = true := rfl
  rw [read_snic]
  simp only [read_int, read_int_instr, skipSpacesFrom, readDigitsInt,
    hp0, hp1, hp2, hp3, hsp, cIsSpace_decDigit n hn, cIsDigit_decDigit n hn,
    if_true, if_false, Bool.true_eq_false, Bool.false_eq_true,
    if_neg (decDigit_ne_minus n hn), if_neg (decDigit_ne_plus n hn)]
  rw [if_pos (by decide : (' ' : Char) < 'A')]
  rw [decDigit_toNat n hn]
  push_cast
  omega

theorem decode_dec2 (n : ℕ) (hn1 : 10 ≤ n) (hn : n ≤ 99) :
    (read_snic (bufPtr ([' ', ' ', decDigit (n / 10), decDigit (n % 10)] ++ [' ']) 0)).seqnum
      = n := by
  have hd1 : n / 10 ≤ 9 := by omega
  have hd0 : n % 10 ≤ 9 := by omega
  have hp0 : bufPtr ([' ', ' ', decDigit (n / 10), decDigit (n % 10)] ++ [' ']) 0 0 = ' ' := rfl
  have hp1 : bufPtr ([' ', ' ', decDigit (n / 10), decDigit (n % 10)] ++ [' ']) 0 1 = ' ' := rfl
  have hp2 : bufPtr ([' ', ' ', decDigit (n / 10), decDigit (n % 10)] ++ [' ']) 0 2
      = decDigit (n / 10) := rfl
  have hp3 : bufPtr ([' ', ' ', decDigit (n / 10), decDigit (n % 10)] ++ [' ']) 0 3
      = decDigit (n % 10) := rfl
  have hsp : cIsSpace ' ' = true := rfl
  rw [read_snic]
  simp only [read_int, read_int_instr, skipSpacesFrom, readDigitsInt,
    hp0, hp1, hp2, hp3, hsp, cIsSpace_decDigit _ hd1, cIsSpace_decDigit _ hd0,
    cIsDigit_decDigit _ hd1, cIsDigit_decDigit _ hd0, if_true, if_false,
    Bool.true_eq_false, Bool.false_eq_true,
    if_neg (decDigit_ne_minus _ hd1), if_neg (decDigit_ne_plus _ hd1)]
  rw [if_pos (by decide : (' ' : Char) < 'A')]
  rw [decDigit_toNat _ hd1, decDigit_toNat _ hd0]
  push_cast
  omega

theorem decode_dec3 (n : ℕ) (hn1 : 100 ≤ n) (hn : n ≤ 999) :
    (read_snic (bufPtr
      ([' ', decDigit (n / 100), decDigit (n / 10 % 10), decDigit (n % 10)] ++ [' ']) 0)).seqnum
      = n := by
  have hd2 : n / 100 ≤ 9 := by omega
  have hd1 : n / 10 % 10 ≤ 9 := by omega
  have hd0 : n % 10 ≤ 9 := by omega
  have hp0 : bufPtr ([' ', decDigit (n / 100), decDigit (n / 10 % 10), decDigit (n % 10)]
      ++ [' ']) 0 0 = ' ' := rfl
  have hp1 : bufPtr ([' ', decDigit (n / 100), decDigit (n / 10 % 10), decDigit (n % 10)]
      ++ [' ']) 0 1 = decDigit (n / 100) := rfl
  have hp2 : bufPtr ([' ', decDigit (n / 100), decDigit (n / 10 % 10), decDigit (n % 10)]
      ++ [' ']) 0 2 = decDigit (n / 10 % 10) := rfl
  have hp3 : bufPtr ([' ', decDigit (n / 100), decDigit (n / 10 % 10), decDigit (n % 10)]
      ++ [' ']) 0 3 = decDigit (n % 10) := rfl
  have hsp : cIsSpace ' ' = true := rfl
  rw [read_snic]
  simp only [read_int, read_int_instr, skipSpacesFrom, readDigitsInt,
    hp0, hp1, hp2, hp3, hsp, cIsSpace_decDigit _ hd2, cIsSpace_decDigit _ hd1,
    cIsSpace_decDigit _ hd0, cIsDigit_decDigit _ hd2, cIsDigit_decDigit _ hd1,
    cIsDigit_decDigit _ hd0, if_true, if_false, Bool.true_eq_false, Bool.false_eq_true,
    if_neg (decDigit_ne_minus _ hd2), if_neg (decDigit_ne_plus _ hd2)]
  rw [if_pos (by decide : (' ' : Char) < 'A')]
  rw [decDigit_toNat _ hd2, decDigit_toNat _ hd1, decDigit_toNat _ hd0]
  push_cast
  omega

theorem decode_dec4 (n : ℕ) (hn1 : 1000 ≤ n) (hn : n ≤ 9999) :
    (read_snic (bufPtr
      ([decDigit (n / 1000), decDigit (n / 100 % 10), decDigit (n / 10 % 10),
        decDigit (n % 10)] ++ [' ']) 0)).seqnum = n := by
  have hd3 : n / 1000 ≤ 9 := by omega
  have hd2 : n / 100 % 10 ≤ 9 := by omega
  have hd1 : n / 10 % 10 ≤ 9 := by omega
  have hd0 : n % 10 ≤ 9 := by omega
  have hp0 : bufPtr ([decDigit (n / 1000), decDigit (n / 100 % 10), decDigit (n / 10 % 10),
      decDigit (n % 10)] ++ [' ']) 0 0 = decDigit (n / 1000) := rfl
  have hp1 : bufPtr ([decDigit (n / 1000), decDigit (n / 100 % 10), decDigit (n / 10 % 10),
      decDigit (n % 10)] ++ [' ']) 0 1 = decDigit (n / 100 % 10) := rfl
  have hp2 : bufPtr ([decDigit (n / 1000), decDigit (n / 100 % 10), decDigit (n / 10 % 10),
      decDigit (n % 10)] ++ [' ']) 0 2 = decDigit (n / 10 % 10) := rfl
  have hp3 : bufPtr ([decDigit (n / 1000), decDigit (n / 100 % 10), decDigit (n / 10 % 10),
      decDigit (n % 10)] ++ [' ']) 0 3 = decDigit (n % 10) := rfl
  rw [read_snic]
  simp only [read_int, read_int_instr, skipSpacesFrom, readDigitsInt,
    hp0, hp1, hp2, hp3, cIsSpace_decDigit _ hd3, cIsSpace_decDigit _ hd2,
    cIsSpace_decDigit _ hd1, cIsSpace_decDigit _ hd0, cIsDigit_decDigit _ hd3,
    cIsDigit_decDigit _ hd2, cIsDigit_decDigit _ hd1, cIsDigit_decDigit _ hd0,
    if_true, if_false, Bool.true_eq_false, Bool.false_eq_true,
    if_neg (decDigit_ne_minus _ hd3), if_neg (decDigit_ne_plus _ hd3)]
  rw [if_pos (decDigit_lt_A _ hd3)]
  rw [decDigit_toNat _ hd3, decDigit_toNat _ hd2, decDigit_toNat _ hd1, decDigit_toNat _ hd0]
  push_cast
  omega

theorem decode_b36_core (m : ℕ) (h1 : 466560 ≤ m) (h2 : m ≤ 1679615) :
    (read_snic (bufPtr
      ([b36UpperDigit (m / 46656), b36UpperDigit (m / 1296 % 36),
        b36UpperDigit (m / 36 % 36), b36UpperDigit (m % 36)] ++ [' ']) 0)).seqnum
      = (m : ℤ) - 466560 + 10000 := by
  have hq0a : 10 ≤ m / 46656 := by omega
  have hq0 : m / 46656 < 36 := by omega
  have hq1 : m / 1296 % 36 < 36 := by omega
  have hq2 : m / 36 % 36 < 36 := by omega
  have hq3 : m % 36 < 36 := by omega
  have hp0 : bufPtr ([b36UpperDigit (m / 46656), b36UpperDigit (m / 1296 % 36),
      b36UpperDigit (m / 36 % 36), b36UpperDigit (m % 36)] ++ [' ']) 0 0
      = b36UpperDigit (m / 46656) := rfl
  have hrange : (List.range 4).map (bufPtr ([b36UpperDigit (m / 46656),
      b36UpperDigit (m / 1296 % 36), b36UpperDigit (m / 36 % 36),
      b36UpperDigit (m % 36)] ++ [' ']) 0) =
      [b36UpperDigit (m / 46656), b36UpperDigit (m / 1296 % 36),
       b36UpperDigit (m / 36 % 36), b36UpperDigit (m % 36)] := rfl
  rw [read_snic]
  rw [if_neg (by rw [hp0]; exact not_b36UpperDigit_lt_A _ hq0a hq0)]
  rw [read_base36, hrange]
  rw [strtol36]
  simp only [cIsSpace_b36UpperDigit _ hq0, Bool.false_eq_true, if_false,
    if_neg (b36UpperDigit_ne_minus _ hq0), if_neg (b36UpperDigit_ne_plus _ hq0)]
  simp only [strtolDigits, base36DigitVal_b36UpperDigit _ hq0,
    base36DigitVal_b36UpperDigit _ hq1, base36DigitVal_b36UpperDigit _ hq2,
    base36DigitVal_b36UpperDigit _ hq3]
  push_cast
  omega

/-- C3 (counterexample): `read_snic` decodes `"ZZZZ"` to 1223055, not 2436111
as the claim states; the value 2436111 is the top of hybrid-36's lowercase
range `"zzzz"`, which `strtol`'s case-insensitive base-36 collapses onto the
uppercase range (`"a000"` decodes to 10000, not 1223056). -/
theorem c3_counterexample :
    (read_snic (bufPtr "ZZZZ ".toList 0)).seqnum ≠ 2436111 ∧
    (read_snic (bufPtr "ZZZZ ".toList 0)).seqnum = 1223055 ∧
    (read_snic (bufPtr "a000 ".toList 0)).seqnum ≠ 1223056 := by
  refine ⟨by decide, by decide, by decide⟩

/-- C3 (amended): `read_snic` decodes a first byte below `'A'` as signed
decimal and anything else as base-36 minus 466560 plus 10000; decoding
`"9999"` gives 9999, `"A000"` gives 10000, `"ZZZZ"` gives 1223055, and for
every `n ≤ 1223055` (the top of the uppercase 4-character hybrid-36 range)
decoding the 4-character hybrid-36 encoding of `n` returns `n`. -/
theorem c3_hybrid36_decoding :
    (read_snic (bufPtr "9999 ".toList 0)).seqnum = 9999 ∧
    (read_snic (bufPtr "A000 ".toList 0)).seqnum = 10000 ∧
    (read_snic (bufPtr "ZZZZ ".toList 0)).seqnum = 1223055 ∧
    ∀ n : ℕ, n ≤ 1223055 →
      (read_snic (bufPtr (encodeHybrid36 n ++ [' ']) 0)).seqnum = n := by
  refine ⟨by decide, by decide, by decide, ?_⟩
  intro n hn
  by_cases h9 : n ≤ 9
  · rw [encodeHybrid36, if_pos h9]
    exact decode_dec1 n h9
  · by_cases h99 : n ≤ 99
    · rw [encodeHybrid36, if_neg h9, if_pos h99]
      exact decode_dec2 n (by omega) h99
    · by_cases h999 : n ≤ 999
      · rw [encodeHybrid36, if_neg h9, if_neg h99, if_pos h999]
        exact decode_dec3 n (by omega) h999
      · by_cases h9999 : n ≤ 9999
        · rw [encodeHybrid36, if_neg h9, if_neg h99, if_neg h999, if_pos h9999]
          exact decode_dec4 n (by omega) h9999
        · rw [encodeHybrid36, if_neg h9, if_neg h99, if_neg h999, if_neg h9999]
          generalize hgen : n - 10000 + 466560 = m
          have h1 : 466560 ≤ m := by omega
          have h2 : m ≤ 1679615 := by omega
          rw [decode_b36_core m h1 h2]
          omega

/-- C3 (witness): the amended roundtrip at the concrete input 123456. -/
theorem c3_hybrid36_decoding_witness :
    (read_snic (bufPtr (encodeHybrid36 123456 ++ [' ']) 0)).seqnum = 123456 :=
  c3_hybrid36_decoding.2.2.2 123456 (by norm_num)

/-! ### Blank-field lemmas (claim C4) -/

theorem skipSpacesFrom_all (p : ℕ → Char) (fuel : ℕ) :
    ∀ i, (∀ j, j < fuel → cIsSpace (p (i + j)) = true) →
      skipSpacesFrom p i fuel = (i + fuel, (List.range fuel).map (i + ·)) := by
  induction fuel with
  | zero => intro i _; simp [skipSpacesFrom]
  | succ fuel ih =>
    intro i h
    have h0 : cIsSpace (p i) = true := by simpa using h 0 (by omega)
    have hrest : ∀ j, j < fuel → cIsSpace (p (i + 1 + j)) = true := by
      intro j hj
      have hh := h (j + 1) (by omega)
      rwa [show i + (j + 1) = i + 1 + j by omega] at hh
    simp only [skipSpacesFrom, h0, if_true]
    rw [ih (i + 1) hrest]
    rw [List.range_succ_eq_map]
    simp only [Prod.mk.injEq, List.map_cons, List.map_map, Nat.add_zero, List.cons.injEq]
    refine ⟨by omega, trivial, ?_⟩
    apply List.map_congr_left
    intro j _
    simp only [Function.comp_apply]
    omega

theorem skipSpacesFrom_all0 (p : ℕ → Char) (fl : ℕ) (h : ∀ i, i < fl → p i = ' ') :
    skipSpacesFrom p 0 fl = (fl, List.range fl) := by
  have hsp : ∀ j, j < fl → cIsSpace (p (0 + j)) = true := by
    intro j hj
    rw [Nat.zero_add, h j hj]
    rfl
  rw [skipSpacesFrom_all p fl 0 hsp]
  rw [Nat.zero_add]
  congr 1
  have : ∀ j ∈ List.range fl, 0 + j = j := by intro j _; omega
  rw [List.map_congr_left this]
  simp

theorem read_int_instr_blank (p : ℕ → Char) (fl : ℕ) (h : ∀ i, i < fl → p i = ' ') :
    read_int_instr p fl = (0, List.range (fl + 1)) := by
  simp only [read_int_instr, skipSpacesFrom_all0 p fl h]
  by_cases hm : p fl = '-'
  · rw [if_pos hm, show fl - (fl + 1) = 0 from by omega]
    simp [readDigitsInt, List.range_succ]
  · rw [if_neg hm]
    by_cases hp2 : p fl = '+'
    · rw [if_pos hp2, show fl - (fl + 1) = 0 from by omega]
      simp [readDigitsInt, List.range_succ]
    · rw [if_neg hp2, show fl - fl = 0 from by omega]
      simp [readDigitsInt, List.range_succ]

theorem read_double_instr_blank (p : ℕ → Char) (fl : ℕ) (h : ∀ i, i < fl → p i = ' ') :
    read_double_instr p fl = (0, List.range (fl + 1)) := by
  simp only [read_double_instr, skipSpacesFrom_all0 p fl h]
  by_cases hm : p fl = '-'
  · rw [if_pos hm, show fl - (fl + 1) = 0 from by omega]
    simp [readDigitsRat, List.range_succ]
  · rw [if_neg hm]
    by_cases hp2 : p fl = '+'
    · rw [if_pos hp2, show fl - (fl + 1) = 0 from by omega]
      simp [readDigitsRat, List.range_succ]
    · rw [if_neg hp2, show fl - fl = 0 from by omega]
      simp [readDigitsRat, List.range_succ]

theorem lstripFrom_all (p : ℕ → Char) (fuel : ℕ) :
    ∀ i, (∀ j, j < fuel → cIsSpace (p (i + j)) = true) →
      lstripFrom p i fuel = (i + fuel, (List.range fuel).map (i + ·)) := by
  induction fuel with
  | zero => intro i _; simp [lstripFrom]
  | succ fuel ih =>
    intro i h
    have h0 : cIsSpace (p i) = true := by simpa using h 0 (by omega)
    have hrest : ∀ j, j < fuel → cIsSpace (p (i + 1 + j)) = true := by
      intro j hj
      have hh := h (j + 1) (by omega)
      rwa [show i + (j + 1) = i + 1 + j by omega] at hh
    simp only [lstripFrom, h0, if_true]
    rw [ih (i + 1) hrest]
    rw [List.range_succ_eq_map]
    simp only [Prod.mk.injEq, List.map_cons, List.map_map, Nat.add_zero, List.cons.injEq]
    refine ⟨by omega, trivial, ?_⟩
    apply List.map_congr_left
    intro j _
    simp only [Function.comp_apply]
    omega

theorem read_string_instr_blank (p : ℕ → Char) (fl : ℕ) (h : ∀ i, i < fl → p i = ' ') :
    read_string_instr p fl = ("", List.range fl) := by
  have hl : lstripFrom p 0 fl = (fl, List.range fl) := by
    have hsp : ∀ j, j < fl → cIsSpace (p (0 + j)) = true := by
      intro j hj
      rw [Nat.zero_add, h j hj]
      rfl
    rw [lstripFrom_all p fl 0 hsp, Nat.zero_add]
    congr 1
    have : ∀ j ∈ List.range fl, 0 + j = j := by intro j _; omega
    rw [List.map_congr_left this]
    simp
  simp only [read_string_instr, hl]
  rw [show fl - fl = 0 from by omega]
  simp [scanTerminator, rstripLen]

/-- C4 (counterexample): on a fully blank 4-byte field, `read_int` and
`read_double` do read the byte at index `field_length` (the unguarded sign
test `if (p[i] == '-')` after the whitespace loop), so "no byte at or beyond
index field_length is ever read" fails, even though the results are neutral. -/
theorem c4_counterexample :
    4 ∈ (read_int_instr (fun _ => ' ') 4).2 ∧
    4 ∈ (read_double_instr (fun _ => ' ') 4).2 ∧
    read_int (fun _ => ' ') 4 = 0 ∧ read_double (fun _ => ' ') 4 = 0 := by
  refine ⟨by decide, by decide, by decide, by decide⟩

/-- C4 (amended): on a buffer of exactly the declared field length containing
only ASCII spaces, every scanner returns its neutral value (0, 0.0, "");
`read_string` reads no byte at or beyond `field_length`, while `read_int` and
`read_double` additionally read the single byte at index `field_length` (the
unguarded sign test) and no byte beyond it. -/
theorem c4_blank_field (p : ℕ → Char) (fl : ℕ) (h : ∀ i, i < fl → p i = ' ') :
    read_int p fl = 0 ∧ read_double p fl = 0 ∧ read_string p fl = "" ∧
    (read_int_instr p fl).2 = List.range (fl + 1) ∧
    (read_double_instr p fl).2 = List.range (fl + 1) ∧
    (read_string_instr p fl).2 = List.range fl := by
  have hi := read_int_instr_blank p fl h
  have hd := read_double_instr_blank p fl h
  have hs := read_string_instr_blank p fl h
  refine ⟨?_, ?_, ?_, ?_, ?_, ?_⟩
  · rw [read_int, hi]
  · rw [read_double, hd]
  · rw [read_string, hs]
  · rw [hi]
  · rw [hd]
  · rw [hs]

/-- C4 (witness): the amended statement at field length 4 on a blank buffer. -/
theorem c4_blank_field_witness :
    read_int (fun _ => ' ') 4 = 0 ∧ read_double (fun _ => ' ') 4 = 0 ∧
    read_string (fun _ => ' ') 4 = "" ∧
    (read_int_instr (fun _ => ' ') 4).2 = List.range 5 ∧
    (read_double_instr (fun _ => ' ') 4).2 = List.range 5 ∧
    (read_string_instr (fun _ => ' ') 4).2 = List.range 4 :=
  c4_blank_field (fun _ => ' ') 4 (fun _ _ => rfl)

/-- C7 (counterexample): the pair `('X','Y')` matches neither the digit-sign
nor the sign-digit layout, yet `read_charge` returns 0 instead of failing
(the source comments "if we are here the field should be blank, but maybe
better not to check" and returns 0 whenever the digit position holds no
digit). -/
theorem c7_counterexample : read_charge 'X' 'Y' = .ok 0 := rfl

/-- C7 (amended): `read_charge` accepts both digit-sign and sign-digit
layouts ('2','+' and '+','2' give +2; '2','-' gives -2), returns 0 for a
blank pair, and fails exactly when, after swapping the pair if the second
byte is a digit, the digit position holds an ASCII digit and the sign
position holds a byte that is none of '+', '-', NUL or whitespace; pairs
whose digit position holds no digit (such as 'X','Y') return 0 silently. -/
theorem c7_read_charge :
    read_charge '2' '+' = .ok 2 ∧ read_charge '+' '2' = .ok 2 ∧
    read_charge '2' '-' = .ok (-2) ∧ read_charge ' ' ' ' = .ok 0 ∧
    read_charge '2' 'X' = .error "Wrong format for charge: 2X" ∧
    ∀ digit sign : Char,
      (∃ e, read_charge digit sign = .error e) ↔
      (¬(sign = ' ' ∧ digit = ' ') ∧
       (48 ≤ (if 48 ≤ sign.toNat ∧ sign.toNat ≤ 57 then sign else digit).toNat ∧
        (if 48 ≤ sign.toNat ∧ sign.toNat ≤ 57 then sign else digit).toNat ≤ 57) ∧
       (if 48 ≤ sign.toNat ∧ sign.toNat ≤ 57 then digit else sign) ≠ '+' ∧
       (if 48 ≤ sign.toNat ∧ sign.toNat ≤ 57 then digit else sign) ≠ '-' ∧
       (if 48 ≤ sign.toNat ∧ sign.toNat ≤ 57 then digit else sign) ≠ '\x00' ∧
       cIsSpace (if 48 ≤ sign.toNat ∧ sign.toNat ≤ 57 then digit else sign) = false) := by
  refine ⟨rfl, rfl, rfl, rfl, rfl, ?_⟩
  intro digit sign
  simp only [read_charge]
  split_ifs with h1 h2 h3 h4 <;> simp_all

/-! ### Unit-cell lemmas -/

theorem sinDeg_90 : sinDeg 90 = 1 := if_pos rfl

theorem cosDeg_90 : cosDeg 90 = 0 := if_pos rfl

theorem sinDeg_eq_zero_iff (x : ℝ) : sinDeg x = 0 ↔ ∃ k : ℤ, x = k * 180 := by
  unfold sinDeg
  by_cases h : x = 90
  · rw [if_pos h]
    constructor
    · intro h1
      exact absurd h1 one_ne_zero
    · rintro ⟨k, hk⟩
      rw [h] at hk
      have h2 : ((k * 180 : ℤ) : ℝ) = ((90 : ℤ) : ℝ) := by push_cast; linarith
      have h3 : (k * 180 : ℤ) = 90 := Int.cast_injective h2
      omega
  · rw [if_neg h, Real.sin_eq_zero_iff]
    have hpi : Real.pi ≠ 0 := Real.pi_ne_zero
    constructor
    · rintro ⟨n, hn⟩
      refine ⟨n, ?_⟩
      have h1 : x = 180 / Real.pi * (Real.pi / 180 * x) := by
        field_simp
        ring
      rw [h1, ← hn]
      field_simp
      ring
    · rintro ⟨k, hk⟩
      refine ⟨k, ?_⟩
      rw [hk]
      ring

theorem sinDeg_45_ne_zero : sinDeg 45 ≠ 0 := by
  rw [sinDeg, if_neg (by norm_num : (45 : ℝ) ≠ 90)]
  rw [show Real.pi / 180 * 45 = Real.pi / 4 by ring, Real.sin_pi_div_four]
  have h2 : Real.sqrt 2 ≠ 0 := by
    rw [Ne, Real.sqrt_eq_zero']
    norm_num
  intro hc
  apply h2
  field_simp at hc

/-- C9: a call `UnitCell::set(a,b,c,alpha,beta,gamma)` with `gamma != 0`
fails with the "Impossible angle" message exactly when some cell angle is an
integer multiple of 180 degrees (the snapped sine of 90-degree angles is 1,
every other multiple-of-180 angle has sine 0); otherwise the parameters are
stored and the derived properties are computed without error. -/
theorem c9_impossible_angle (u : UnitCell) (a b c alpha beta gamma : ℝ)
    (hg : gamma ≠ 0) :
    (UnitCell.set u a b c alpha beta gamma = .error "Impossible angle - N*180deg." ↔
      ((∃ k : ℤ, alpha = k * 180) ∨ (∃ k : ℤ, beta = k * 180) ∨
       (∃ k : ℤ, gamma = k * 180))) ∧
    (¬((∃ k : ℤ, alpha = k * 180) ∨ (∃ k : ℤ, beta = k * 180) ∨
       (∃ k : ℤ, gamma = k * 180)) →
      ∃ u', UnitCell.set u a b c alpha beta gamma = .ok u' ∧
        u'.a = a ∧ u'.b = b ∧ u'.c = c ∧ u'.alpha = alpha ∧ u'.beta = beta ∧
        u'.gamma = gamma) := by
  rw [UnitCell.set, if_neg hg]
  by_cases hc : sinDeg alpha = 0 ∨ sinDeg beta = 0 ∨ sinDeg gamma = 0
  · constructor
    · rw [UnitCell.calculate_properties]
      simp only [if_pos hc]
      simp only [true_iff]
      rcases hc with h | h | h
      · exact Or.inl ((sinDeg_eq_zero_iff _).mp h)
      · exact Or.inr (Or.inl ((sinDeg_eq_zero_iff _).mp h))
      · exact Or.inr (Or.inr ((sinDeg_eq_zero_iff _).mp h))
    · intro hmul
      exfalso
      apply hmul
      rcases hc with h | h | h
      · exact Or.inl ((sinDeg_eq_zero_iff _).mp h)
      · exact Or.inr (Or.inl ((sinDeg_eq_zero_iff _).mp h))
      · exact Or.inr (Or.inr ((sinDeg_eq_zero_iff _).mp h))
  · have hok : ∃ u', UnitCell.calculate_properties
        { u with a := a, b := b, c := c, alpha := alpha, beta := beta, gamma := gamma }
        = .ok u' ∧ u'.a = a ∧ u'.b = b ∧ u'.c = c ∧ u'.alpha = alpha ∧
        u'.beta = beta ∧ u'.gamma = gamma := by
      rw [UnitCell.calculate_properties]
      simp only [if_neg hc]
      by_cases he : u.explicit_matrices = true
      · rw [if_pos he]
        exact ⟨_, rfl, rfl, rfl, rfl, rfl, rfl, rfl⟩
      · rw [if_neg he]
        exact ⟨_, rfl, rfl, rfl, rfl, rfl, rfl, rfl⟩
    obtain ⟨u', hu', hfields⟩ := hok
    constructor
    · rw [hu']
      simp only [iff_iff_implies_and_implies]
      constructor
      · intro hcontra
        exact absurd hcontra (by simp)
      · intro hmul
        exfalso
        apply hc
        rcases hmul with h | h | h
        · exact Or.inl ((sinDeg_eq_zero_iff _).mpr h)
        · exact Or.inr (Or.inl ((sinDeg_eq_zero_iff _).mpr h))
        · exact Or.inr (Or.inr ((sinDeg_eq_zero_iff _).mpr h))
    · intro _
      exact ⟨u', hu', hfields⟩

/-- C9 (witness): at `(2,3,4,180,90,45)` the set fails with the impossible
angle message (alpha = 1*180), and at `(2,3,4,90,90,45)` it succeeds and
stores the parameters. -/
theorem c9_impossible_angle_witness :
    UnitCell.set defaultUnitCell 2 3 4 180 90 45 = .error "Impossible angle - N*180deg." ∧
    ∃ u', UnitCell.set defaultUnitCell 2 3 4 90 90 45 = .ok u' ∧ u'.a = 2 := by
  constructor
  · exact (c9_impossible_angle defaultUnitCell 2 3 4 180 90 45 (by norm_num)).1.mpr
      (Or.inl ⟨1, by norm_num⟩)
  · have hno : ¬((∃ k : ℤ, (90 : ℝ) = k * 180) ∨ (∃ k : ℤ, (90 : ℝ) = k * 180) ∨
        (∃ k : ℤ, (45 : ℝ) = k * 180)) := by
      rintro (hk | hk | hk)
      · have h1 := (sinDeg_eq_zero_iff 90).mpr hk
        rw [sinDeg_90] at h1
        exact one_ne_zero h1
      · have h1 := (sinDeg_eq_zero_iff 90).mpr hk
        rw [sinDeg_90] at h1
        exact one_ne_zero h1
      · exact sinDeg_45_ne_zero ((sinDeg_eq_zero_iff 45).mpr hk)
    obtain ⟨u', h1, h2, _⟩ :=
      (c9_impossible_angle defaultUnitCell 2 3 4 90 90 45 (by norm_num)).2 hno
    exact ⟨u', h1, h2⟩

theorem Mat33.mulVec_mulVec (A B : Mat33) (v : Vec3) :
    A.mulVec (B.mulVec v) = (A.mul B).mulVec v := by
  cases A; cases B; cases v
  simp only [Mat33.mul, Mat33.mulVec, Vec3.mk.injEq]
  refine ⟨by ring, by ring, by ring⟩

theorem Mat33.identity_mulVec (v : Vec3) : Mat33.identity.mulVec v = v := by
  cases v
  simp only [Mat33.identity, Mat33.mulVec, Vec3.mk.injEq]
  refine ⟨by ring, by ring, by ring⟩

theorem Vec3.add_zero_vec (v : Vec3) : Vec3.add v ⟨0, 0, 0⟩ = v := by
  cases v
  simp [Vec3.add]

theorem sinDeg_zero : sinDeg 0 = 0 := by
  rw [sinDeg, if_neg (by norm_num : (0 : ℝ) ≠ 90)]
  simp

theorem transform_comp_id (t s : Transform) (h : Mat33.mul t.mat s.mat = Mat33.identity)
    (ht : t.vec = ⟨0, 0, 0⟩) (hs : s.vec = ⟨0, 0, 0⟩) (f : Vec3) :
    t.apply (s.apply f) = f := by
  simp only [Transform.apply, ht, hs, Vec3.add_zero_vec]
  rw [Mat33.mulVec_mulVec, h, Mat33.identity_mulVec]

/-- C5 (amended): for a cell set from six parameters on which
`calculate_properties` succeeds (no snapped sine is 0), with no explicit
matrices adopted, and additionally with nonzero a, b, c and nonzero derived
`sin_alphar`, the computed `frac` and `orth` matrices are mutually inverse
and `fractionalize (orthogonalize f) = f` exactly (real-valued model of
double arithmetic, so "within 1e-9" holds a fortiori). -/
theorem c5_frac_orth (u : UnitCell) (a b c alpha beta gamma : ℝ)
    (hexp : u.explicit_matrices = false)
    (hsa : sinDeg alpha ≠ 0) (hsb : sinDeg beta ≠ 0) (hsg : sinDeg gamma ≠ 0)
    (ha : a ≠ 0) (hb : b ≠ 0) (hc : c ≠ 0)
    (hS : sinAlphaR alpha beta gamma ≠ 0) :
    ∃ u', UnitCell.set u a b c alpha beta gamma = .ok u' ∧
      Mat33.mul u'.frac.mat u'.orth.mat = Mat33.identity ∧
      ∀ f : Vec3, u'.fractionalize (u'.orthogonalize f) = f := by
  have hg : gamma ≠ 0 := by
    intro h0
    rw [h0, sinDeg_zero] at hsg
    exact hsg rfl
  rw [UnitCell.set, if_neg hg, UnitCell.calculate_properties]
  rw [if_neg (by push_neg; exact ⟨hsa, hsb, hsg⟩)]
  rw [if_neg (by simp [hexp])]
  refine ⟨_, rfl, ?_, ?_⟩
  · simp only [Mat33.mul, Mat33.identity, Mat33.mk.injEq]
    unfold cosAlphaR
    refine ⟨?_, ?_, ?_, ?_, ?_, ?_, ?_, ?_, ?_⟩ <;>
      field_simp <;> ring
  · intro f
    simp only [UnitCell.fractionalize, UnitCell.orthogonalize]
    refine transform_comp_id _ _ ?_ rfl rfl f
    simp only [Mat33.mul, Mat33.identity, Mat33.mk.injEq]
    unfold cosAlphaR
    refine ⟨?_, ?_, ?_, ?_, ?_, ?_, ?_, ?_, ?_⟩ <;>
      field_simp <;> ring

theorem cosAlphaRsb_909090 : cosAlphaRsb 90 90 90 = 0 := by
  rw [cosAlphaRsb, cosDeg_90, sinDeg_90]
  norm_num

theorem cosAlphaR_909090 : cosAlphaR 90 90 90 = 0 := by
  rw [cosAlphaR, cosAlphaRsb_909090, sinDeg_90]
  norm_num

theorem sinAlphaR_909090 : sinAlphaR 90 90 90 = 1 := by
  rw [sinAlphaR, cosAlphaR_909090]
  norm_num

theorem cosDeg_120 : cosDeg 120 = -(1 / 2) := by
  rw [cosDeg, if_neg (by norm_num : (120 : ℝ) ≠ 90)]
  rw [show Real.pi / 180 * 120 = Real.pi - Real.pi / 3 by ring]
  rw [Real.cos_pi_sub, Real.cos_pi_div_three]

theorem sinDeg_120 : sinDeg 120 = Real.sqrt 3 / 2 := by
  rw [sinDeg, if_neg (by norm_num : (120 : ℝ) ≠ 90)]
  rw [show Real.pi / 180 * 120 = Real.pi - Real.pi / 3 by ring]
  rw [Real.sin_pi_sub, Real.sin_pi_div_three]

theorem cosDeg_30 : cosDeg 30 = Real.sqrt 3 / 2 := by
  rw [cosDeg, if_neg (by norm_num : (30 : ℝ) ≠ 90)]
  rw [show Real.pi / 180 * 30 = Real.pi / 6 by ring, Real.cos_pi_div_six]

theorem sinDeg_30 : sinDeg 30 = 1 / 2 := by
  rw [sinDeg, if_neg (by norm_num : (30 : ℝ) ≠ 90)]
  rw [show Real.pi / 180 * 30 = Real.pi / 6 by ring, Real.sin_pi_div_six]

theorem sinDeg_120_ne_zero : sinDeg 120 ≠ 0 := by
  rw [sinDeg_120]
  positivity

theorem cosAlphaRsb_1203090 : cosAlphaRsb 120 30 90 = 1 / 2 := by
  rw [cosAlphaRsb, cosDeg_30, cosDeg_90, cosDeg_120, sinDeg_90]
  ring

theorem cosAlphaR_1203090 : cosAlphaR 120 30 90 = 1 := by
  rw [cosAlphaR, cosAlphaRsb_1203090, sinDeg_30]
  norm_num

theorem sinAlphaR_1203090 : sinAlphaR 120 30 90 = 0 := by
  rw [sinAlphaR, cosAlphaR_1203090]
  norm_num

/-- C5 (counterexample): with a zero edge (a, b or c = 0) or with a
degenerate angle combination (alpha = 120, beta = 30, gamma = 90, which gives
`cos_alphar = 1` and `sin_alphar = 0`), `calculate_properties` succeeds (no
snapped sine is 0, the claim's only hypothesis) yet `frac·orth` is not the
identity: a diagonal entry of the product is 0. -/
theorem c5_counterexample :
    (∃ u', UnitCell.set defaultUnitCell 0 1 1 90 90 90 = .ok u' ∧
      Mat33.mul u'.frac.mat u'.orth.mat ≠ Mat33.identity) ∧
    (∃ u', UnitCell.set defaultUnitCell 1 0 1 90 90 90 = .ok u' ∧
      Mat33.mul u'.frac.mat u'.orth.mat ≠ Mat33.identity) ∧
    (∃ u', UnitCell.set defaultUnitCell 1 1 0 90 90 90 = .ok u' ∧
      Mat33.mul u'.frac.mat u'.orth.mat ≠ Mat33.identity) ∧
    (∃ u', UnitCell.set defaultUnitCell 1 1 1 120 30 90 = .ok u' ∧
      Mat33.mul u'.frac.mat u'.orth.mat ≠ Mat33.identity) := by
  refine ⟨?_, ?_, ?_, ?_⟩
  · rw [UnitCell.set, if_neg (by norm_num : (90 : ℝ) ≠ 0), UnitCell.calculate_properties]
    rw [if_neg (by simp [sinDeg_90])]
    rw [if_neg (by decide)]
    refine ⟨_, rfl, ?_⟩
    intro h
    have h00 := congrArg Mat33.m00 h
    simp [Mat33.mul, Mat33.identity, cosDeg_90, sinDeg_90] at h00
  · rw [UnitCell.set, if_neg (by norm_num : (90 : ℝ) ≠ 0), UnitCell.calculate_properties]
    rw [if_neg (by simp [sinDeg_90])]
    rw [if_neg (by decide)]
    refine ⟨_, rfl, ?_⟩
    intro h
    have h11 := congrArg Mat33.m11 h
    simp [Mat33.mul, Mat33.identity, cosDeg_90, sinDeg_90] at h11
  · rw [UnitCell.set, if_neg (by norm_num : (90 : ℝ) ≠ 0), UnitCell.calculate_properties]
    rw [if_neg (by simp [sinDeg_90])]
    rw [if_neg (by decide)]
    refine ⟨_, rfl, ?_⟩
    intro h
    have h22 := congrArg Mat33.m22 h
    simp [Mat33.mul, Mat33.identity, cosDeg_90, sinDeg_90, sinAlphaR_909090] at h22
  · rw [UnitCell.set, if_neg (by norm_num : (90 : ℝ) ≠ 0), UnitCell.calculate_properties]
    rw [if_neg (by simp [sinDeg_90, sinDeg_30, sinDeg_120_ne_zero])]
    rw [if_neg (by decide)]
    refine ⟨_, rfl, ?_⟩
    intro h
    have h22 := congrArg Mat33.m22 h
    simp [Mat33.mul, Mat33.identity, cosDeg_90, sinDeg_90, sinDeg_30,
      sinAlphaR_1203090] at h22

/-- C5 (witness): the amended statement at the cube cell 10x10x10/90/90/90. -/
theorem c5_witness :
    ∃ u', UnitCell.set defaultUnitCell 10 10 10 90 90 90 = .ok u' ∧
      Mat33.mul u'.frac.mat u'.orth.mat = Mat33.identity ∧
      ∀ f : Vec3, u'.fractionalize (u'.orthogonalize f) = f :=
  c5_frac_orth defaultUnitCell 10 10 10 90 90 90 rfl
    (by rw [sinDeg_90]; norm_num) (by rw [sinDeg_90]; norm_num)
    (by rw [sinDeg_90]; norm_num) (by norm_num) (by norm_num) (by norm_num)
    (by rw [sinAlphaR_909090]; norm_num)


theorem sinDeg_180 : sinDeg 180 = 0 := by
  rw [sinDeg, if_neg (by norm_num : (180 : ℝ) ≠ 90)]
  rw [show Real.pi / 180 * 180 = Real.pi by ring]
  exact Real.sin_pi

/-- C10 (amended): once explicit matrices are adopted, a subsequent
successful `set` (gamma nonzero, no snapped sine zero) updates a, b, c, the
angles, the volume and the reciprocal parameters, but leaves `frac` and
`orth` unchanged and `explicit_matrices` still true. -/
theorem c10_explicit_frame (u : UnitCell) (a b c alpha beta gamma : ℝ)
    (hexp : u.explicit_matrices = true) (hg : gamma ≠ 0)
    (hsa : sinDeg alpha ≠ 0) (hsb : sinDeg beta ≠ 0) (hsg : sinDeg gamma ≠ 0) :
    ∃ u', UnitCell.set u a b c alpha beta gamma = .ok u' ∧
      u'.frac = u.frac ∧ u'.orth = u.orth ∧ u'.explicit_matrices = true ∧
      u'.a = a ∧ u'.b = b ∧ u'.c = c ∧ u'.alpha = alpha ∧ u'.beta = beta ∧
      u'.gamma = gamma ∧
      u'.volume = cellVolume a b c alpha beta gamma ∧
      u'.ar = b * c * sinDeg alpha / cellVolume a b c alpha beta gamma ∧
      u'.br = a * c * sinDeg beta / cellVolume a b c alpha beta gamma ∧
      u'.cr = a * b * sinDeg gamma / cellVolume a b c alpha beta gamma ∧
      u'.cos_alphar = cosAlphaR alpha beta gamma ∧
      u'.cos_betar = (cosDeg alpha * cosDeg gamma - cosDeg beta)
        / (sinDeg alpha * sinDeg gamma) ∧
      u'.cos_gammar = (cosDeg alpha * cosDeg beta - cosDeg gamma)
        / (sinDeg alpha * sinDeg beta) := by
  rw [UnitCell.set, if_neg hg, UnitCell.calculate_properties]
  rw [if_neg (by push_neg; exact ⟨hsa, hsb, hsg⟩)]
  rw [if_pos (by simpa using hexp)]
  exact ⟨_, rfl, rfl, rfl, hexp, rfl, rfl, rfl, rfl, rfl, rfl, rfl, rfl, rfl,
    rfl, rfl, rfl, rfl⟩

/-- C10 (counterexample): after explicit matrices were adopted, a call
`set(2,3,4,90,90,0)` returns the cell unchanged (the gamma = 0 early return)
so a, b, c are NOT updated, and a call `set(2,3,4,180,90,45)` fails before
computing the volume; so not "every subsequent call" updates the stored
parameters and derived quantities. -/
theorem c10_counterexample :
    UnitCell.set cellExp 2 3 4 90 90 0 = .ok cellExp ∧ cellExp.a ≠ 2 ∧
    UnitCell.set cellExp 2 3 4 180 90 45 = .error "Impossible angle - N*180deg." := by
  refine ⟨?_, ?_, ?_⟩
  · rw [UnitCell.set, if_pos rfl]
  · show (5 : ℝ) ≠ 2
    norm_num
  · rw [UnitCell.set, if_neg (by norm_num : (45 : ℝ) ≠ 0), UnitCell.calculate_properties]
    rw [if_pos (Or.inl (by simpa using sinDeg_180))]

/-- C10 (witness): the amended statement on `cellExp` at `(2,3,4,90,90,90)`. -/
theorem c10_witness :
    ∃ u', UnitCell.set cellExp 2 3 4 90 90 90 = .ok u' ∧
      u'.frac = cellExp.frac ∧ u'.orth = cellExp.orth ∧
      u'.explicit_matrices = true ∧ u'.a = 2 ∧
      u'.volume = cellVolume 2 3 4 90 90 90 := by
  obtain ⟨u', h1, h2, h3, h4, h5, _, _, _, _, _, h6, _⟩ :=
    c10_explicit_frame cellExp 2 3 4 90 90 90 rfl (by norm_num)
      (by rw [sinDeg_90]; norm_num) (by rw [sinDeg_90]; norm_num)
      (by rw [sinDeg_90]; norm_num)
  exact ⟨u', h1, h2, h3, h4, h5, h6⟩


theorem set_cell10 : UnitCell.set defaultUnitCell 10 10 10 90 90 90 = .ok cell10 := by
  rw [UnitCell.set, if_neg (by norm_num : (90 : ℝ) ≠ 0), UnitCell.calculate_properties]
  rw [if_neg (by simp [sinDeg_90])]
  rw [if_neg (by decide)]
  simp only [defaultUnitCell, cell10, cellVolume, cosDeg_90, sinDeg_90,
    cosAlphaRsb_909090, cosAlphaR_909090, sinAlphaR_909090, UnitCell.mk.injEq]
  norm_num [Transform.mk.injEq, Mat33.mk.injEq, Vec3.mk.injEq]

theorem c6_image_value :
    UnitCell.find_nearest_image cell10 ⟨0.1, 0.1, 0.1⟩ ⟨9.8, 9.8, 9.8⟩
      SymmetryImage.Unspecified
      = { dist_sq := ((0.27 : ℝ) : EReal), box := (1, 1, 1), sym_id := 0 } := by
  have hcr : cell10.is_crystal := by
    constructor
    · show (10 : ℝ) ≠ 1
      norm_num
    · show (1 / 10 : ℝ) ≠ 1
      norm_num
  have hfpos : cell10.fractionalize ⟨9.8, 9.8, 9.8⟩ = ⟨0.98, 0.98, 0.98⟩ := by
    simp only [UnitCell.fractionalize, Transform.apply, cell10, Mat33.mulVec, Vec3.add]
    norm_num
  have hfref : cell10.fractionalize ⟨0.1, 0.1, 0.1⟩ = ⟨0.01, 0.01, 0.01⟩ := by
    simp only [UnitCell.fractionalize, Transform.apply, cell10, Mat33.mulVec, Vec3.add]
    norm_num
  have hdistsq : Vec3.dist_sq ⟨0.1, 0.1, 0.1⟩ ⟨9.8, 9.8, 9.8⟩ = 282.27 := by
    simp only [Vec3.dist_sq, Vec3.sub, Vec3.length_sq]
    norm_num
  have hround : iround ((0.97 : ℝ)) = 1 := by
    rw [iround]
    norm_num [round_eq]
  rw [UnitCell.find_nearest_image]
  rw [if_neg (by
    rintro (h | h)
    · exact absurd h (by decide)
    · exact h hcr)]
  rw [hfpos, hfref]
  dsimp only
  have hsub : Vec3.sub ⟨0.98, 0.98, 0.98⟩ ⟨0.01, 0.01, 0.01⟩ = ⟨0.97, 0.97, 0.97⟩ := by
    simp only [Vec3.sub]
    norm_num
  rw [hsub]
  have hsearch : cell10.search_pbc_images ⟨0.97, 0.97, 0.97⟩
      { dist_sq := ((Vec3.dist_sq ⟨0.1, 0.1, 0.1⟩ ⟨9.8, 9.8, 9.8⟩ : ℝ) : EReal),
        box := (0, 0, 0), sym_id := 0 }
      = (true, { dist_sq := ((0.27 : ℝ) : EReal), box := (1, 1, 1), sym_id := 0 }) := by
    rw [UnitCell.search_pbc_images]
    rw [hround]
    have horth : cell10.orthogonalize ⟨0.97 - (1 : ℤ), 0.97 - (1 : ℤ), 0.97 - (1 : ℤ)⟩
        = ⟨-0.3, -0.3, -0.3⟩ := by
      simp only [UnitCell.orthogonalize, Transform.apply, cell10, Mat33.mulVec, Vec3.add]
      norm_num
    rw [horth]
    have hlen : (Vec3.length_sq ⟨-0.3, -0.3, -0.3⟩) = 0.27 := by
      simp only [Vec3.length_sq]
      norm_num
    rw [hlen, hdistsq]
    rw [if_pos (show ((0.27 : ℝ) : EReal) < ((282.27 : ℝ) : EReal) from
      EReal.coe_lt_coe_iff.mpr (by norm_num))]
  rw [hsearch]
  rw [if_neg (by
    rintro ⟨h1, h2⟩
    have : ((1 : ℤ), (1 : ℤ), (1 : ℤ)) = ((0 : ℤ), (0 : ℤ), (0 : ℤ)) := h2
    simp at this)]
  show (cell10.images.enum.foldl _ _) = _
  have himgs : cell10.images = [] := rfl
  rw [himgs]
  rfl

/-- C6 (counterexample): in the 10x10x10 all-90 cell, the nearest image of
`(0.1,0.1,0.1)` to `(9.8,9.8,9.8)` is at distance sqrt(0.27) = 0.5196...,
not 0.9 as the claim states (the spec miscomputed sqrt(0.09)*3 for
sqrt(0.09*3)). -/
theorem c6_counterexample :
    UnitCell.set defaultUnitCell 10 10 10 90 90 90 = .ok cell10 ∧
    (UnitCell.find_nearest_image cell10 ⟨0.1, 0.1, 0.1⟩ ⟨9.8, 9.8, 9.8⟩
      SymmetryImage.Unspecified).dist ≠ 9 / 10 := by
  refine ⟨set_cell10, ?_⟩
  rw [c6_image_value, NearbyImage.dist]
  simp only [EReal.toReal_coe]
  intro h
  have h2 : ((0.27 : ℝ)) = (9 / 10) ^ 2 := by
    rw [← h, Real.sq_sqrt (by norm_num : (0 : ℝ) ≤ 0.27)]
  norm_num at h2

/-- C6 (amended): for the crystal cell set to a = b = c = 10 with all angles
90 and no symmetry images, `find_nearest_image((0.1,0.1,0.1), (9.8,9.8,9.8),
Unspecified)` returns box = (1,1,1) and squared distance 0.27, i.e. distance
sqrt(0.27). -/
theorem c6_nearest_image :
    UnitCell.set defaultUnitCell 10 10 10 90 90 90 = .ok cell10 ∧
    UnitCell.find_nearest_image cell10 ⟨0.1, 0.1, 0.1⟩ ⟨9.8, 9.8, 9.8⟩
      SymmetryImage.Unspecified
      = { dist_sq := ((0.27 : ℝ) : EReal), box := (1, 1, 1), sym_id := 0 } ∧
    (UnitCell.find_nearest_image cell10 ⟨0.1, 0.1, 0.1⟩ ⟨9.8, 9.8, 9.8⟩
      SymmetryImage.Unspecified).dist = Real.sqrt 0.27 := by
  refine ⟨set_cell10, c6_image_value, ?_⟩
  rw [c6_image_value, NearbyImage.dist]
  simp [EReal.toReal_coe]

/-! ### Record-type dispatch lemmas -/

theorem irt_eval_ATOM (buf : List Char) :
    is_record_type buf "ATOM" = decide ((buf.getD 0 '\x00').toNat &&& 223 = 65 ∧ (buf.getD 1 '\x00').toNat &&& 223 = 84 ∧ (buf.getD 2 '\x00').toNat &&& 223 = 79 ∧ (buf.getD 3 '\x00').toNat &&& 223 = 77) := rfl

theorem irt_eval_HETATM (buf : List Char) :
    is_record_type buf "HETATM" = decide ((buf.getD 0 '\x00').toNat &&& 223 = 72 ∧ (buf.getD 1 '\x00').toNat &&& 223 = 69 ∧ (buf.getD 2 '\x00').toNat &&& 223 = 84 ∧ (buf.getD 3 '\x00').toNat &&& 223 = 65) := rfl

theorem irt_eval_ANISOU (buf : List Char) :
    is_record_type buf "ANISOU" = decide ((buf.getD 0 '\x00').toNat &&& 223 = 65 ∧ (buf.getD 1 '\x00').toNat &&& 223 = 78 ∧ (buf.getD 2 '\x00').toNat &&& 223 = 73 ∧ (buf.getD 3 '\x00').toNat &&& 223 = 83) := rfl

theorem irt_eval_REMARK (buf : List Char) :
    is_record_type buf "REMARK" = decide ((buf.getD 0 '\x00').toNat &&& 223 = 82 ∧ (buf.getD 1 '\x00').toNat &&& 223 = 69 ∧ (buf.getD 2 '\x00').toNat &&& 223 = 77 ∧ (buf.getD 3 '\x00').toNat &&& 223 = 65) := rfl

theorem irt_eval_CONECT (buf : List Char) :
    is_record_type buf "CONECT" = decide ((buf.getD 0 '\x00').toNat &&& 223 = 67 ∧ (buf.getD 1 '\x00').toNat &&& 223 = 79 ∧ (buf.getD 2 '\x00').toNat &&& 223 = 78 ∧ (buf.getD 3 '\x00').toNat &&& 223 = 69) := rfl

theorem irt_eval_SEQRES (buf : List Char) :
    is_record_type buf "SEQRES" = decide ((buf.getD 0 '\x00').toNat &&& 223 = 83 ∧ (buf.getD 1 '\x00').toNat &&& 223 = 69 ∧ (buf.getD 2 '\x00').toNat &&& 223 = 81 ∧ (buf.getD 3 '\x00').toNat &&& 223 = 82) := rfl

theorem irt_eval_HEADER (buf : List Char) :
    is_record_type buf "HEADER" = decide ((buf.getD 0 '\x00').toNat &&& 223 = 72 ∧ (buf.getD 1 '\x00').toNat &&& 223 = 69 ∧ (buf.getD 2 '\x00').toNat &&& 223 = 65 ∧ (buf.getD 3 '\x00').toNat &&& 223 = 68) := rfl

theorem irt_eval_TITLE (buf : List Char) :
    is_record_type buf "TITLE" = decide ((buf.getD 0 '\x00').toNat &&& 223 = 84 ∧ (buf.getD 1 '\x00').toNat &&& 223 = 73 ∧ (buf.getD 2 '\x00').toNat &&& 223 = 84 ∧ (buf.getD 3 '\x00').toNat &&& 223 = 76) := rfl

theorem irt_eval_KEYWDS (buf : List Char) :
    is_record_type buf "KEYWDS" = decide ((buf.getD 0 '\x00').toNat &&& 223 = 75 ∧ (buf.getD 1 '\x00').toNat &&& 223 = 69 ∧ (buf.getD 2 '\x00').toNat &&& 223 = 89 ∧ (buf.getD 3 '\x00').toNat &&& 223 = 87) := rfl

theorem irt_eval_EXPDTA (buf : List Char) :
    is_record_type buf "EXPDTA" = decide ((buf.getD 0 '\x00').toNat &&& 223 = 69 ∧ (buf.getD 1 '\x00').toNat &&& 223 = 88 ∧ (buf.getD 2 '\x00').toNat &&& 223 = 80 ∧ (buf.getD 3 '\x00').toNat &&& 223 = 68) := rfl

theorem irt_eval_CRYST (buf : List Char) :
    is_record_type buf "CRYST1" = decide ((buf.getD 0 '\x00').toNat &&& 223 = 67 ∧ (buf.getD 1 '\x00').toNat &&& 223 = 82 ∧ (buf.getD 2 '\x00').toNat &&& 223 = 89 ∧ (buf.getD 3 '\x00').toNat &&& 223 = 83) := rfl

theorem irt_eval_MTRIX (buf : List Char) :
    is_record_type buf "MTRIXn" = decide ((buf.getD 0 '\x00').toNat &&& 223 = 77 ∧ (buf.getD 1 '\x00').toNat &&& 223 = 84 ∧ (buf.getD 2 '\x00').toNat &&& 223 = 82 ∧ (buf.getD 3 '\x00').toNat &&& 223 = 73) := rfl

theorem irt_eval_MODEL (buf : List Char) :
    is_record_type buf "MODEL" = decide ((buf.getD 0 '\x00').toNat &&& 223 = 77 ∧ (buf.getD 1 '\x00').toNat &&& 223 = 79 ∧ (buf.getD 2 '\x00').toNat &&& 223 = 68 ∧ (buf.getD 3 '\x00').toNat &&& 223 = 69) := rfl

theorem irt_eval_ENDMDL (buf : List Char) :
    is_record_type buf "ENDMDL" = decide ((buf.getD 0 '\x00').toNat &&& 223 = 69 ∧ (buf.getD 1 '\x00').toNat &&& 223 = 78 ∧ (buf.getD 2 '\x00').toNat &&& 223 = 68 ∧ (buf.getD 3 '\x00').toNat &&& 223 = 77) := rfl

theorem irt_eval_TER (buf : List Char) :
    is_record_type buf "TER" = decide ((buf.getD 0 '\x00').toNat &&& 223 = 84 ∧ (buf.getD 1 '\x00').toNat &&& 223 = 69 ∧ (buf.getD 2 '\x00').toNat &&& 223 = 82 ∧ (buf.getD 3 '\x00').toNat &&& 223 = 0) := rfl

theorem irt_eval_SCALE (buf : List Char) :
    is_record_type buf "SCALEn" = decide ((buf.getD 0 '\x00').toNat &&& 223 = 83 ∧ (buf.getD 1 '\x00').toNat &&& 223 = 67 ∧ (buf.getD 2 '\x00').toNat &&& 223 = 65 ∧ (buf.getD 3 '\x00').toNat &&& 223 = 76) := rfl

theorem irt_eval_ORIGX (buf : List Char) :
    is_record_type buf "ORIGX" = decide ((buf.getD 0 '\x00').toNat &&& 223 = 79 ∧ (buf.getD 1 '\x00').toNat &&& 223 = 82 ∧ (buf.getD 2 '\x00').toNat &&& 223 = 73 ∧ (buf.getD 3 '\x00').toNat &&& 223 = 71) := rfl

/-- SCALEn matches none of the earlier branches of the dispatch chain. -/
theorem dispatch_scale (s : ParserState) (len : ℕ)
    (h : is_record_type s.buf "SCALEn" = true) :
    dispatch s len = handleScale s len := by
  rw [irt_eval_SCALE, decide_eq_true_eq] at h
  have hA : is_record_type s.buf "ATOM" = false := by
    rw [irt_eval_ATOM, decide_eq_false_iff_not]; omega
  have hH : is_record_type s.buf "HETATM" = false := by
    rw [irt_eval_HETATM, decide_eq_false_iff_not]; omega
  have hAn : is_record_type s.buf "ANISOU" = false := by
    rw [irt_eval_ANISOU, decide_eq_false_iff_not]; omega
  have hR : is_record_type s.buf "REMARK" = false := by
    rw [irt_eval_REMARK, decide_eq_false_iff_not]; omega
  have hC : is_record_type s.buf "CONECT" = false := by
    rw [irt_eval_CONECT, decide_eq_false_iff_not]; omega
  have hS : is_record_type s.buf "SEQRES" = false := by
    rw [irt_eval_SEQRES, decide_eq_false_iff_not]; omega
  have hHe : is_record_type s.buf "HEADER" = false := by
    rw [irt_eval_HEADER, decide_eq_false_iff_not]; omega
  have hT : is_record_type s.buf "TITLE" = false := by
    rw [irt_eval_TITLE, decide_eq_false_iff_not]; omega
  have hK : is_record_type s.buf "KEYWDS" = false := by
    rw [irt_eval_KEYWDS, decide_eq_false_iff_not]; omega
  have hE : is_record_type s.buf "EXPDTA" = false := by
    rw [irt_eval_EXPDTA, decide_eq_false_iff_not]; omega
  have hCr : is_record_type s.buf "CRYST1" = false := by
    rw [irt_eval_CRYST, decide_eq_false_iff_not]; omega
  have hM : is_record_type s.buf "MTRIXn" = false := by
    rw [irt_eval_MTRIX, decide_eq_false_iff_not]; omega
  have hMo : is_record_type s.buf "MODEL" = false := by
    rw [irt_eval_MODEL, decide_eq_false_iff_not]; omega
  have hEn : is_record_type s.buf "ENDMDL" = false := by
    rw [irt_eval_ENDMDL, decide_eq_false_iff_not]; omega
  have hTe : is_record_type s.buf "TER" = false := by
    rw [irt_eval_TER, decide_eq_false_iff_not]; omega
  have h2 : is_record_type s.buf "SCALEn" = true := by
    rw [irt_eval_SCALE, decide_eq_true_eq]; exact h
  unfold dispatch
  simp only [hA, hH, hAn, hR, hC, hS, hHe, hT, hK, hE, hCr, hM, hMo, hEn, hTe, h2,
    Bool.or_self, Bool.false_or]
  simp

/-- MTRIXn matches none of the earlier branches of the dispatch chain. -/
theorem dispatch_mtrix (s : ParserState) (len : ℕ)
    (h : is_record_type s.buf "MTRIXn" = true) :
    dispatch s len = handleMtrix s len := by
  rw [irt_eval_MTRIX, decide_eq_true_eq] at h
  have hA : is_record_type s.buf "ATOM" = false := by
    rw [irt_eval_ATOM, decide_eq_false_iff_not]; omega
  have hH : is_record_type s.buf "HETATM" = false := by
    rw [irt_eval_HETATM, decide_eq_false_iff_not]; omega
  have hAn : is_record_type s.buf "ANISOU" = false := by
    rw [irt_eval_ANISOU, decide_eq_false_iff_not]; omega
  have hR : is_record_type s.buf "REMARK" = false := by
    rw [irt_eval_REMARK, decide_eq_false_iff_not]; omega
  have hC : is_record_type s.buf "CONECT" = false := by
    rw [irt_eval_CONECT, decide_eq_false_iff_not]; omega
  have hS : is_record_type s.buf "SEQRES" = false := by
    rw [irt_eval_SEQRES, decide_eq_false_iff_not]; omega
  have hHe : is_record_type s.buf "HEADER" = false := by
    rw [irt_eval_HEADER, decide_eq_false_iff_not]; omega
  have hT : is_record_type s.buf "TITLE" = false := by
    rw [irt_eval_TITLE, decide_eq_false_iff_not]; omega
  have hK : is_record_type s.buf "KEYWDS" = false := by
    rw [irt_eval_KEYWDS, decide_eq_false_iff_not]; omega
  have hE : is_record_type s.buf "EXPDTA" = false := by
    rw [irt_eval_EXPDTA, decide_eq_false_iff_not]; omega
  have hCr : is_record_type s.buf "CRYST1" = false := by
    rw [irt_eval_CRYST, decide_eq_false_iff_not]; omega
  have h2 : is_record_type s.buf "MTRIXn" = true := by
    rw [irt_eval_MTRIX, decide_eq_true_eq]; exact h
  unfold dispatch
  simp only [hA, hH, hAn, hR, hC, hS, hHe, hT, hK, hE, hCr, h2, Bool.or_self, Bool.false_or]
  simp

/-- ORIGX matches none of the earlier branches of the dispatch chain. -/
theorem dispatch_origx (s : ParserState) (len : ℕ)
    (h : is_record_type s.buf "ORIGX" = true) :
    dispatch s len = handleOrigx s len := by
  rw [irt_eval_ORIGX, decide_eq_true_eq] at h
  have hA : is_record_type s.buf "ATOM" = false := by
    rw [irt_eval_ATOM, decide_eq_false_iff_not]; omega
  have hH : is_record_type s.buf "HETATM" = false := by
    rw [irt_eval_HETATM, decide_eq_false_iff_not]; omega
  have hAn : is_record_type s.buf "ANISOU" = false := by
    rw [irt_eval_ANISOU, decide_eq_false_iff_not]; omega
  have hR : is_record_type s.buf "REMARK" = false := by
    rw [irt_eval_REMARK, decide_eq_false_iff_not]; omega
  have hC : is_record_type s.buf "CONECT" = false := by
    rw [irt_eval_CONECT, decide_eq_false_iff_not]; omega
  have hS : is_record_type s.buf "SEQRES" = false := by
    rw [irt_eval_SEQRES, decide_eq_false_iff_not]; omega
  have hHe : is_record_type s.buf "HEADER" = false := by
    rw [irt_eval_HEADER, decide_eq_false_iff_not]; omega
  have hT : is_record_type s.buf "TITLE" = false := by
    rw [irt_eval_TITLE, decide_eq_false_iff_not]; omega
  have hK : is_record_type s.buf "KEYWDS" = false := by
    rw [irt_eval_KEYWDS, decide_eq_false_iff_not]; omega
  have hE : is_record_type s.buf "EXPDTA" = false := by
    rw [irt_eval_EXPDTA, decide_eq_false_iff_not]; omega
  have hCr : is_record_type s.buf "CRYST1" = false := by
    rw [irt_eval_CRYST, decide_eq_false_iff_not]; omega
  have hM : is_record_type s.buf "MTRIXn" = false := by
    rw [irt_eval_MTRIX, decide_eq_false_iff_not]; omega
  have hMo : is_record_type s.buf "MODEL" = false := by
    rw [irt_eval_MODEL, decide_eq_false_iff_not]; omega
  have hEn : is_record_type s.buf "ENDMDL" = false := by
    rw [irt_eval_ENDMDL, decide_eq_false_iff_not]; omega
  have hTe : is_record_type s.buf "TER" = false := by
    rw [irt_eval_TER, decide_eq_false_iff_not]; omega
  have hSc : is_record_type s.buf "SCALEn" = false := by
    rw [irt_eval_SCALE, decide_eq_false_iff_not]; omega
  have h2 : is_record_type s.buf "ORIGX" = true := by
    rw [irt_eval_ORIGX, decide_eq_true_eq]; exact h
  unfold dispatch
  simp only [hA, hH, hAn, hR, hC, hS, hHe, hT, hK, hE, hCr, hM, hMo, hEn, hTe, hSc, h2,
    Bool.or_self, Bool.false_or]
  simp

/-- **C8** (amended): after a row-3 SCALEn record is processed the shared
matrix accumulator is reset to identity, and likewise after a row-3 MTRIXn
record (either the assembled matrix is committed to `st.ncs` and the
accumulator reset, or the assembled matrix was the identity, so the
accumulator equals the identity either way); but after a row-3 ORIGX record
the accumulator is NOT reset: it keeps the assembled matrix, which is also
committed to `st.origx`. -/
theorem c8_matrix_reset (s : ParserState) (l : List Char) (s1 : ParserState)
    (c : Bool) (h : step s l = .ok (s1, c)) :
    (is_record_type (writeBuf s.buf l) "SCALEn" = true →
      (read_matrix s.matrix (bufPtr (writeBuf s.buf l) 0) (min l.length 81)).1 = 3 →
      s1.matrix = Mat4x4.identity) ∧
    (is_record_type (writeBuf s.buf l) "MTRIXn" = true →
      (read_matrix s.matrix (bufPtr (writeBuf s.buf l) 0) (min l.length 81)).1 = 3 →
      s1.matrix = Mat4x4.identity) ∧
    (is_record_type (writeBuf s.buf l) "ORIGX" = true →
      s1.matrix = (read_matrix s.matrix (bufPtr (writeBuf s.buf l) 0) (min l.length 81)).2 ∧
      ((read_matrix s.matrix (bufPtr (writeBuf s.buf l) 0) (min l.length 81)).1 = 3 →
        s1.st.origx = (read_matrix s.matrix (bufPtr (writeBuf s.buf l) 0) (min l.length 81)).2)) := by
  simp only [step] at h
  refine ⟨fun hrec hrow => ?_, fun hrec hrow => ?_, fun hrec => ?_⟩
  · rw [dispatch_scale _ _ hrec] at h
    unfold handleScale at h
    rw [if_pos hrow] at h
    simp only [Except.ok.injEq, Prod.mk.injEq] at h
    rw [← h.1]
  · rw [dispatch_mtrix _ _ hrec] at h
    unfold handleMtrix at h
    by_cases hcomm : (read_matrix s.matrix (bufPtr (writeBuf s.buf l) 0) (min l.length 81)).1 = 3 ∧
        (read_matrix s.matrix (bufPtr (writeBuf s.buf l) 0) (min l.length 81)).2 ≠ Mat4x4.identity
    · rw [if_pos hcomm] at h
      simp only [Except.ok.injEq, Prod.mk.injEq] at h
      rw [← h.1]
    · rw [if_neg hcomm] at h
      simp only [Except.ok.injEq, Prod.mk.injEq] at h
      rw [← h.1]
      push_neg at hcomm
      exact hcomm hrow
  · rw [dispatch_origx _ _ hrec] at h
    unfold handleOrigx at h
    by_cases hrow : (read_matrix s.matrix (bufPtr (writeBuf s.buf l) 0) (min l.length 81)).1 = 3
    · rw [if_pos hrow] at h
      simp only [Except.ok.injEq, Prod.mk.injEq] at h
      rw [← h.1]
      exact ⟨rfl, fun _ => rfl⟩
    · rw [if_neg hrow] at h
      simp only [Except.ok.injEq, Prod.mk.injEq] at h
      rw [← h.1]
      exact ⟨rfl, fun hc => absurd hc hrow⟩

/-- **C8** counterexample: a full ORIGX1/ORIGX2/ORIGX3 triplet (blank
numeric fields, decoding to rows of zeros) is processed from the initial
state; the row-3 record commits the assembled matrix to `st.origx`, yet the
shared accumulator does not return to the identity: it still holds the
assembled (non-identity) matrix. -/
theorem c8_counterexample :
    (match processLines (initState "origx.pdb")
        ["ORIGX1".toList ++ List.replicate 49 ' ',
         "ORIGX2".toList ++ List.replicate 49 ' ',
         "ORIGX3".toList ++ List.replicate 49 ' '] with
      | .ok s => (s.matrix, s.st.origx)
      | .error _ => (Mat4x4.identity, Mat4x4.identity)) =
      (⟨⟨0,0,0,0⟩,⟨0,0,0,0⟩,⟨0,0,0,0⟩,⟨0,0,0,1⟩⟩, ⟨⟨0,0,0,0⟩,⟨0,0,0,0⟩,⟨0,0,0,0⟩,⟨0,0,0,1⟩⟩) ∧
    (⟨⟨0,0,0,0⟩,⟨0,0,0,0⟩,⟨0,0,0,0⟩,⟨0,0,0,1⟩⟩ : Mat4x4) ≠ Mat4x4.identity := by
  exact ⟨by decide, by decide⟩

/-- **C8** witness: a concrete SCALE3 record processed from the initial
state leaves the accumulator equal to the identity. -/
theorem c8_matrix_reset_witness :
    ∃ (s1 : ParserState) (c : Bool),
      step (initState "x") ("SCALE3".toList ++ List.replicate 49 ' ') = .ok (s1, c) ∧
      s1.matrix = Mat4x4.identity := by
  obtain ⟨p, hp⟩ : ∃ p,
      step (initState "x") ("SCALE3".toList ++ List.replicate 49 ' ') = .ok p :=
    ⟨_, rfl⟩
  refine ⟨p.1, p.2, by rw [hp], ?_⟩
  exact (c8_matrix_reset _ _ _ _ (by rw [hp])).1 (by decide) (by decide)

/-! ### List helper lemmas for the entity-merge analysis -/

theorem listModify_nil {α} (f : α → α) (n : ℕ) : listModify f n [] = [] := by
  cases n <;> rfl

theorem listModify_length {α} (f : α → α) (n : ℕ) (l : List α) :
    (listModify f n l).length = l.length := by
  induction l generalizing n with
  | nil => rw [listModify_nil]
  | cons a l ih =>
    cases n with
    | zero => simp [listModify]
    | succ n => simp [listModify, ih]

theorem listModify_get_self {α} (f : α → α) (n : ℕ) (l : List α) :
    (listModify f n l)[n]? = l[n]?.map f := by
  induction l generalizing n with
  | nil => rw [listModify_nil]; simp
  | cons a l ih =>
    cases n with
    | zero => simp [listModify]
    | succ n => simpa [listModify] using ih n

theorem listModify_get_ne {α} (f : α → α) (n m : ℕ) (l : List α) (h : m ≠ n) :
    (listModify f n l)[m]? = l[m]? := by
  induction l generalizing n m with
  | nil => rw [listModify_nil]
  | cons a l ih =>
    cases n with
    | zero =>
      cases m with
      | zero => exact absurd rfl h
      | succ m => simp [listModify]
    | succ n =>
      cases m with
      | zero => simp [listModify]
      | succ m => simpa [listModify] using ih n m (by omega)

theorem lookup_mem {α β} [BEq α] [LawfulBEq α] (l : List (α × β)) (k : α) (v : β)
    (h : l.lookup k = some v) : (k, v) ∈ l := by
  induction l with
  | nil => simp [List.lookup] at h
  | cons a l ih =>
    rw [List.lookup] at h
    rcases hk : (k == a.1) with _ | _
    · simp only [hk] at h
      exact List.mem_cons_of_mem _ (ih h)
    · simp only [hk] at h
      have hk' : k = a.1 := eq_of_beq hk
      have hv : a.2 = v := by simpa using h
      exact List.mem_cons.mpr (Or.inl (by rw [hk', ← hv]))

theorem lookup_append_some {α β} [BEq α] (k : α) (v : β) (xs ys : List (α × β))
    (h : xs.lookup k = some v) : (xs ++ ys).lookup k = some v := by
  induction xs with
  | nil => simp [List.lookup] at h
  | cons a l ih =>
    rw [List.lookup] at h
    rw [List.cons_append, List.lookup]
    rcases hk : (k == a.1) with _ | _
    · simp only [hk] at h ⊢
      exact ih h
    · simp only [hk] at h ⊢
      exact h

theorem lookup_append_none {α β} [BEq α] (k : α) (xs ys : List (α × β))
    (h : xs.lookup k = none) : (xs ++ ys).lookup k = ys.lookup k := by
  induction xs with
  | nil => simp
  | cons a l ih =>
    rw [List.lookup] at h
    rw [List.cons_append, List.lookup]
    rcases hk : (k == a.1) with _ | _
    · simp only [hk] at h ⊢
      exact ih h
    · simp only [hk] at h
      exact absurd h (by simp)

theorem lookup_map_value {α β γ} [BEq α] (l : List (α × β)) (f : β → γ) (k : α) :
    (l.map (fun kv => (kv.1, f kv.2))).lookup k = (l.lookup k).map f := by
  induction l with
  | nil => simp [List.lookup]
  | cons a l ih =>
    rw [List.map_cons, List.lookup, List.lookup]
    rcases hk : (k == a.1) with _ | _
    · simp only [hk]
      exact ih
    · simp only [hk]
      rfl

theorem lookup_const_pairs (ts : List ℕ) (v : ℕ) (k : ℕ) :
    ((ts.map (fun t => (t, v))).lookup k) = if k ∈ ts then some v else none := by
  induction ts with
  | nil => simp [List.lookup]
  | cons a l ih =>
    rw [List.map_cons, List.lookup]
    rcases hk : (k == a) with _ | _
    · simp only [hk]
      rw [ih]
      have hk' : k ≠ a := by simpa using hk
      simp [List.mem_cons, hk']
    · simp only [hk]
      have hk' : k = a := eq_of_beq hk
      simp [hk']

theorem find_filter {α} (p q : α → Bool) (l : List α)
    (h : ∀ x, p x = true → q x = true) :
    (l.filter q).find? p = l.find? p := by
  induction l with
  | nil => rfl
  | cons a l ih =>
    by_cases hp : p a = true
    · rw [List.filter_cons, if_pos (h a hp), List.find?_cons_of_pos _ hp,
        List.find?_cons_of_pos _ hp]
    · by_cases hq : q a = true
      · rw [List.filter_cons, if_pos hq, List.find?_cons_of_neg _ (by simpa using hp),
          List.find?_cons_of_neg _ (by simpa using hp)]
        exact ih
      · rw [List.filter_cons, if_neg (by simpa using hq),
          List.find?_cons_of_neg _ (by simpa using hp)]
        exact ih

/-! ### same_entity and eraseMatching -/

theorem same_entity_iff (a b : List String) :
    same_entity a b = true ↔ a ≠ [] ∧ a = b := by
  unfold same_entity
  rcases ha : a.isEmpty with _ | _
  · rcases hl : a.length != b.length with _ | _
    · rw [if_neg (by simp)]
      constructor
      · intro h
        refine ⟨?_, by simpa using h⟩
        intro hnil
        rw [hnil] at ha
        simp at ha
      · rintro ⟨-, hab⟩
        simpa using hab
    · rw [if_pos (by simp)]
      simp only [Bool.false_eq_true, false_iff]
      rintro ⟨hne, hab⟩
      rw [hab] at hl
      simp at hl
  · rw [if_pos (by simp)]
    simp only [Bool.false_eq_true, false_iff]
    rintro ⟨hne, hab⟩
    have hnil : a = [] := by
      cases a with
      | nil => rfl
      | cons x xs => simp [List.isEmpty] at ha
    exact hne hnil

theorem same_entity_false (a b : List String)
    (h : ¬ (a ≠ [] ∧ a = b)) : same_entity a b = false := by
  rcases hb : same_entity a b with _ | _
  · rfl
  · exact absurd ((same_entity_iff a b).mp hb) h

theorem eraseMatching_fst (i : ℕ × EntityData) (l : List (ℕ × EntityData)) :
    (eraseMatching i l).1 = l.filter (fun j => ! same_entity j.2.sequence i.2.sequence) := by
  induction l with
  | nil => rfl
  | cons j l ih =>
    rcases h : same_entity j.2.sequence i.2.sequence with _ | _
    · simp only [eraseMatching, h, List.filter_cons]
      simp [ih]
    · simp only [eraseMatching, h, List.filter_cons]
      simp [ih]

theorem eraseMatching_snd (i : ℕ × EntityData) (l : List (ℕ × EntityData)) :
    (eraseMatching i l).2 =
      (l.filter (fun j => same_entity j.2.sequence i.2.sequence)).map Prod.fst := by
  induction l with
  | nil => rfl
  | cons j l ih =>
    rcases h : same_entity j.2.sequence i.2.sequence with _ | _
    · simp only [eraseMatching, h, List.filter_cons]
      simp [ih]
    · simp only [eraseMatching, h, List.filter_cons]
      simp [ih]

/-! ### mergeLoop: the entity-merging loop of finalize -/

theorem lookup_none_of_not_mem {α β} [BEq α] [LawfulBEq α] (l : List (α × β)) (k : α)
    (h : k ∉ l.map Prod.fst) : l.lookup k = none := by
  induction l with
  | nil => rfl
  | cons a l ih =>
    rw [List.lookup]
    rcases hk : (k == a.1) with _ | _
    · simp only []
      exact ih (fun hm => h (List.mem_cons_of_mem _ hm))
    · exact absurd (eq_of_beq hk) (fun he => h (by simp [he]))

theorem nodup_key_unique {β} (l : List (ℕ × β)) (hnd : (l.map Prod.fst).Nodup)
    (k : ℕ) (v1 v2 : β) (h1 : (k, v1) ∈ l) (h2 : (k, v2) ∈ l) : v1 = v2 := by
  induction l with
  | nil => simp at h1
  | cons a l ih =>
    rw [List.map_cons, List.nodup_cons] at hnd
    rcases List.mem_cons.mp h1 with he1 | hm1
    · rcases List.mem_cons.mp h2 with he2 | hm2
      · rw [← he1] at he2
        exact (Prod.mk.injEq _ _ _ _ ▸ he2.symm).2
      · exact absurd (List.mem_map.mpr ⟨(k, v2), hm2, by rw [← he1]⟩) hnd.1
    · rcases List.mem_cons.mp h2 with he2 | hm2
      · exact absurd (List.mem_map.mpr ⟨(k, v1), hm1, by rw [← he2]⟩) hnd.1
      · exact ih hnd.2 hm1 hm2

theorem mergeLoop_fst_sub_aux :
    ∀ (n : ℕ) (l : List (ℕ × EntityData)), l.length ≤ n →
      ∀ x, x ∈ (mergeLoop l).1 → x ∈ l := by
  intro n
  induction n with
  | zero =>
    intro l hl x hx
    rcases List.length_eq_zero.mp (Nat.le_zero.mp hl) with rfl
    simp [mergeLoop] at hx
  | succ n ih =>
    intro l hl x hx
    match l with
    | [] => simp [mergeLoop] at hx
    | i :: rest =>
      simp only [mergeLoop] at hx
      rcases List.mem_cons.mp hx with he | hm
      · exact List.mem_cons.mpr (Or.inl he)
      · have hlen : (eraseMatching i rest).1.length ≤ n := by
          rw [eraseMatching_fst]
          have := List.length_filter_le (fun j => ! same_entity j.2.sequence i.2.sequence) rest
          simp only [List.length_cons] at hl
          omega
        have hx2 := ih _ hlen x hm
        rw [eraseMatching_fst] at hx2
        exact List.mem_cons.mpr (Or.inr (List.mem_of_mem_filter hx2))

theorem mergeLoop_fst_sub (l : List (ℕ × EntityData)) (x : ℕ × EntityData)
    (hx : x ∈ (mergeLoop l).1) : x ∈ l :=
  mergeLoop_fst_sub_aux l.length l le_rfl x hx

theorem mergeLoop_snd_keys_aux :
    ∀ (n : ℕ) (l : List (ℕ × EntityData)), l.length ≤ n →
      ∀ k v, (k, v) ∈ (mergeLoop l).2 → ∃ e, (k, e) ∈ l ∧ e.sequence ≠ [] := by
  intro n
  induction n with
  | zero =>
    intro l hl k v hk
    rcases List.length_eq_zero.mp (Nat.le_zero.mp hl) with rfl
    simp [mergeLoop] at hk
  | succ n ih =>
    intro l hl k v hk
    match l with
    | [] => simp [mergeLoop] at hk
    | i :: rest =>
      simp only [mergeLoop] at hk
      rcases List.mem_append.mp hk with hm | hm
      · rcases List.mem_map.mp hm with ⟨t, ht, he⟩
        rw [eraseMatching_snd] at ht
        rcases List.mem_map.mp ht with ⟨x, hxf, hxk⟩
        have hsame := List.of_mem_filter hxf
        have hx : x ∈ rest := List.mem_of_mem_filter hxf
        have hne : x.2.sequence ≠ [] := ((same_entity_iff _ _).mp hsame).1
        refine ⟨x.2, ?_, hne⟩
        have hk1 : k = x.1 := by
          have := (Prod.mk.injEq _ _ _ _ ▸ he).1
          rw [← this, hxk]
        rw [hk1]
        exact List.mem_cons.mpr (Or.inr hx)
      · have hlen : (eraseMatching i rest).1.length ≤ n := by
          rw [eraseMatching_fst]
          have := List.length_filter_le (fun j => ! same_entity j.2.sequence i.2.sequence) rest
          simp only [List.length_cons] at hl
          omega
        rcases ih _ hlen k v hm with ⟨e, hmem, hne⟩
        rw [eraseMatching_fst] at hmem
        exact ⟨e, List.mem_cons.mpr (Or.inr (List.mem_of_mem_filter hmem)), hne⟩

theorem mergeLoop_snd_keys (l : List (ℕ × EntityData)) (k : ℕ) (v : ℕ)
    (hk : (k, v) ∈ (mergeLoop l).2) : ∃ e, (k, e) ∈ l ∧ e.sequence ≠ [] :=
  mergeLoop_snd_keys_aux l.length l le_rfl k v hk

theorem eraseMatching_nodup (i : ℕ × EntityData) (rest : List (ℕ × EntityData))
    (hnd : (rest.map Prod.fst).Nodup) :
    ((eraseMatching i rest).1.map Prod.fst).Nodup := by
  rw [eraseMatching_fst]
  exact hnd.sublist ((List.filter_sublist rest).map Prod.fst)

theorem eraseMatching_len (i : ℕ × EntityData) (rest : List (ℕ × EntityData)) :
    (eraseMatching i rest).1.length ≤ rest.length := by
  rw [eraseMatching_fst]
  exact List.length_filter_le _ rest

theorem head_not_redirect_key (i : ℕ × EntityData) (rest : List (ℕ × EntityData))
    (hhead : i.1 ∉ rest.map Prod.fst) :
    (((eraseMatching i rest).2.map (fun t => (t, i.1))) ++
      (mergeLoop (eraseMatching i rest).1).2).lookup i.1 = none := by
  have h1 : ((eraseMatching i rest).2.map (fun t => (t, i.1))).lookup i.1 = none := by
    rw [lookup_const_pairs]
    rw [if_neg]
    intro hm
    rw [eraseMatching_snd] at hm
    rcases List.mem_map.mp hm with ⟨x, hxf, hxk⟩
    exact hhead (List.mem_map.mpr ⟨x, List.mem_of_mem_filter hxf, hxk⟩)
  rw [lookup_append_none _ _ _ h1]
  apply lookup_none_of_not_mem
  intro hm
  rcases List.mem_map.mp hm with ⟨kv, hkv, hk⟩
  rcases mergeLoop_snd_keys _ _ _ (by rw [← Prod.mk.eta (p := kv)] at hkv; rw [hk] at hkv; exact hkv) with ⟨e, he, -⟩
  rw [eraseMatching_fst] at he
  exact hhead (List.mem_map.mpr ⟨(i.1, e), List.mem_of_mem_filter he, rfl⟩)

theorem tail_not_erased_key (i : ℕ × EntityData) (rest : List (ℕ × EntityData))
    (hnd : (rest.map Prod.fst).Nodup) (t : ℕ) (ent : EntityData)
    (hmem : (t, ent) ∈ rest)
    (hns : same_entity ent.sequence i.2.sequence = false) :
    ((eraseMatching i rest).2.map (fun t' => (t', i.1))).lookup t = none := by
  rw [lookup_const_pairs]
  rw [if_neg]
  intro hm
  rw [eraseMatching_snd] at hm
  rcases List.mem_map.mp hm with ⟨x, hxf, hxk⟩
  have hx : x ∈ rest := List.mem_of_mem_filter hxf
  have hsame := List.of_mem_filter hxf
  have hx' : (t, x.2) ∈ rest := by rw [← hxk, Prod.mk.eta]; exact hx
  have hxent : x.2 = ent := nodup_key_unique rest hnd t x.2 ent hx' hmem
  rw [hxent] at hsame
  rw [hns] at hsame
  simp at hsame

theorem mergeLoop_empty_aux :
    ∀ (n : ℕ) (l : List (ℕ × EntityData)), l.length ≤ n →
      (l.map Prod.fst).Nodup →
      ∀ t ent, (t, ent) ∈ l → ent.sequence = [] →
        (t, ent) ∈ (mergeLoop l).1 ∧ redirectTag (mergeLoop l).2 t = t := by
  intro n
  induction n with
  | zero =>
    intro l hl hnd t ent hmem hseq
    rcases List.length_eq_zero.mp (Nat.le_zero.mp hl) with rfl
    simp at hmem
  | succ n ih =>
    intro l hl hnd t ent hmem hseq
    match l with
    | [] => simp at hmem
    | i :: rest =>
      rw [List.map_cons, List.nodup_cons] at hnd
      simp only [List.length_cons] at hl
      have hlen : (eraseMatching i rest).1.length ≤ n :=
        le_trans (eraseMatching_len i rest) (by omega)
      have hnd2 : (((eraseMatching i rest).1).map Prod.fst).Nodup :=
        eraseMatching_nodup i rest hnd.2
      simp only [mergeLoop]
      rcases List.mem_cons.mp hmem with he | hm
      · constructor
        · exact List.mem_cons.mpr (Or.inl he)
        · have ht : t = i.1 := by rw [← he]
          rw [redirectTag, ht, head_not_redirect_key i rest hnd.1]
          rfl
      · have hfme : (t, ent) ∈ (eraseMatching i rest).1 := by
          rw [eraseMatching_fst]
          refine List.mem_filter.mpr ⟨hm, ?_⟩
          have : same_entity ent.sequence i.2.sequence = false := by
            apply same_entity_false
            rintro ⟨hne, -⟩
            exact hne hseq
          rw [this]
          rfl
        rcases ih _ hlen hnd2 t ent hfme hseq with ⟨hm1, hr1⟩
        refine ⟨List.mem_cons.mpr (Or.inr hm1), ?_⟩
        rw [redirectTag, lookup_append_none _ _ _ (tail_not_erased_key i rest hnd.2 t ent hm
          (by apply same_entity_false; rintro ⟨hne, -⟩; exact hne hseq))]
        rw [redirectTag] at hr1
        exact hr1

theorem mergeLoop_empty (l : List (ℕ × EntityData))
    (hnd : (l.map Prod.fst).Nodup) (t : ℕ) (ent : EntityData)
    (hmem : (t, ent) ∈ l) (hseq : ent.sequence = []) :
    (t, ent) ∈ (mergeLoop l).1 ∧ redirectTag (mergeLoop l).2 t = t :=
  mergeLoop_empty_aux l.length l le_rfl hnd t ent hmem hseq

theorem mergeLoop_main_aux :
    ∀ (n : ℕ) (l : List (ℕ × EntityData)), l.length ≤ n →
      (l.map Prod.fst).Nodup →
      ∀ (sq : List String) (t0 : ℕ) (e0 : EntityData), sq ≠ [] →
        l.find? (fun te => te.2.sequence == sq) = some (t0, e0) →
        (t0, e0) ∈ (mergeLoop l).1 ∧
        (∀ t ent, (t, ent) ∈ l → ent.sequence = sq → redirectTag (mergeLoop l).2 t = t0) ∧
        (∀ t' e', (t', e') ∈ (mergeLoop l).1 → e'.sequence = sq → t' = t0) := by
  intro n
  induction n with
  | zero =>
    intro l hl hnd sq t0 e0 hsq hfind
    rcases List.length_eq_zero.mp (Nat.le_zero.mp hl) with rfl
    simp at hfind
  | succ n ih =>
    intro l hl hnd sq t0 e0 hsq hfind
    match l with
    | [] => simp at hfind
    | i :: rest =>
      rw [List.map_cons, List.nodup_cons] at hnd
      simp only [List.length_cons] at hl
      have hlen : (eraseMatching i rest).1.length ≤ n :=
        le_trans (eraseMatching_len i rest) (by omega)
      have hnd2 : (((eraseMatching i rest).1).map Prod.fst).Nodup :=
        eraseMatching_nodup i rest hnd.2
      simp only [mergeLoop]
      by_cases hp : (i.2.sequence == sq) = true
      · have hp' : (fun te : ℕ × EntityData => te.2.sequence == sq) i = true := hp
        rw [List.find?_cons_of_pos rest hp'] at hfind
        have hi : i = (t0, e0) := by
          have := Option.some.inj hfind
          exact this
        have hiseq : i.2.sequence = sq := by simpa using hp
        refine ⟨List.mem_cons.mpr (Or.inl hi.symm), ?_, ?_⟩
        · intro t ent hmem hseq
          rcases List.mem_cons.mp hmem with he | hm
          · have ht : t = i.1 := by rw [← he]
            rw [redirectTag, ht, head_not_redirect_key i rest hnd.1]
            rw [hi]
            rfl
          · have hsame : same_entity ent.sequence i.2.sequence = true := by
              rw [same_entity_iff]
              exact ⟨by rw [hseq]; exact hsq, by rw [hseq, hiseq]⟩
            have htk : t ∈ (eraseMatching i rest).2 := by
              rw [eraseMatching_snd]
              exact List.mem_map.mpr ⟨(t, ent), List.mem_filter.mpr ⟨hm, hsame⟩, rfl⟩
            have hlook : (((eraseMatching i rest).2.map (fun t' => (t', i.1)))).lookup t =
                some i.1 := by
              rw [lookup_const_pairs, if_pos htk]
            rw [redirectTag, lookup_append_some t i.1 _ _ hlook]
            rw [hi]
            rfl
        · intro t' e' hmem hseq
          rcases List.mem_cons.mp hmem with he | hm
          · have he' : (t', e') = (t0, e0) := he.trans hi
            exact ((Prod.mk.injEq _ _ _ _).mp he').1
          · have hin := mergeLoop_fst_sub _ _ hm
            rw [eraseMatching_fst] at hin
            have hcond := List.of_mem_filter hin
            have hsame : same_entity e'.sequence i.2.sequence = true := by
              rw [same_entity_iff]
              exact ⟨by rw [hseq]; exact hsq, by rw [hseq, hiseq]⟩
            rw [hsame] at hcond
            simp at hcond
      · have hp' : ¬ (fun te : ℕ × EntityData => te.2.sequence == sq) i = true := hp
        rw [List.find?_cons_of_neg rest hp'] at hfind
        have hpe : i.2.sequence ≠ sq := by simpa using hp
        have hfind2 : ((eraseMatching i rest).1).find? (fun te => te.2.sequence == sq) =
            some (t0, e0) := by
          rw [eraseMatching_fst]
          rw [find_filter]
          · exact hfind
          · intro x hx
            have hxseq : x.2.sequence = sq := by simpa using hx
            have : same_entity x.2.sequence i.2.sequence = false := by
              apply same_entity_false
              rintro ⟨-, hab⟩
              rw [hxseq] at hab
              exact hpe hab.symm
            rw [this]
            rfl
        rcases ih _ hlen hnd2 sq t0 e0 hsq hfind2 with ⟨hm1, hr1, hu1⟩
        refine ⟨List.mem_cons.mpr (Or.inr hm1), ?_, ?_⟩
        · intro t ent hmem hseq
          rcases List.mem_cons.mp hmem with he | hm
          · have : i.2.sequence = sq := by
              have hent : ent = i.2 := by rw [← he]
              rw [← hent, hseq]
            exact absurd this hpe
          · have hsame : same_entity ent.sequence i.2.sequence = false := by
              apply same_entity_false
              rintro ⟨-, hab⟩
              rw [hseq] at hab
              exact hpe hab.symm
            have hfme : (t, ent) ∈ (eraseMatching i rest).1 := by
              rw [eraseMatching_fst]
              refine List.mem_filter.mpr ⟨hm, by rw [hsame]; rfl⟩
            rw [redirectTag, lookup_append_none _ _ _
              (tail_not_erased_key i rest hnd.2 t ent hm hsame)]
            have := hr1 t ent hfme hseq
            rw [redirectTag] at this
            exact this
        · intro t' e' hmem hseq
          rcases List.mem_cons.mp hmem with he | hm
          · have : i.2.sequence = sq := by
              have hent : e' = i.2 := by rw [← he]
              rw [← hent, hseq]
            exact absurd this hpe
          · exact hu1 t' e' hm hseq

theorem mergeLoop_main (l : List (ℕ × EntityData))
    (hnd : (l.map Prod.fst).Nodup)
    (sq : List String) (t0 : ℕ) (e0 : EntityData) (hsq : sq ≠ [])
    (hfind : l.find? (fun te => te.2.sequence == sq) = some (t0, e0)) :
    (t0, e0) ∈ (mergeLoop l).1 ∧
    (∀ t ent, (t, ent) ∈ l → ent.sequence = sq → redirectTag (mergeLoop l).2 t = t0) ∧
    (∀ t' e', (t', e') ∈ (mergeLoop l).1 → e'.sequence = sq → t' = t0) :=
  mergeLoop_main_aux l.length l le_rfl hnd sq t0 e0 hsq hfind

/-! ### Structure-surgery lemmas -/

theorem modelAt_setModelAt_self (st : PStructure) (mi : ℕ) (g : PModel → PModel) :
    modelAt' (setModelAt st mi g) mi = (modelAt' st mi).map g := by
  simp [modelAt', setModelAt, listModify_get_self]

theorem modelAt_setModelAt_ne (st : PStructure) (mi : ℕ) (g : PModel → PModel)
    (mi' : ℕ) (h : mi' ≠ mi) :
    modelAt' (setModelAt st mi g) mi' = modelAt' st mi' := by
  simp [modelAt', setModelAt, listModify_get_ne _ _ _ _ h]

theorem chainAt_setChainAt_self (st : PStructure) (mi ci : ℕ) (f : PChain → PChain) :
    chainAt' (setChainAt st mi ci f) mi ci = (chainAt' st mi ci).map (fun c => f c) := by
  unfold chainAt' setChainAt
  rw [modelAt_setModelAt_self]
  cases modelAt' st mi with
  | none => rfl
  | some m => simp [listModify_get_self]

theorem chainAt_setChainAt_ne (st : PStructure) (mi ci : ℕ) (f : PChain → PChain)
    (mi' ci' : ℕ) (h : ¬ (mi' = mi ∧ ci' = ci)) :
    chainAt' (setChainAt st mi ci f) mi' ci' = chainAt' st mi' ci' := by
  by_cases hm : mi' = mi
  · have hc : ci' ≠ ci := fun hc => h ⟨hm, hc⟩
    subst hm
    unfold chainAt' setChainAt
    rw [modelAt_setModelAt_self]
    cases modelAt' st mi' with
    | none => rfl
    | some m => simp [listModify_get_ne _ _ _ _ hc]
  · unfold chainAt' setChainAt
    rw [modelAt_setModelAt_ne _ _ _ _ hm]

theorem models_length_setModelAt (st : PStructure) (mi : ℕ) (g : PModel → PModel) :
    (setModelAt st mi g).models.length = st.models.length := by
  simp [setModelAt, listModify_length]

theorem chainCountD_setChainAt (st : PStructure) (mi ci : ℕ) (f : PChain → PChain)
    (mi' : ℕ) : chainCountD (setChainAt st mi ci f) mi' = chainCountD st mi' := by
  unfold chainCountD setChainAt
  by_cases hm : mi' = mi
  · subst hm
    rw [modelAt_setModelAt_self]
    cases modelAt' st mi' with
    | none => rfl
    | some m => simp [listModify_length]
  · rw [modelAt_setModelAt_ne _ _ _ _ hm]

/-! ### assignChainEntity and the finalize folds -/

theorem ace_lookup (s : ParserState) (mj cj : ℕ) (n : String) (t : ℕ)
    (h : s.entMap.lookup n = some t) :
    (assignChainEntity s mj cj).entMap.lookup n = some t := by
  rcases hc : chainAt' s.st mj cj with _ | c
  · simp only [assignChainEntity, hc]
    exact h
  · rcases hl : s.entMap.lookup c.name with _ | t'
    · simp only [assignChainEntity, hc, set_for_chain, hl]
      exact lookup_append_some _ _ _ _ h
    · simp only [assignChainEntity, hc, set_for_chain, hl]
      exact h

theorem ace_models_length (s : ParserState) (mj cj : ℕ) :
    (assignChainEntity s mj cj).st.models.length = s.st.models.length := by
  rcases hc : chainAt' s.st mj cj with _ | c
  · simp only [assignChainEntity, hc]
  · rcases hl : s.entMap.lookup c.name with _ | t'
    · simp only [assignChainEntity, hc, set_for_chain, hl]
      exact models_length_setModelAt _ _ _
    · simp only [assignChainEntity, hc, set_for_chain, hl]
      exact models_length_setModelAt _ _ _

theorem ace_chainCountD (s : ParserState) (mj cj : ℕ) (mi : ℕ) :
    chainCountD (assignChainEntity s mj cj).st mi = chainCountD s.st mi := by
  rcases hc : chainAt' s.st mj cj with _ | c
  · simp only [assignChainEntity, hc]
  · rcases hl : s.entMap.lookup c.name with _ | t'
    · simp only [assignChainEntity, hc, set_for_chain, hl]
      exact chainCountD_setChainAt _ _ _ _ _
    · simp only [assignChainEntity, hc, set_for_chain, hl]
      exact chainCountD_setChainAt _ _ _ _ _

theorem ace_chainAt_ne (s : ParserState) (mj cj : ℕ) (mi ci : ℕ)
    (h : ¬ (mi = mj ∧ ci = cj)) :
    chainAt' (assignChainEntity s mj cj).st mi ci = chainAt' s.st mi ci := by
  rcases hc : chainAt' s.st mj cj with _ | c
  · simp only [assignChainEntity, hc]
  · rcases hl : s.entMap.lookup c.name with _ | t'
    · simp only [assignChainEntity, hc, set_for_chain, hl]
      exact chainAt_setChainAt_ne _ _ _ _ _ _ h
    · simp only [assignChainEntity, hc, set_for_chain, hl]
      exact chainAt_setChainAt_ne _ _ _ _ _ _ h

theorem ace_chainAt_self (s : ParserState) (mj cj : ℕ) (c : PChain) (t : ℕ)
    (hc : chainAt' s.st mj cj = some c) (ht : s.entMap.lookup c.name = some t) :
    chainAt' (assignChainEntity s mj cj).st mj cj = some { c with entity := some t } := by
  simp only [assignChainEntity, hc, set_for_chain, ht]
  rw [chainAt_setChainAt_self, hc]
  rfl

theorem ace_entities_mem (s : ParserState) (mj cj : ℕ) (t : ℕ) (e : EntityData)
    (h : (t, e) ∈ s.st.entities) :
    (t, e) ∈ (assignChainEntity s mj cj).st.entities := by
  rcases hc : chainAt' s.st mj cj with _ | c
  · simp only [assignChainEntity, hc]
    exact h
  · rcases hl : s.entMap.lookup c.name with _ | t'
    · simp only [assignChainEntity, hc, set_for_chain, hl, setChainAt, setModelAt]
      exact List.mem_append.mpr (Or.inl h)
    · simp only [assignChainEntity, hc, set_for_chain, hl]
      exact h

theorem ace_entities_mem_rev (s : ParserState) (mj cj : ℕ) (t : ℕ) (e : EntityData)
    (h : (t, e) ∈ (assignChainEntity s mj cj).st.entities) :
    (t, e) ∈ s.st.entities ∨ e.sequence = [] := by
  rcases hc : chainAt' s.st mj cj with _ | c
  · simp only [assignChainEntity, hc] at h
    exact Or.inl h
  · rcases hl : s.entMap.lookup c.name with _ | t'
    · simp only [assignChainEntity, hc, set_for_chain, hl, setChainAt, setModelAt] at h
      rcases List.mem_append.mp h with hm | hm
      · exact Or.inl hm
      · right
        have he : e = ⟨"", EntityType.Unknown, PolymerType.NA, []⟩ :=
          ((Prod.mk.injEq _ _ _ _).mp (by simpa using hm)).2
        rw [he]
    · simp only [assignChainEntity, hc, set_for_chain, hl] at h
      exact Or.inl h

theorem amc_fold_aux (mi : ℕ) : ∀ (k : ℕ) (s s' : ParserState),
    s' = (List.range k).foldl (fun s2 ci => assignChainEntity s2 mi ci) s →
    (∀ n t, s.entMap.lookup n = some t → s'.entMap.lookup n = some t) ∧
    s'.st.models.length = s.st.models.length ∧
    (∀ mj, chainCountD s'.st mj = chainCountD s.st mj) ∧
    (∀ mj cj, (mj ≠ mi ∨ k ≤ cj) → chainAt' s'.st mj cj = chainAt' s.st mj cj) ∧
    (∀ cj c t, cj < k → chainAt' s.st mi cj = some c → s.entMap.lookup c.name = some t →
      chainAt' s'.st mi cj = some { c with entity := some t }) ∧
    (∀ t e, (t, e) ∈ s.st.entities → (t, e) ∈ s'.st.entities) ∧
    (∀ t e, (t, e) ∈ s'.st.entities → (t, e) ∈ s.st.entities ∨ e.sequence = []) := by
  intro k
  induction k with
  | zero =>
    intro s s' hs'
    rw [List.range_zero, List.foldl_nil] at hs'
    subst hs'
    exact ⟨fun n t h => h, rfl, fun _ => rfl, fun _ _ _ => rfl,
      fun cj c t hlt => absurd hlt (by omega), fun t e h => h, fun t e h => Or.inl h⟩
  | succ k ih =>
    intro s s' hs'
    rw [List.range_succ, List.foldl_append, List.foldl_cons, List.foldl_nil] at hs'
    obtain ⟨ih1, ih2, ih3, ih4, ih5, ih6, ih7⟩ :=
      ih s ((List.range k).foldl (fun s2 ci => assignChainEntity s2 mi ci) s) rfl
    subst hs'
    refine ⟨?_, ?_, ?_, ?_, ?_, ?_, ?_⟩
    · intro n t h
      exact ace_lookup _ _ _ _ _ (ih1 n t h)
    · rw [ace_models_length]
      exact ih2
    · intro mj
      rw [ace_chainCountD]
      exact ih3 mj
    · intro mj cj hcond
      rw [ace_chainAt_ne]
      · apply ih4
        rcases hcond with h | h
        · exact Or.inl h
        · exact Or.inr (by omega)
      · rintro ⟨he1, he2⟩
        rcases hcond with h | h
        · exact h he1
        · omega
    · intro cj c t hlt hc ht
      by_cases hcj : cj = k
      · subst hcj
        have hck : chainAt'
            ((List.range cj).foldl (fun s2 ci => assignChainEntity s2 mi ci) s).st mi cj =
            some c := by
          rw [ih4 mi cj (Or.inr (le_refl _))]
          exact hc
        exact ace_chainAt_self _ _ _ _ _ hck (ih1 _ _ ht)
      · have := ih5 cj c t (by omega) hc ht
        rw [ace_chainAt_ne]
        · exact this
        · rintro ⟨-, he2⟩
          exact hcj he2
    · intro t e h
      exact ace_entities_mem _ _ _ _ _ (ih6 t e h)
    · intro t e h
      rcases ace_entities_mem_rev _ _ _ _ _ h with hm | hm
      · exact ih7 t e hm
      · exact Or.inr hm

theorem amc_spec (s : ParserState) (mi : ℕ) :
    (∀ n t, s.entMap.lookup n = some t → (assignModelChains s mi).entMap.lookup n = some t) ∧
    (assignModelChains s mi).st.models.length = s.st.models.length ∧
    (∀ mj, chainCountD (assignModelChains s mi).st mj = chainCountD s.st mj) ∧
    (∀ mj cj, mj ≠ mi → chainAt' (assignModelChains s mi).st mj cj = chainAt' s.st mj cj) ∧
    (∀ cj c t, cj < chainCountD s.st mi → chainAt' s.st mi cj = some c →
      s.entMap.lookup c.name = some t →
      chainAt' (assignModelChains s mi).st mi cj = some { c with entity := some t }) ∧
    (∀ t e, (t, e) ∈ s.st.entities → (t, e) ∈ (assignModelChains s mi).st.entities) ∧
    (∀ t e, (t, e) ∈ (assignModelChains s mi).st.entities →
      (t, e) ∈ s.st.entities ∨ e.sequence = []) := by
  obtain ⟨h1, h2, h3, h4, h5, h6, h7⟩ :=
    amc_fold_aux mi (chainCountD s.st mi) s (assignModelChains s mi) rfl
  exact ⟨h1, h2, h3, fun mj cj hm => h4 mj cj (Or.inl hm), h5, h6, h7⟩

theorem ae_fold_aux : ∀ (k : ℕ) (s s' : ParserState),
    s' = (List.range k).foldl (fun s1 mj => assignModelChains s1 mj) s →
    (∀ n t, s.entMap.lookup n = some t → s'.entMap.lookup n = some t) ∧
    s'.st.models.length = s.st.models.length ∧
    (∀ mj, chainCountD s'.st mj = chainCountD s.st mj) ∧
    (∀ mj cj, k ≤ mj → chainAt' s'.st mj cj = chainAt' s.st mj cj) ∧
    (∀ mj cj c t, mj < k → cj < chainCountD s.st mj → chainAt' s.st mj cj = some c →
      s.entMap.lookup c.name = some t →
      chainAt' s'.st mj cj = some { c with entity := some t }) ∧
    (∀ t e, (t, e) ∈ s.st.entities → (t, e) ∈ s'.st.entities) ∧
    (∀ t e, (t, e) ∈ s'.st.entities → (t, e) ∈ s.st.entities ∨ e.sequence = []) := by
  intro k
  induction k with
  | zero =>
    intro s s' hs'
    rw [List.range_zero, List.foldl_nil] at hs'
    subst hs'
    exact ⟨fun n t h => h, rfl, fun _ => rfl, fun _ _ _ => rfl,
      fun mj cj c t hlt => absurd hlt (by omega), fun t e h => h, fun t e h => Or.inl h⟩
  | succ k ih =>
    intro s s' hs'
    rw [List.range_succ, List.foldl_append, List.foldl_cons, List.foldl_nil] at hs'
    obtain ⟨ih1, ih2, ih3, ih4, ih5, ih6, ih7⟩ :=
      ih s ((List.range k).foldl (fun s1 mj => assignModelChains s1 mj) s) rfl
    obtain ⟨a1, a2, a3, a4, a5, a6, a7⟩ :=
      amc_spec ((List.range k).foldl (fun s1 mj => assignModelChains s1 mj) s) k
    subst hs'
    refine ⟨?_, ?_, ?_, ?_, ?_, ?_, ?_⟩
    · intro n t h
      exact a1 n t (ih1 n t h)
    · rw [a2]
      exact ih2
    · intro mj
      rw [a3 mj]
      exact ih3 mj
    · intro mj cj hk
      rw [a4 mj cj (by omega)]
      exact ih4 mj cj (by omega)
    · intro mj cj c t hmj hcj hc ht
      by_cases hmk : mj = k
      · subst hmk
        have hck := ih4 mj cj (le_refl _)
        rw [hc] at hck
        have := a5 cj c t (by rw [ih3]; exact hcj) hck (ih1 _ _ ht)
        exact this
      · have := ih5 mj cj c t (by omega) hcj hc ht
        rw [a4 mj cj hmk]
        exact this
    · intro t e h
      exact a6 t e (ih6 t e h)
    · intro t e h
      rcases a7 t e h with hm | hm
      · exact ih7 t e hm
      · exact Or.inr hm

theorem assignEntities_spec (s : ParserState) :
    (∀ n t, s.entMap.lookup n = some t → (assignEntities s).entMap.lookup n = some t) ∧
    (∀ mj cj c t, mj < s.st.models.length → cj < chainCountD s.st mj →
      chainAt' s.st mj cj = some c → s.entMap.lookup c.name = some t →
      chainAt' (assignEntities s).st mj cj = some { c with entity := some t }) ∧
    (∀ t e, (t, e) ∈ s.st.entities → (t, e) ∈ (assignEntities s).st.entities) ∧
    (∀ t e, (t, e) ∈ (assignEntities s).st.entities →
      (t, e) ∈ s.st.entities ∨ e.sequence = []) := by
  obtain ⟨h1, h2, h3, h4, h5, h6, h7⟩ :=
    ae_fold_aux s.st.models.length s (assignEntities s) rfl
  exact ⟨h1, h5, h6, h7⟩

theorem renum_mem_fwd :
    ∀ (l : List (ℕ × EntityData)) (n : ℕ) (t : ℕ) (e : EntityData), (t, e) ∈ l →
      ∃ e', (t, e') ∈ (l.enumFrom n).map
          (fun ke => (ke.2.1, { ke.2.2 with eid := toString (ke.1 + 1) })) ∧
        e'.sequence = e.sequence := by
  intro l
  induction l with
  | nil => intro n t e h; simp at h
  | cons a l ih =>
    intro n t e h
    rcases List.mem_cons.mp h with he | hm
    · refine ⟨{ e with eid := toString (n + 1) }, ?_, rfl⟩
      rw [List.enumFrom, List.map_cons]
      apply List.mem_cons.mpr
      left
      rw [← he]
    · rcases ih (n + 1) t e hm with ⟨e', hmem, hseq⟩
      exact ⟨e', by rw [List.enumFrom, List.map_cons]; exact List.mem_cons.mpr (Or.inr hmem), hseq⟩

theorem renum_mem_rev :
    ∀ (l : List (ℕ × EntityData)) (n : ℕ) (t : ℕ) (e' : EntityData),
      (t, e') ∈ (l.enumFrom n).map
          (fun ke => (ke.2.1, { ke.2.2 with eid := toString (ke.1 + 1) })) →
      ∃ e, (t, e) ∈ l ∧ e'.sequence = e.sequence := by
  intro l
  induction l with
  | nil => intro n t e' h; simp at h
  | cons a l ih =>
    intro n t e' h
    rw [List.enumFrom, List.map_cons] at h
    rcases List.mem_cons.mp h with he | hm
    · have ht : t = a.1 := ((Prod.mk.injEq _ _ _ _).mp he).1
      refine ⟨a.2, List.mem_cons.mpr (Or.inl (by rw [ht, Prod.mk.eta])), ?_⟩
      have hrec := ((Prod.mk.injEq _ _ _ _).mp he).2
      rw [hrec]
    · rcases ih (n + 1) t e' hm with ⟨e, hmem, hseq⟩
      exact ⟨e, List.mem_cons.mpr (Or.inr hmem), hseq⟩

theorem get_some_lt {α} (l : List α) (n : ℕ) (a : α) (h : l.get? n = some a) :
    n < l.length := by
  by_contra hn
  rw [List.get?_eq_none.mpr (by omega)] at h
  exact absurd h (by simp)

theorem chainAt_bounds (st : PStructure) (mi ci : ℕ) (c : PChain)
    (h : chainAt' st mi ci = some c) : mi < st.models.length ∧ ci < chainCountD st mi := by
  unfold chainAt' at h
  rcases hm : modelAt' st mi with _ | m
  · rw [hm] at h; simp at h
  · rw [hm] at h
    simp only [Option.some_bind] at h
    constructor
    · exact get_some_lt _ _ _ hm
    · unfold chainCountD
      rw [hm]
      show ci < m.chains.length
      exact get_some_lt _ _ _ h

theorem chainAt_entities_irrel (st : PStructure) (E : List (ℕ × EntityData)) (mi ci : ℕ) :
    chainAt' { st with entities := E } mi ci = chainAt' st mi ci := rfl

/-- **C2**: after `EntitySetter::finalize`, (1) any two chains whose names map
to entities carrying the same nonempty SEQRES sequence reference the same
entity tag, namely the earliest-created entity bearing that sequence (which
survives, and is the unique survivor with that sequence — hence it gets the
lower serial id in the final renumbering); (2) an entity with an empty
sequence is never merged: it survives finalize and chains mapped to it keep
referencing exactly it. -/
theorem c2_entity_merge (s : ParserState)
    (hnd : (s.st.entities.map Prod.fst).Nodup) :
    (∀ mi ci mj cj t1 t2 e1 e2 sq,
      chainAt' s.st mi ci ≠ none →
      chainAt' s.st mj cj ≠ none →
      s.entMap.lookup (chainNameD s.st mi ci) = some t1 →
      s.entMap.lookup (chainNameD s.st mj cj) = some t2 →
      s.st.entities.lookup t1 = some e1 →
      s.st.entities.lookup t2 = some e2 →
      e1.sequence = sq → e2.sequence = sq → sq ≠ [] →
      ∃ t0 e0,
        s.st.entities.find? (fun te => te.2.sequence == sq) = some (t0, e0) ∧
        chainEntityD (EntitySetter_finalize s).st mi ci = some t0 ∧
        chainEntityD (EntitySetter_finalize s).st mj cj = some t0 ∧
        (∃ e', (t0, e') ∈ (EntitySetter_finalize s).st.entities ∧ e'.sequence = sq) ∧
        (∀ t' e'', (t', e'') ∈ (EntitySetter_finalize s).st.entities →
          e''.sequence = sq → t' = t0)) ∧
    (∀ t e, (t, e) ∈ s.st.entities → e.sequence = [] →
      (∃ e', (t, e') ∈ (EntitySetter_finalize s).st.entities ∧ e'.sequence = []) ∧
      (∀ mi ci, chainAt' s.st mi ci ≠ none →
        s.entMap.lookup (chainNameD s.st mi ci) = some t →
        chainEntityD (EntitySetter_finalize s).st mi ci = some t)) := by
  obtain ⟨s1, hs1⟩ : ∃ s1 : ParserState, s1 = { s with st := { s.st with entities := (mergeLoop s.st.entities).1 }, entMap := s.entMap.map (fun kv => (kv.1, redirectTag (mergeLoop s.st.entities).2 kv.2)) } := ⟨_, rfl⟩
  have hfin : EntitySetter_finalize s = { (assignEntities s1) with st := { (assignEntities s1).st with entities := (assignEntities s1).st.entities.enum.map (fun ke => (ke.2.1, { ke.2.2 with eid := toString (ke.1 + 1) })) } } := by
    rw [hs1]
    rfl
  obtain ⟨sp1, sp2, sp3, sp4⟩ := assignEntities_spec s1
  constructor
  · intro mi ci mj cj t1 t2 e1 e2 sq hc1ne hc2ne hm1 hm2 he1 he2 hsq1 hsq2 hsqne
    rcases hcc1 : chainAt' s.st mi ci with _ | c1
    · exact absurd hcc1 hc1ne
    rcases hcc2 : chainAt' s.st mj cj with _ | c2
    · exact absurd hcc2 hc2ne
    have hname1 : chainNameD s.st mi ci = c1.name := by
      unfold chainNameD
      rw [hcc1]
      rfl
    have hname2 : chainNameD s.st mj cj = c2.name := by
      unfold chainNameD
      rw [hcc2]
      rfl
    rw [hname1] at hm1
    rw [hname2] at hm2
    have hent1 : (t1, e1) ∈ s.st.entities := lookup_mem _ _ _ he1
    have hent2 : (t2, e2) ∈ s.st.entities := lookup_mem _ _ _ he2
    have hfindex : (s.st.entities.find? (fun te => te.2.sequence == sq)).isSome := by
      rw [List.find?_isSome]
      exact ⟨(t1, e1), hent1, by simp [hsq1]⟩
    obtain ⟨x, hfind⟩ := Option.isSome_iff_exists.mp hfindex
    have hx2 : x.2.sequence = sq := by simpa using List.find?_some hfind
    have hfind' : s.st.entities.find? (fun te => te.2.sequence == sq) = some (x.1, x.2) := by
      rw [Prod.mk.eta]
      exact hfind
    obtain ⟨hm0, hredAll, huniq⟩ := mergeLoop_main s.st.entities hnd sq x.1 x.2 hsqne hfind'
    have hred1 : redirectTag (mergeLoop s.st.entities).2 t1 = x.1 := hredAll t1 e1 hent1 hsq1
    have hred2 : redirectTag (mergeLoop s.st.entities).2 t2 = x.1 := hredAll t2 e2 hent2 hsq2
    have hlk1 : s1.entMap.lookup c1.name = some x.1 := by
      rw [hs1]
      show (s.entMap.map (fun kv => (kv.1, redirectTag (mergeLoop s.st.entities).2 kv.2))).lookup c1.name = some x.1
      rw [lookup_map_value, hm1]
      simp [hred1]
    have hlk2 : s1.entMap.lookup c2.name = some x.1 := by
      rw [hs1]
      show (s.entMap.map (fun kv => (kv.1, redirectTag (mergeLoop s.st.entities).2 kv.2))).lookup c2.name = some x.1
      rw [lookup_map_value, hm2]
      simp [hred2]
    have hcc1' : chainAt' s1.st mi ci = some c1 := by
      rw [hs1]
      exact hcc1
    have hcc2' : chainAt' s1.st mj cj = some c2 := by
      rw [hs1]
      exact hcc2
    obtain ⟨hmi_lt, hci_lt⟩ := chainAt_bounds s.st mi ci c1 hcc1
    obtain ⟨hmj_lt, hcj_lt⟩ := chainAt_bounds s.st mj cj c2 hcc2
    have hass1 := sp2 mi ci c1 x.1 (by rw [hs1]; exact hmi_lt) (by rw [hs1]; exact hci_lt) hcc1' hlk1
    have hass2 := sp2 mj cj c2 x.1 (by rw [hs1]; exact hmj_lt) (by rw [hs1]; exact hcj_lt) hcc2' hlk2
    refine ⟨x.1, x.2, hfind', ?_, ?_, ?_, ?_⟩
    · rw [hfin]
      unfold chainEntityD
      rw [chainAt_entities_irrel, hass1]
      rfl
    · rw [hfin]
      unfold chainEntityD
      rw [chainAt_entities_irrel, hass2]
      rfl
    · have hm1' : (x.1, x.2) ∈ s1.st.entities := by
        rw [hs1]
        exact hm0
      obtain ⟨e', hmem', hseq'⟩ := renum_mem_fwd ((assignEntities s1).st.entities) 0 x.1 x.2 (sp3 x.1 x.2 hm1')
      rw [hfin]
      exact ⟨e', hmem', by rw [hseq', hx2]⟩
    · intro t' e'' hmem hseq''
      rw [hfin] at hmem
      obtain ⟨e', hm', hseq'⟩ := renum_mem_rev ((assignEntities s1).st.entities) 0 t' e'' hmem
      rcases sp4 t' e' hm' with hmm | hempty
      · have hmm' : (t', e') ∈ (mergeLoop s.st.entities).1 := by
          rw [hs1] at hmm
          exact hmm
        have hseqe : e'.sequence = sq := by
          rw [← hseq']
          exact hseq''
        exact huniq t' e' hmm' hseqe
      · exfalso
        apply hsqne
        rw [← hseq'', hseq', hempty]
  · intro t e hmem hseq
    obtain ⟨hm0, hred⟩ := mergeLoop_empty s.st.entities hnd t e hmem hseq
    constructor
    · have hm1' : (t, e) ∈ s1.st.entities := by
        rw [hs1]
        exact hm0
      obtain ⟨e', hmem', hseq'⟩ := renum_mem_fwd ((assignEntities s1).st.entities) 0 t e (sp3 t e hm1')
      rw [hfin]
      exact ⟨e', hmem', by rw [hseq', hseq]⟩
    · intro mi ci hcne hlk
      rcases hcc : chainAt' s.st mi ci with _ | c
      · exact absurd hcc hcne
      have hname : chainNameD s.st mi ci = c.name := by
        unfold chainNameD
        rw [hcc]
        rfl
      rw [hname] at hlk
      have hlk1 : s1.entMap.lookup c.name = some t := by
        rw [hs1]
        show (s.entMap.map (fun kv => (kv.1, redirectTag (mergeLoop s.st.entities).2 kv.2))).lookup c.name = some t
        rw [lookup_map_value, hlk]
        simp [hred]
      have hcc' : chainAt' s1.st mi ci = some c := by
        rw [hs1]
        exact hcc
      obtain ⟨hmi_lt, hci_lt⟩ := chainAt_bounds s.st mi ci c hcc
      have hass := sp2 mi ci c t (by rw [hs1]; exact hmi_lt) (by rw [hs1]; exact hci_lt) hcc' hlk1
      rw [hfin]
      unfold chainEntityD
      rw [chainAt_entities_irrel, hass]
      rfl

/-- **C2** witness: in the four-line input of `entLines`, chains A and B have
identical nonempty SEQRES sequences; after finalize both reference the
earliest-created entity bearing that sequence. -/
theorem c2_entity_merge_witness :
    ∃ t0 e0,
      (runParser "ent.pdb" entLines).st.entities.find?
          (fun te => te.2.sequence == ["ALA", "GLY"]) = some (t0, e0) ∧
      chainEntityD (EntitySetter_finalize (runParser "ent.pdb" entLines)).st 0 0 = some t0 ∧
      chainEntityD (EntitySetter_finalize (runParser "ent.pdb" entLines)).st 0 1 = some t0 ∧
      (∃ e', (t0, e') ∈ (EntitySetter_finalize (runParser "ent.pdb" entLines)).st.entities ∧
        e'.sequence = ["ALA", "GLY"]) ∧
      (∀ t' e'', (t', e'') ∈ (EntitySetter_finalize (runParser "ent.pdb" entLines)).st.entities →
        e''.sequence = ["ALA", "GLY"] → t' = t0) :=
  (c2_entity_merge (runParser "ent.pdb" entLines) (by decide)).1 0 0 0 1 0 1
    ⟨"", EntityType.Polymer, PolymerType.NA, ["ALA", "GLY"]⟩
    ⟨"", EntityType.Polymer, PolymerType.NA, ["ALA", "GLY"]⟩
    ["ALA", "GLY"] (by decide) (by decide) (by decide) (by decide) (by decide) (by decide)
    rfl rfl (by decide)

/-! ### Lemmas for the TER-isolation invariant -/

theorem get_lt_some {α} (l : List α) (n : ℕ) (h : n < l.length) :
    ∃ a, l.get? n = some a := by
  rcases hg : l.get? n with _ | a
  · rw [List.get?_eq_none] at hg
    omega
  · exact ⟨a, rfl⟩

theorem findIdx_spec {α} (p : α → Bool) :
    ∀ (l : List α) (i : ℕ), l.findIdx? p = some i →
      i < l.length ∧ ∃ a, l.get? i = some a ∧ p a = true := by
  intro l
  induction l with
  | nil => intro i h; simp at h
  | cons a l ih =>
    intro i h
    rw [List.findIdx?_cons, List.findIdx?_succ] at h
    rcases hp : p a with _ | _
    · rw [hp] at h
      rw [if_neg (show ¬ (false = true) by decide)] at h
      rcases Option.map_eq_some'.mp h with ⟨j, hj, hij⟩
      rcases ih j hj with ⟨hlt, b, hb, hpb⟩
      subst hij
      exact ⟨by simpa using hlt, b, by simpa using hb, hpb⟩
    · rw [hp] at h
      simp only [if_pos rfl] at h
      rcases Option.some.inj h with rfl
      exact ⟨by simp, a, rfl, hp⟩

theorem contains_mem {α} [BEq α] [LawfulBEq α] (l : List α) (x : α) :
    l.contains x = true ↔ x ∈ l := by
  induction l with
  | nil => simp
  | cons a l ih =>
    rw [List.contains_cons]
    rcases hx : (x == a) with _ | _
    · simp only [Bool.false_or]
      rw [ih]
      constructor
      · exact fun h => List.mem_cons_of_mem _ h
      · intro h
        rcases List.mem_cons.mp h with he | hm
        · subst he
          simp at hx
        · exact hm
    · simp only [Bool.true_or, true_iff]
      exact List.mem_cons.mpr (Or.inl (eq_of_beq hx))

theorem sum_listModify_add (l : List PResidue) (ri : ℕ) (hri : ri < l.length) (a : PAtom) :
    ((listModify (fun r => { r with atoms := r.atoms ++ [a] }) ri l).map
      (fun r => r.atoms.length)).sum = (l.map (fun r => r.atoms.length)).sum + 1 := by
  induction l generalizing ri with
  | nil => simp at hri
  | cons r l ih =>
    cases ri with
    | zero =>
      simp only [listModify, List.map_cons, List.sum_cons, List.length_append]
      simp
      omega
    | succ ri =>
      simp only [listModify, List.map_cons, List.sum_cons]
      rw [ih ri (by simpa using hri)]
      omega

theorem chainNameD_setChainAt (st : PStructure) (mi ci : ℕ) (f : PChain → PChain)
    (hf : ∀ c, (f c).name = c.name) (mi' ci' : ℕ) :
    chainNameD (setChainAt st mi ci f) mi' ci' = chainNameD st mi' ci' := by
  by_cases h : mi' = mi ∧ ci' = ci
  · rcases h with ⟨rfl, rfl⟩
    unfold chainNameD
    rw [chainAt_setChainAt_self]
    cases chainAt' st mi' ci' with
    | none => rfl
    | some c => simp [hf c]
  · unfold chainNameD
    rw [chainAt_setChainAt_ne _ _ _ _ _ _ h]

theorem chainAuthD_setChainAt (st : PStructure) (mi ci : ℕ) (f : PChain → PChain)
    (hf : ∀ c, (f c).auth_name = c.auth_name) (mi' ci' : ℕ) :
    chainAuthD (setChainAt st mi ci f) mi' ci' = chainAuthD st mi' ci' := by
  by_cases h : mi' = mi ∧ ci' = ci
  · rcases h with ⟨rfl, rfl⟩
    unfold chainAuthD
    rw [chainAt_setChainAt_self]
    cases chainAt' st mi' ci' with
    | none => rfl
    | some c => simp [hf c]
  · unfold chainAuthD
    rw [chainAt_setChainAt_ne _ _ _ _ _ _ h]

theorem modelNameD_setModelAt (st : PStructure) (mi : ℕ) (g : PModel → PModel)
    (hg : ∀ m, (g m).mname = m.mname) (mi' : ℕ) :
    modelNameD (setModelAt st mi g) mi' = modelNameD st mi' := by
  by_cases h : mi' = mi
  · subst h
    unfold modelNameD
    rw [modelAt_setModelAt_self]
    cases modelAt' st mi' with
    | none => rfl
    | some m => simp [hg m]
  · unfold modelNameD
    rw [modelAt_setModelAt_ne _ _ _ _ h]

theorem atomCountAt_setChainAt_ne (st : PStructure) (mi ci : ℕ) (f : PChain → PChain)
    (mi' ci' : ℕ) (h : ¬ (mi' = mi ∧ ci' = ci)) :
    atomCountAt (setChainAt st mi ci f) mi' ci' = atomCountAt st mi' ci' := by
  unfold atomCountAt
  rw [chainAt_setChainAt_ne _ _ _ _ _ _ h]

theorem inv_transfer (s s1 : ParserState)
    (hm : s1.model = s.model) (hc : s1.chain = s.chain) (ht : s1.hasTer = s.hasTer)
    (hlen : s1.st.models.length = s.st.models.length)
    (hcount : ∀ mi, chainCountD s1.st mi = chainCountD s.st mi)
    (hname : ∀ mi ci, chainNameD s1.st mi ci = chainNameD s.st mi ci)
    (hauth : ∀ mi ci, chainAuthD s1.st mi ci = chainAuthD s.st mi ci)
    (hmname : ∀ mi, modelNameD s1.st mi = modelNameD s.st mi)
    (hin : ReaderInv s) : ReaderInv s1 := by
  obtain ⟨h1, h2, h3⟩ := hin
  refine ⟨?_, ?_, ?_⟩
  · intro mi hmi
    rw [hlen]
    exact h1 mi (by rw [← hm]; exact hmi)
  · intro mi ci hci
    rw [hm, hcount]
    exact h2 mi ci (by rw [← hc]; exact hci)
  · intro mi ci hci hmem
    rw [hname, hauth]
    apply h3 mi ci (by rw [← hc]; exact hci)
    rw [← hmname, ← hauth, ← ht]
    exact hmem

theorem inv_transfer_simple (s s1 : ParserState) (hm : s1.model = s.model)
    (hc : s1.chain = s.chain) (ht : s1.hasTer = s.hasTer)
    (hmod : s1.st.models = s.st.models) (hin : ReaderInv s) : ReaderInv s1 :=
  inv_transfer s s1 hm hc ht (by rw [hmod])
    (fun mi => by unfold chainCountD modelAt'; rw [hmod])
    (fun mi ci => by unfold chainNameD chainAt' modelAt'; rw [hmod])
    (fun mi ci => by unfold chainAuthD chainAt' modelAt'; rw [hmod])
    (fun mi => by unfold modelNameD modelAt'; rw [hmod]) hin

theorem foam_bound (st : PStructure) (name : String) :
    (find_or_add_model st name).1 < (find_or_add_model st name).2.models.length := by
  unfold find_or_add_model
  rcases hidx : st.models.findIdx? (fun m => m.mname == name) with _ | mi
  · simp only [hidx]
    simp
  · simp only [hidx]
    exact (findIdx_spec _ _ _ hidx).1

theorem foac_spec (st : PStructure) (mi : ℕ) (cname : String) (m : PModel)
    (hm : modelAt' st mi = some m) :
    ((find_or_add_chain st mi cname).1 < chainCountD (find_or_add_chain st mi cname).2 mi) ∧
    (∃ c', chainAt' (find_or_add_chain st mi cname).2 mi (find_or_add_chain st mi cname).1 =
      some c' ∧ c'.name = cname) ∧
    (find_or_add_chain st mi cname).2.models.length = st.models.length ∧
    (∀ mi', modelNameD (find_or_add_chain st mi cname).2 mi' = modelNameD st mi') ∧
    (∀ mi' ci', ¬ (mi' = mi ∧ ci' = (find_or_add_chain st mi cname).1) →
      chainAt' (find_or_add_chain st mi cname).2 mi' ci' = chainAt' st mi' ci') ∧
    atomCountAt (find_or_add_chain st mi cname).2 mi (find_or_add_chain st mi cname).1 =
      atomCountAt st mi (find_or_add_chain st mi cname).1 := by
  rcases hidx : m.chains.findIdx? (fun c => c.name == cname) with _ | ci
  · have hr : find_or_add_chain st mi cname = (m.chains.length, setModelAt st mi (fun m0 => { m0 with chains := m0.chains ++ [{ name := cname, auth_name := "", entity := none, residues := [] }] })) := by
      simp only [find_or_add_chain, hm, hidx]
    rw [hr]
    dsimp only
    have hgetm : modelAt' (setModelAt st mi (fun m0 => { m0 with chains := m0.chains ++ [{ name := cname, auth_name := "", entity := none, residues := [] }] })) mi = some { m with chains := m.chains ++ [{ name := cname, auth_name := "", entity := none, residues := [] }] } := by
      rw [modelAt_setModelAt_self, hm]
      rfl
    refine ⟨?_, ?_, ?_, ?_, ?_, ?_⟩
    · show m.chains.length < chainCountD _ mi
      unfold chainCountD
      rw [hgetm]
      simp
    · refine ⟨{ name := cname, auth_name := "", entity := none, residues := [] }, ?_, rfl⟩
      show chainAt' _ mi m.chains.length = _
      unfold chainAt'
      rw [hgetm]
      simp only [Option.some_bind]
      exact List.get?_concat_length _ _
    · exact models_length_setModelAt _ _ _
    · intro mi'
      apply modelNameD_setModelAt
      intro m'
      rfl
    · intro mi' ci' hne
      by_cases hmi : mi' = mi
      · subst hmi
        have hci : ci' ≠ m.chains.length := fun hc => hne ⟨rfl, hc⟩
        show chainAt' _ mi' ci' = _
        unfold chainAt'
        rw [hgetm, hm]
        simp only [Option.some_bind]
        by_cases hlt : ci' < m.chains.length
        · rw [List.get?_append hlt]
        · rw [List.get?_eq_none.mpr (by simp; omega), List.get?_eq_none.mpr (by omega)]
      · show chainAt' _ mi' ci' = _
        unfold chainAt'
        rw [modelAt_setModelAt_ne _ _ _ _ hmi]
    · show atomCountAt _ mi m.chains.length = atomCountAt st mi m.chains.length
      unfold atomCountAt chainAt'
      rw [hgetm, hm]
      simp only [Option.some_bind]
      rw [List.get?_eq_none.mpr (le_refl _)]
      rw [show (m.chains ++ [{ name := cname, auth_name := "", entity := none, residues := [] }] : List PChain).get? m.chains.length = some { name := cname, auth_name := "", entity := none, residues := [] } from List.get?_concat_length _ _]
      rfl
  · have hr : find_or_add_chain st mi cname = (ci, st) := by
      simp only [find_or_add_chain, hm, hidx]
    rw [hr]
    dsimp only
    obtain ⟨hlt, c, hget, hpc⟩ := findIdx_spec _ _ _ hidx
    refine ⟨?_, ?_, rfl, fun _ => rfl, fun _ _ _ => rfl, rfl⟩
    · show ci < chainCountD st mi
      unfold chainCountD
      rw [hm]
      simpa using hlt
    · refine ⟨c, ?_, by simpa using hpc⟩
      show chainAt' st mi ci = some c
      unfold chainAt'
      rw [hm]
      simpa using hget

theorem foar_spec (st : PStructure) (mi ci : ℕ) (rid : ResidueIdQ) (c : PChain)
    (hc : chainAt' st mi ci = some c) :
    (∃ c2, chainAt' (find_or_add_residue st mi ci rid).2 mi ci = some c2 ∧
      c2.name = c.name ∧ c2.auth_name = c.auth_name ∧
      (find_or_add_residue st mi ci rid).1 < c2.residues.length ∧
      (c2.residues.map (fun r => r.atoms.length)).sum =
        (c.residues.map (fun r => r.atoms.length)).sum) ∧
    (find_or_add_residue st mi ci rid).2.models.length = st.models.length ∧
    (∀ mi', modelNameD (find_or_add_residue st mi ci rid).2 mi' = modelNameD st mi') ∧
    (∀ mj, chainCountD (find_or_add_residue st mi ci rid).2 mj = chainCountD st mj) ∧
    (∀ mj cj, ¬ (mj = mi ∧ cj = ci) →
      chainAt' (find_or_add_residue st mi ci rid).2 mj cj = chainAt' st mj cj) := by
  rcases hidx : c.residues.findIdx? (fun r => residueMatches r rid) with _ | ri
  · have hr : find_or_add_residue st mi ci rid = (c.residues.length,
        setChainAt st mi ci (fun c0 => { c0 with residues := c0.residues ++ [newResidue rid] })) := by
      simp only [find_or_add_residue, hc, hidx]
    rw [hr]
    dsimp only
    refine ⟨?_, models_length_setModelAt _ _ _, ?_, ?_, ?_⟩
    · refine ⟨{ c with residues := c.residues ++ [newResidue rid] }, ?_, rfl, rfl, by simp, ?_⟩
      · rw [chainAt_setChainAt_self, hc]
        rfl
      · rw [List.map_append, List.sum_append]
        simp [newResidue]
    · intro mi'
      apply modelNameD_setModelAt
      intro m'
      rfl
    · intro mj
      exact chainCountD_setChainAt _ _ _ _ _
    · intro mj cj hne
      exact chainAt_setChainAt_ne _ _ _ _ _ _ hne
  · have hr : find_or_add_residue st mi ci rid = (ri, st) := by
      simp only [find_or_add_residue, hc, hidx]
    rw [hr]
    dsimp only
    obtain ⟨hlt, r, hget, hpr⟩ := findIdx_spec _ _ _ hidx
    exact ⟨⟨c, hc, rfl, rfl, hlt, rfl⟩, rfl, fun _ => rfl, fun _ => rfl, fun _ _ _ => rfl⟩

theorem resolveResidue_spec (s : ParserState) (mi ci : ℕ) (rid : ResidueIdQ) (c : PChain)
    (hc : chainAt' s.st mi ci = some c) :
    (∃ c2, chainAt' (resolveResidue s mi ci rid).2 mi ci = some c2 ∧
      c2.name = c.name ∧ c2.auth_name = c.auth_name ∧
      (resolveResidue s mi ci rid).1 < c2.residues.length ∧
      (c2.residues.map (fun r => r.atoms.length)).sum =
        (c.residues.map (fun r => r.atoms.length)).sum) ∧
    (resolveResidue s mi ci rid).2.models.length = s.st.models.length ∧
    (∀ mi', modelNameD (resolveResidue s mi ci rid).2 mi' = modelNameD s.st mi') ∧
    (∀ mj, chainCountD (resolveResidue s mi ci rid).2 mj = chainCountD s.st mj) ∧
    (∀ mj cj, ¬ (mj = mi ∧ cj = ci) →
      chainAt' (resolveResidue s mi ci rid).2 mj cj = chainAt' s.st mj cj) := by
  rcases hresi : s.resi with _ | ri
  · have hr : resolveResidue s mi ci rid = find_or_add_residue s.st mi ci rid := by
      simp only [resolveResidue, hresi]
    rw [hr]
    exact foar_spec s.st mi ci rid c hc
  · rcases hlook : (chainAt' s.st mi ci).bind (fun c => c.residues.get? ri) with _ | r
    · have hr : resolveResidue s mi ci rid = find_or_add_residue s.st mi ci rid := by
        simp only [resolveResidue, hresi, hlook]
      rw [hr]
      exact foar_spec s.st mi ci rid c hc
    · rcases hmatch : residueMatches r rid with _ | _
      · have hr : resolveResidue s mi ci rid = find_or_add_residue s.st mi ci rid := by
          simp only [resolveResidue, hresi, hlook, hmatch]
          rfl
        rw [hr]
        exact foar_spec s.st mi ci rid c hc
      · have hr : resolveResidue s mi ci rid = (ri, s.st) := by
          simp only [resolveResidue, hresi, hlook, hmatch]
          rfl
        rw [hr]
        refine ⟨⟨c, hc, rfl, rfl, ?_, rfl⟩, rfl, fun _ => rfl, fun _ => rfl, fun _ _ _ => rfl⟩
        rw [hc] at hlook
        simp only [Option.some_bind] at hlook
        exact get_some_lt _ _ _ hlook

theorem atomCore_spec (s : ParserState) (mi ci : ℕ) (len : ℕ) (s1 : ParserState) (cb : Bool)
    (c : PChain) (hc : chainAt' s.st mi ci = some c)
    (hok : atomCore s mi ci len = .ok (s1, cb)) :
    s1.model = s.model ∧ s1.chain = some (mi, ci) ∧ s1.hasTer = s.hasTer ∧
    s1.st.models.length = s.st.models.length ∧
    (∀ mi', modelNameD s1.st mi' = modelNameD s.st mi') ∧
    (∀ mj, chainCountD s1.st mj = chainCountD s.st mj) ∧
    chainNameD s1.st mi ci = c.name ∧ chainAuthD s1.st mi ci = c.auth_name ∧
    (∀ mj cj, ¬ (mj = mi ∧ cj = ci) →
      chainNameD s1.st mj cj = chainNameD s.st mj cj ∧
      chainAuthD s1.st mj cj = chainAuthD s.st mj cj) ∧
    atomCountAt s1.st mi ci = atomCountAt s.st mi ci + 1 := by
  simp only [atomCore] at hok
  rcases hch : (if 78 < len then read_charge (s.buf.getD 78 '\x00') (s.buf.getD 79 '\x00')
      else .ok 0) with e | chg
  · rw [hch] at hok
    exact absurd hok (by simp)
  · rw [hch] at hok
    simp only [Except.ok.injEq, Prod.mk.injEq] at hok
    obtain ⟨h1, -⟩ := hok
    obtain ⟨⟨c2, hc2, hc2n, hc2a, hc2lt, hc2sum⟩, hrlen, hrmn, hrcc, hrne⟩ :=
      resolveResidue_spec s mi ci
        { seqnum := (read_snic (bufPtr s.buf 22)).seqnum,
          icode := (read_snic (bufPtr s.buf 22)).icode,
          rname := read_string (bufPtr s.buf 17) 3,
          segment := read_string (bufPtr s.buf 72) 4 } c hc
    subst h1
    refine ⟨rfl, rfl, rfl, ?_, ?_, ?_, ?_, ?_, ?_, ?_⟩
    · show (setResidueAt _ mi ci _ _).models.length = _
      unfold setResidueAt setChainAt
      rw [models_length_setModelAt]
      exact hrlen
    · intro mi'
      show modelNameD (setResidueAt _ mi ci _ _) mi' = _
      unfold setResidueAt setChainAt
      rw [← hrmn mi']
      apply modelNameD_setModelAt
      intro m'
      rfl
    · intro mj
      show chainCountD (setResidueAt _ mi ci _ _) mj = _
      unfold setResidueAt
      rw [chainCountD_setChainAt]
      exact hrcc mj
    · show chainNameD (setResidueAt _ mi ci _ _) mi ci = _
      unfold setResidueAt chainNameD
      rw [chainAt_setChainAt_self, hc2]
      simpa using hc2n
    · show chainAuthD (setResidueAt _ mi ci _ _) mi ci = _
      unfold setResidueAt chainAuthD
      rw [chainAt_setChainAt_self, hc2]
      simpa using hc2a
    · intro mj cj hne
      constructor
      · show chainNameD (setResidueAt _ mi ci _ _) mj cj = _
        unfold setResidueAt chainNameD
        rw [chainAt_setChainAt_ne _ _ _ _ _ _ hne, hrne mj cj hne]
      · show chainAuthD (setResidueAt _ mi ci _ _) mj cj = _
        unfold setResidueAt chainAuthD
        rw [chainAt_setChainAt_ne _ _ _ _ _ _ hne, hrne mj cj hne]
    · show atomCountAt (setResidueAt _ mi ci _ _) mi ci = _
      unfold setResidueAt atomCountAt
      rw [chainAt_setChainAt_self, hc2]
      simp only [Option.map_map, Option.map_some]
      show (((listModify _ (resolveResidue s mi ci _).1 c2.residues).map
        (fun r => r.atoms.length)).sum) = _
      rw [sum_listModify_add c2.residues _ hc2lt]
      rw [hc2sum, hc]
      rfl

theorem chainAt_exists (st : PStructure) (mi ci : ℕ) (hmi : mi < st.models.length)
    (hci : ci < chainCountD st mi) : ∃ c, chainAt' st mi ci = some c := by
  obtain ⟨m, hm⟩ := get_lt_some st.models mi hmi
  unfold chainCountD at hci
  rw [show modelAt' st mi = some m from hm] at hci
  have hci' : ci < m.chains.length := hci
  obtain ⟨c, hcg⟩ := get_lt_some m.chains ci hci'
  exact ⟨c, by unfold chainAt'; rw [show modelAt' st mi = some m from hm]; simpa using hcg⟩

theorem atomCountAt_setChainAt_res (st : PStructure) (mi ci : ℕ) (f : PChain → PChain)
    (hf : ∀ c, (f c).residues = c.residues) :
    atomCountAt (setChainAt st mi ci f) mi ci = atomCountAt st mi ci := by
  unfold atomCountAt
  rw [chainAt_setChainAt_self]
  cases chainAt' st mi ci with
  | none => rfl
  | some c => simp [hf c]

theorem handleAtom_newchain (s : ParserState) (len : ℕ) (s1 : ParserState) (cb : Bool)
    (mi : ℕ) (X : String) (sfx : Bool)
    (hin : ReaderInv s) (hmod : s.model = some mi)
    (hsfx : sfx = s.hasTer.contains (modelNameD s.st mi ++ "/" ++ X))
    (hok : atomCore { s with st := setChainAt (find_or_add_chain s.st mi (X ++ if sfx then "_H" else "")).2 mi (find_or_add_chain s.st mi (X ++ if sfx then "_H" else "")).1 (fun c => { c with auth_name := X }), model := some mi, chain := some (mi, (find_or_add_chain s.st mi (X ++ if sfx then "_H" else "")).1), resi := none } mi (find_or_add_chain s.st mi (X ++ if sfx then "_H" else "")).1 len = .ok (s1, cb)) :
    ReaderInv s1 ∧ s1.hasTer = s.hasTer ∧ s1.model = s.model ∧
    ((modelNameD s.st mi ++ "/" ++ X) ∈ s.hasTer →
      ∃ ci, s1.chain = some (mi, ci) ∧ chainNameD s1.st mi ci = X ++ "_H" ∧
        chainAuthD s1.st mi ci = X ∧
        atomCountAt s1.st mi ci = atomCountAt s.st mi ci + 1) := by
  have hmi_lt := hin.1 mi hmod
  obtain ⟨m, hm⟩ := get_lt_some s.st.models mi hmi_lt
  have hm' : modelAt' s.st mi = some m := hm
  obtain ⟨f1, ⟨c', hc', hc'name⟩, f3, f4, f5, f6⟩ :=
    foac_spec s.st mi (X ++ if sfx then "_H" else "") m hm'
  have hst2c : chainAt' (setChainAt (find_or_add_chain s.st mi (X ++ if sfx then "_H" else "")).2 mi (find_or_add_chain s.st mi (X ++ if sfx then "_H" else "")).1 (fun c => { c with auth_name := X })) mi (find_or_add_chain s.st mi (X ++ if sfx then "_H" else "")).1 = some { c' with auth_name := X } := by
    rw [chainAt_setChainAt_self, hc']
    rfl
  obtain ⟨a1, a2, a3, a4, a5, a6, a7, a8, a9, a10⟩ :=
    atomCore_spec _ mi _ len s1 cb { c' with auth_name := X } hst2c hok
  have hlen1 : s1.st.models.length = s.st.models.length := by
    rw [a4]
    show (setChainAt _ mi _ _).models.length = _
    unfold setChainAt
    rw [models_length_setModelAt]
    exact f3
  have hcnt1 : ∀ mj, chainCountD s1.st mj = chainCountD (find_or_add_chain s.st mi (X ++ if sfx then "_H" else "")).2 mj := by
    intro mj
    rw [a6]
    show chainCountD (setChainAt _ mi _ _) mj = _
    rw [chainCountD_setChainAt]
  have hmn1 : ∀ mj, modelNameD s1.st mj = modelNameD s.st mj := by
    intro mj
    rw [a5]
    show modelNameD (setChainAt _ mi _ _) mj = _
    unfold setChainAt
    rw [← f4 mj]
    apply modelNameD_setModelAt
    intro m0
    rfl
  have hname_t : chainNameD s1.st mi (find_or_add_chain s.st mi (X ++ if sfx then "_H" else "")).1 = X ++ (if sfx then "_H" else "") := by
    rw [a7]
    exact hc'name
  have hauth_t : chainAuthD s1.st mi (find_or_add_chain s.st mi (X ++ if sfx then "_H" else "")).1 = X := a8
  have hcount_t : atomCountAt s1.st mi (find_or_add_chain s.st mi (X ++ if sfx then "_H" else "")).1 = atomCountAt s.st mi (find_or_add_chain s.st mi (X ++ if sfx then "_H" else "")).1 + 1 := by
    rw [a10]
    show atomCountAt (setChainAt _ mi _ _) mi _ + 1 = _
    have hres : atomCountAt (setChainAt (find_or_add_chain s.st mi (X ++ if sfx then "_H" else "")).2 mi (find_or_add_chain s.st mi (X ++ if sfx then "_H" else "")).1 (fun c => { c with auth_name := X })) mi (find_or_add_chain s.st mi (X ++ if sfx then "_H" else "")).1 = atomCountAt s.st mi (find_or_add_chain s.st mi (X ++ if sfx then "_H" else "")).1 := by
      rw [← f6]
      apply atomCountAt_setChainAt_res
      intro c
      rfl
    rw [hres]
  refine ⟨?_, a3, by rw [a1, hmod], ?_⟩
  · refine ⟨?_, ?_, ?_⟩
    · intro mj hmj
      rw [hlen1]
      rw [a1] at hmj
      rcases Option.some.inj hmj with rfl
      exact hmi_lt
    · intro mj cj hcj
      rw [a2] at hcj
      obtain ⟨hmj, hcj2⟩ := (Prod.mk.injEq _ _ _ _).mp (Option.some.inj hcj)
      subst hmj
      subst hcj2
      constructor
      · rw [a1]
      · rw [hcnt1]
        exact f1
    · intro mj cj hcj hmem
      rw [a2] at hcj
      obtain ⟨hmj, hcj2⟩ := (Prod.mk.injEq _ _ _ _).mp (Option.some.inj hcj)
      subst hmj
      subst hcj2
      rw [hauth_t] at hmem ⊢
      rw [hmn1 mi, a3] at hmem
      have hsfxt : sfx = true := by
        rw [hsfx]
        exact (contains_mem _ _).mpr hmem
      rw [hname_t, hsfxt]
      simp
  · intro hmem
    have hsfxt : sfx = true := by
      rw [hsfx]
      exact (contains_mem _ _).mpr hmem
    refine ⟨(find_or_add_chain s.st mi (X ++ if sfx then "_H" else "")).1, a2, ?_, hauth_t, hcount_t⟩
    rw [hname_t, hsfxt]
    simp

theorem handleAtom_spec (s : ParserState) (len : ℕ) (s1 : ParserState) (cb : Bool)
    (hin : ReaderInv s) (hok : handleAtom s len = .ok (s1, cb)) :
    ReaderInv s1 ∧ s1.hasTer = s.hasTer ∧ s1.model = s.model ∧
    (∀ mi, s.model = some mi →
      (modelNameD s.st mi ++ "/" ++ read_string (bufPtr s.buf 20) 2) ∈ s.hasTer →
      ∃ ci, s1.chain = some (mi, ci) ∧
        chainNameD s1.st mi ci = read_string (bufPtr s.buf 20) 2 ++ "_H" ∧
        chainAuthD s1.st mi ci = read_string (bufPtr s.buf 20) 2 ∧
        atomCountAt s1.st mi ci = atomCountAt s.st mi ci + 1) := by
  unfold handleAtom at hok
  by_cases hlen : len < 77
  · rw [if_pos hlen] at hok
    exact absurd hok (by simp)
  rw [if_neg hlen] at hok
  dsimp only at hok
  rcases hch : s.chain with _ | ⟨mi0, ci0⟩
  · rw [hch] at hok
    dsimp only at hok
    rcases hmod : s.model with _ | mi
    · rw [hmod] at hok
      exact absurd hok (by simp)
    · rw [hmod] at hok
      dsimp only at hok
      obtain ⟨r1, r2, r3, r4⟩ := handleAtom_newchain s len s1 cb mi
        (read_string (bufPtr s.buf 20) 2)
        (s.hasTer.contains (modelNameD s.st mi ++ "/" ++ read_string (bufPtr s.buf 20) 2))
        hin hmod rfl hok
      refine ⟨r1, r2, by rw [r3]; exact hmod, ?_⟩
      intro mi' hmi' hmem
      rcases Option.some.inj hmi' with rfl
      exact r4 hmem
  · rw [hch] at hok
    dsimp only at hok
    by_cases hauth : read_string (bufPtr s.buf 20) 2 = chainAuthD s.st mi0 ci0
    · rw [if_pos hauth] at hok
      dsimp only at hok
      obtain ⟨hmod0, hci0⟩ := hin.2.1 mi0 ci0 hch
      obtain ⟨c, hc⟩ := chainAt_exists s.st mi0 ci0 (hin.1 mi0 hmod0) hci0
      obtain ⟨a1, a2, a3, a4, a5, a6, a7, a8, a9, a10⟩ :=
        atomCore_spec s mi0 ci0 len s1 cb c hc hok
      have hnames : ∀ mj cj, chainNameD s1.st mj cj = chainNameD s.st mj cj := by
        intro mj cj
        by_cases hemc : mj = mi0 ∧ cj = ci0
        · rcases hemc with ⟨rfl, rfl⟩
          rw [a7]
          unfold chainNameD
          rw [hc]
          rfl
        · exact (a9 mj cj hemc).1
      have hauths : ∀ mj cj, chainAuthD s1.st mj cj = chainAuthD s.st mj cj := by
        intro mj cj
        by_cases hemc : mj = mi0 ∧ cj = ci0
        · rcases hemc with ⟨rfl, rfl⟩
          rw [a8]
          unfold chainAuthD
          rw [hc]
          rfl
        · exact (a9 mj cj hemc).2
      refine ⟨?_, a3, a1, ?_⟩
      · exact inv_transfer s s1 a1 (by rw [a2, hch]) a3 a4 a6 hnames hauths a5 hin
      · intro mi hmi hmem
        have hmieq : mi = mi0 := by
          rw [hmi] at hmod0
          exact Option.some.inj hmod0
        subst hmieq
        refine ⟨ci0, a2, ?_, ?_, a10⟩
        · rw [hnames mi ci0]
          have hh := hin.2.2 mi ci0 hch (by rw [hauth] at hmem; exact hmem)
          rw [hh, ← hauth]
        · rw [hauths mi ci0, ← hauth]
    · rw [if_neg hauth] at hok
      dsimp only at hok
      rcases hmod : s.model with _ | mi
      · rw [hmod] at hok
        exact absurd hok (by simp)
      · rw [hmod] at hok
        dsimp only at hok
        obtain ⟨r1, r2, r3, r4⟩ := handleAtom_newchain s len s1 cb mi
          (read_string (bufPtr s.buf 20) 2)
          (s.hasTer.contains (modelNameD s.st mi ++ "/" ++ read_string (bufPtr s.buf 20) 2))
          hin hmod rfl hok
        refine ⟨r1, r2, by rw [r3]; exact hmod, ?_⟩
        intro mi' hmi' hmem
        rcases Option.some.inj hmi' with rfl
        exact r4 hmem

theorem error_ne_ok {ε α : Type} (e : ε) (x : α) : Except.error e ≠ Except.ok x :=
  fun h => Except.noConfusion h

theorem readerInv_setResidueAt (s : ParserState) (mi ci ri : ℕ) (f : PResidue → PResidue)
    (hin : ReaderInv s) : ReaderInv { s with st := setResidueAt s.st mi ci ri f } := by
  refine inv_transfer s { s with st := setResidueAt s.st mi ci ri f } rfl rfl rfl ?_ ?_ ?_ ?_ ?_ hin
  · show (setResidueAt s.st mi ci ri f).models.length = _
    unfold setResidueAt setChainAt
    rw [models_length_setModelAt]
  · intro mj
    show chainCountD (setResidueAt s.st mi ci ri f) mj = _
    unfold setResidueAt
    rw [chainCountD_setChainAt]
  · intro mj cj
    show chainNameD (setResidueAt s.st mi ci ri f) mj cj = _
    unfold setResidueAt
    rw [chainNameD_setChainAt]
    intro c
    rfl
  · intro mj cj
    show chainAuthD (setResidueAt s.st mi ci ri f) mj cj = _
    unfold setResidueAt
    rw [chainAuthD_setChainAt]
    intro c
    rfl
  · intro mj
    show modelNameD (setResidueAt s.st mi ci ri f) mj = _
    unfold setResidueAt setChainAt
    rw [modelNameD_setModelAt]
    intro m
    rfl

theorem pres_seqres (s s1 : ParserState) (cb : Bool) (hin : ReaderInv s)
    (hok : handleSeqres s = .ok (s1, cb)) :
    ReaderInv s1 ∧ (∀ x, x ∈ s.hasTer → x ∈ s1.hasTer) := by
  rcases hl : s.entMap.lookup (read_string (bufPtr s.buf 10) 2) with _ | t
  all_goals simp only [handleSeqres, set_for_chain, hl] at hok
  all_goals simp only [Except.ok.injEq, Prod.mk.injEq] at hok
  all_goals obtain ⟨h1, -⟩ := hok
  all_goals subst h1
  all_goals exact ⟨inv_transfer_simple s _ rfl rfl rfl rfl hin, fun x h => h⟩

theorem pres_header (s s1 : ParserState) (cb : Bool) (len : ℕ) (hin : ReaderInv s)
    (hok : handleHeader s len = .ok (s1, cb)) :
    ReaderInv s1 ∧ (∀ x, x ∈ s.hasTer → x ∈ s1.hasTer) := by
  unfold handleHeader at hok
  split_ifs at hok
  all_goals simp only [Except.ok.injEq, Prod.mk.injEq] at hok
  all_goals obtain ⟨h1, -⟩ := hok
  all_goals subst h1
  all_goals exact ⟨inv_transfer_simple s _ rfl rfl rfl rfl hin, fun x h => h⟩

theorem pres_info_append (s s1 : ParserState) (cb : Bool) (len : ℕ) (key : String)
    (hin : ReaderInv s) (hok : handleInfoAppend s len key = .ok (s1, cb)) :
    ReaderInv s1 ∧ (∀ x, x ∈ s.hasTer → x ∈ s1.hasTer) := by
  unfold handleInfoAppend at hok
  split_ifs at hok
  all_goals simp only [Except.ok.injEq, Prod.mk.injEq] at hok
  all_goals obtain ⟨h1, -⟩ := hok
  all_goals subst h1
  all_goals exact ⟨inv_transfer_simple s _ rfl rfl rfl rfl hin, fun x h => h⟩

theorem pres_cryst (s s1 : ParserState) (cb : Bool) (len : ℕ) (hin : ReaderInv s)
    (hok : handleCryst s len = .ok (s1, cb)) :
    ReaderInv s1 ∧ (∀ x, x ∈ s.hasTer → x ∈ s1.hasTer) := by
  rcases hcs : (if 54 < len then UnitCell.set s.st.cell
      ((read_double (bufPtr s.buf 6) 9 : ℚ) : ℝ) ((read_double (bufPtr s.buf 15) 9 : ℚ) : ℝ)
      ((read_double (bufPtr s.buf 24) 9 : ℚ) : ℝ) ((read_double (bufPtr s.buf 33) 7 : ℚ) : ℝ)
      ((read_double (bufPtr s.buf 40) 7 : ℚ) : ℝ) ((read_double (bufPtr s.buf 47) 7 : ℚ) : ℝ)
    else .ok s.st.cell) with e | cell2
  · simp only [handleCryst, hcs] at hok
    exact absurd hok (by simp)
  · simp only [handleCryst, hcs] at hok
    split_ifs at hok
    all_goals simp only [Except.ok.injEq, Prod.mk.injEq] at hok
    all_goals obtain ⟨h1, -⟩ := hok
    all_goals subst h1
    all_goals exact ⟨inv_transfer_simple s _ rfl rfl rfl rfl hin, fun x h => h⟩

theorem pres_mtrix (s s1 : ParserState) (cb : Bool) (len : ℕ) (hin : ReaderInv s)
    (hok : handleMtrix s len = .ok (s1, cb)) :
    ReaderInv s1 ∧ (∀ x, x ∈ s.hasTer → x ∈ s1.hasTer) := by
  unfold handleMtrix at hok
  dsimp only at hok
  split_ifs at hok
  all_goals simp only [Except.ok.injEq, Prod.mk.injEq] at hok
  all_goals obtain ⟨h1, -⟩ := hok
  all_goals subst h1
  all_goals exact ⟨inv_transfer_simple s _ rfl rfl rfl rfl hin, fun x h => h⟩

theorem pres_scale (s s1 : ParserState) (cb : Bool) (len : ℕ) (hin : ReaderInv s)
    (hok : handleScale s len = .ok (s1, cb)) :
    ReaderInv s1 ∧ (∀ x, x ∈ s.hasTer → x ∈ s1.hasTer) := by
  unfold handleScale at hok
  dsimp only at hok
  split_ifs at hok
  all_goals simp only [Except.ok.injEq, Prod.mk.injEq] at hok
  all_goals obtain ⟨h1, -⟩ := hok
  all_goals subst h1
  all_goals exact ⟨inv_transfer_simple s _ rfl rfl rfl rfl hin, fun x h => h⟩

theorem pres_origx (s s1 : ParserState) (cb : Bool) (len : ℕ) (hin : ReaderInv s)
    (hok : handleOrigx s len = .ok (s1, cb)) :
    ReaderInv s1 ∧ (∀ x, x ∈ s.hasTer → x ∈ s1.hasTer) := by
  unfold handleOrigx at hok
  dsimp only at hok
  split_ifs at hok
  all_goals simp only [Except.ok.injEq, Prod.mk.injEq] at hok
  all_goals obtain ⟨h1, -⟩ := hok
  all_goals subst h1
  all_goals exact ⟨inv_transfer_simple s _ rfl rfl rfl rfl hin, fun x h => h⟩

theorem pres_ssbond (s s1 : ParserState) (cb : Bool) (hin : ReaderInv s)
    (hok : handleSsbond s = .ok (s1, cb)) :
    ReaderInv s1 ∧ (∀ x, x ∈ s.hasTer → x ∈ s1.hasTer) := by
  unfold handleSsbond at hok
  dsimp only at hok
  split_ifs at hok
  all_goals simp only [Except.ok.injEq, Prod.mk.injEq] at hok
  all_goals obtain ⟨h1, -⟩ := hok
  all_goals subst h1
  all_goals exact ⟨inv_transfer_simple s _ rfl rfl rfl rfl hin, fun x h => h⟩

theorem pres_cispep (s s1 : ParserState) (cb : Bool) (hin : ReaderInv s)
    (hok : handleCispep s = .ok (s1, cb)) :
    ReaderInv s1 ∧ (∀ x, x ∈ s.hasTer → x ∈ s1.hasTer) := by
  unfold handleCispep at hok
  dsimp only at hok
  split_ifs at hok
  all_goals simp only [Except.ok.injEq, Prod.mk.injEq] at hok
  all_goals obtain ⟨h1, -⟩ := hok
  all_goals subst h1
  all_goals exact ⟨inv_transfer_simple s _ rfl rfl rfl rfl hin, fun x h => h⟩

theorem pres_endmdl (s s1 : ParserState) (cb : Bool) (hin : ReaderInv s)
    (hok : handleEndmdl s = .ok (s1, cb)) :
    ReaderInv s1 ∧ (∀ x, x ∈ s.hasTer → x ∈ s1.hasTer) := by
  unfold handleEndmdl at hok
  simp only [Except.ok.injEq, Prod.mk.injEq] at hok
  obtain ⟨h1, -⟩ := hok
  subst h1
  refine ⟨⟨?_, ?_, ?_⟩, fun x h => h⟩
  · intro mi h
    exact Option.noConfusion h
  · intro mi ci h
    exact Option.noConfusion h
  · intro mi ci h
    exact Option.noConfusion h

theorem pres_ter (s s1 : ParserState) (cb : Bool) (hin : ReaderInv s)
    (hok : handleTer s = .ok (s1, cb)) :
    ReaderInv s1 ∧ (∀ x, x ∈ s.hasTer → x ∈ s1.hasTer) := by
  rcases hch : s.chain with _ | p
  · simp only [handleTer, hch] at hok
    simp only [Except.ok.injEq, Prod.mk.injEq] at hok
    obtain ⟨h1, -⟩ := hok
    subst h1
    refine ⟨⟨fun mi h => hin.1 mi h, ?_, ?_⟩, fun x h => h⟩
    · intro mi ci h
      exact Option.noConfusion h
    · intro mi ci h
      exact Option.noConfusion h
  · obtain ⟨mi0, ci0⟩ := p
    simp only [handleTer, hch] at hok
    simp only [Except.ok.injEq, Prod.mk.injEq] at hok
    obtain ⟨h1, -⟩ := hok
    subst h1
    refine ⟨⟨fun mi h => hin.1 mi h, ?_, ?_⟩, fun x h => List.mem_append.mpr (Or.inl h)⟩
    · intro mi ci h
      exact Option.noConfusion h
    · intro mi ci h
      exact Option.noConfusion h

theorem pres_model (s s1 : ParserState) (cb : Bool) (hin : ReaderInv s)
    (hok : handleModel s = .ok (s1, cb)) :
    ReaderInv s1 ∧ (∀ x, x ∈ s.hasTer → x ∈ s1.hasTer) := by
  unfold handleModel at hok
  dsimp only at hok
  split_ifs at hok <;> try exact absurd hok (error_ne_ok _ _)
  simp only [Except.ok.injEq, Prod.mk.injEq] at hok
  obtain ⟨h1, -⟩ := hok
  subst h1
  refine ⟨⟨?_, ?_, ?_⟩, fun x h => h⟩
  · intro mi h
    have hmi : mi = (find_or_add_model s.st (toString (read_int (bufPtr s.buf 10) 4))).1 :=
      (Option.some.inj h).symm
    subst hmi
    exact foam_bound _ _
  · intro mi ci h
    exact Option.noConfusion h
  · intro mi ci h
    exact Option.noConfusion h

theorem pres_anisou (s s1 : ParserState) (cb : Bool) (hin : ReaderInv s)
    (hok : handleAnisou s = .ok (s1, cb)) :
    ReaderInv s1 ∧ (∀ x, x ∈ s.hasTer → x ∈ s1.hasTer) := by
  rcases hm : s.model with _ | m0 <;> rcases hc : s.chain with _ | ⟨mi, ci⟩ <;>
    rcases hr : s.resi with _ | ri <;> simp only [handleAnisou, hm, hc, hr] at hok <;>
    try exact absurd hok (error_ne_ok _ _)
  rcases hlook : (chainAt' s.st mi ci).bind (fun c => c.residues.get? ri) with _ | r
  · simp only [hlook] at hok
    exact absurd hok (by simp)
  · simp only [hlook] at hok
    rcases hlast : r.atoms.getLast? with _ | atom
    · simp only [hlast] at hok
      exact absurd hok (by simp)
    · simp only [hlast] at hok
      split_ifs at hok <;> try exact absurd hok (error_ne_ok _ _)
      rw [← hm, ← hc, ← hr] at hok
      simp only [Except.ok.injEq, Prod.mk.injEq] at hok
      obtain ⟨h1, -⟩ := hok
      subst h1
      exact ⟨readerInv_setResidueAt s mi ci ri _ hin, fun x h => h⟩

/-- TER matches none of the earlier branches of the dispatch chain. -/
theorem dispatch_ter (s : ParserState) (len : ℕ)
    (h : is_record_type s.buf "TER" = true) :
    dispatch s len = handleTer s := by
  rw [irt_eval_TER, decide_eq_true_eq] at h
  have hA : is_record_type s.buf "ATOM" = false := by
    rw [irt_eval_ATOM, decide_eq_false_iff_not]; omega
  have hH : is_record_type s.buf "HETATM" = false := by
    rw [irt_eval_HETATM, decide_eq_false_iff_not]; omega
  have hAn : is_record_type s.buf "ANISOU" = false := by
    rw [irt_eval_ANISOU, decide_eq_false_iff_not]; omega
  have hR : is_record_type s.buf "REMARK" = false := by
    rw [irt_eval_REMARK, decide_eq_false_iff_not]; omega
  have hC : is_record_type s.buf "CONECT" = false := by
    rw [irt_eval_CONECT, decide_eq_false_iff_not]; omega
  have hS : is_record_type s.buf "SEQRES" = false := by
    rw [irt_eval_SEQRES, decide_eq_false_iff_not]; omega
  have hHe : is_record_type s.buf "HEADER" = false := by
    rw [irt_eval_HEADER, decide_eq_false_iff_not]; omega
  have hT : is_record_type s.buf "TITLE" = false := by
    rw [irt_eval_TITLE, decide_eq_false_iff_not]; omega
  have hK : is_record_type s.buf "KEYWDS" = false := by
    rw [irt_eval_KEYWDS, decide_eq_false_iff_not]; omega
  have hE : is_record_type s.buf "EXPDTA" = false := by
    rw [irt_eval_EXPDTA, decide_eq_false_iff_not]; omega
  have hCr : is_record_type s.buf "CRYST1" = false := by
    rw [irt_eval_CRYST, decide_eq_false_iff_not]; omega
  have hM : is_record_type s.buf "MTRIXn" = false := by
    rw [irt_eval_MTRIX, decide_eq_false_iff_not]; omega
  have hMo : is_record_type s.buf "MODEL" = false := by
    rw [irt_eval_MODEL, decide_eq_false_iff_not]; omega
  have hEn : is_record_type s.buf "ENDMDL" = false := by
    rw [irt_eval_ENDMDL, decide_eq_false_iff_not]; omega
  have h2 : is_record_type s.buf "TER" = true := by
    rw [irt_eval_TER, decide_eq_true_eq]; exact h
  unfold dispatch
  simp only [hA, hH, hAn, hR, hC, hS, hHe, hT, hK, hE, hCr, hM, hMo, hEn, h2,
    Bool.or_self, Bool.false_or]
  simp

/-- ATOM/HETATM is the first branch of the dispatch chain. -/
theorem dispatch_atom (s : ParserState) (len : ℕ)
    (h : (is_record_type s.buf "ATOM" || is_record_type s.buf "HETATM") = true) :
    dispatch s len = handleAtom s len := by
  unfold dispatch
  rw [if_pos h]

theorem handleTer_effect (s : ParserState) (s1 : ParserState) (cb : Bool) (mi ci : ℕ)
    (hch : s.chain = some (mi, ci)) (hmod : s.model = some mi)
    (hok : handleTer s = .ok (s1, cb)) :
    (modelNameD s.st mi ++ "/" ++ chainNameD s.st mi ci) ∈ s1.hasTer := by
  simp only [handleTer, hch] at hok
  simp only [Except.ok.injEq, Prod.mk.injEq] at hok
  obtain ⟨h1, -⟩ := hok
  subst h1
  show _ ∈ s.hasTer ++
    [((s.model.map (fun m => modelNameD s.st m)).getD "") ++ "/" ++ chainNameD s.st mi ci]
  rw [hmod]
  exact List.mem_append.mpr (Or.inr (by simp))

theorem dispatch_preserves (s : ParserState) (len : ℕ) (s1 : ParserState) (cb : Bool)
    (hin : ReaderInv s) (hok : dispatch s len = .ok (s1, cb)) :
    ReaderInv s1 ∧ (∀ x, x ∈ s.hasTer → x ∈ s1.hasTer) := by
  unfold dispatch at hok
  by_cases h1 : (is_record_type s.buf "ATOM" || is_record_type s.buf "HETATM") = true
  · rw [if_pos h1] at hok
    obtain ⟨r1, r2, -, -⟩ := handleAtom_spec s len s1 cb hin hok
    exact ⟨r1, fun x h => by rw [r2]; exact h⟩
  rw [if_neg h1] at hok
  by_cases h2 : is_record_type s.buf "ANISOU" = true
  · rw [if_pos h2] at hok
    exact pres_anisou s s1 cb hin hok
  rw [if_neg h2] at hok
  by_cases h3 : is_record_type s.buf "REMARK" = true
  · rw [if_pos h3] at hok
    simp only [Except.ok.injEq, Prod.mk.injEq] at hok
    obtain ⟨h1, -⟩ := hok
    subst h1
    exact ⟨hin, fun x h => h⟩
  rw [if_neg h3] at hok
  by_cases h4 : is_record_type s.buf "CONECT" = true
  · rw [if_pos h4] at hok
    simp only [Except.ok.injEq, Prod.mk.injEq] at hok
    obtain ⟨h1, -⟩ := hok
    subst h1
    exact ⟨hin, fun x h => h⟩
  rw [if_neg h4] at hok
  by_cases h5 : is_record_type s.buf "SEQRES" = true
  · rw [if_pos h5] at hok
    exact pres_seqres s s1 cb hin hok
  rw [if_neg h5] at hok
  by_cases h6 : is_record_type s.buf "HEADER" = true
  · rw [if_pos h6] at hok
    exact pres_header s s1 cb len hin hok
  rw [if_neg h6] at hok
  by_cases h7 : is_record_type s.buf "TITLE" = true
  · rw [if_pos h7] at hok
    exact pres_info_append s s1 cb len "_struct.title" hin hok
  rw [if_neg h7] at hok
  by_cases h8 : is_record_type s.buf "KEYWDS" = true
  · rw [if_pos h8] at hok
    exact pres_info_append s s1 cb len "_struct_keywords.text" hin hok
  rw [if_neg h8] at hok
  by_cases h9 : is_record_type s.buf "EXPDTA" = true
  · rw [if_pos h9] at hok
    exact pres_info_append s s1 cb len "_exptl.method" hin hok
  rw [if_neg h9] at hok
  by_cases h10 : is_record_type s.buf "CRYST1" = true
  · rw [if_pos h10] at hok
    exact pres_cryst s s1 cb len hin hok
  rw [if_neg h10] at hok
  by_cases h11 : is_record_type s.buf "MTRIXn" = true
  · rw [if_pos h11] at hok
    exact pres_mtrix s s1 cb len hin hok
  rw [if_neg h11] at hok
  by_cases h12 : is_record_type s.buf "MODEL" = true
  · rw [if_pos h12] at hok
    exact pres_model s s1 cb hin hok
  rw [if_neg h12] at hok
  by_cases h13 : is_record_type s.buf "ENDMDL" = true
  · rw [if_pos h13] at hok
    exact pres_endmdl s s1 cb hin hok
  rw [if_neg h13] at hok
  by_cases h14 : is_record_type s.buf "TER" = true
  · rw [if_pos h14] at hok
    exact pres_ter s s1 cb hin hok
  rw [if_neg h14] at hok
  by_cases h15 : is_record_type s.buf "SCALEn" = true
  · rw [if_pos h15] at hok
    exact pres_scale s s1 cb len hin hok
  rw [if_neg h15] at hok
  by_cases h16 : is_record_type s.buf "ORIGX" = true
  · rw [if_pos h16] at hok
    exact pres_origx s s1 cb len hin hok
  rw [if_neg h16] at hok
  by_cases h17 : is_record_type s.buf "SSBOND" = true
  · rw [if_pos h17] at hok
    exact pres_ssbond s s1 cb hin hok
  rw [if_neg h17] at hok
  by_cases h18 : is_record_type s.buf "CISPEP" = true
  · rw [if_pos h18] at hok
    exact pres_cispep s s1 cb hin hok
  rw [if_neg h18] at hok
  by_cases h19 : is_record_type s.buf "END" = true
  · rw [if_pos h19] at hok
    simp only [Except.ok.injEq, Prod.mk.injEq] at hok
    obtain ⟨h1, -⟩ := hok
    subst h1
    exact ⟨hin, fun x h => h⟩
  rw [if_neg h19] at hok
  simp only [Except.ok.injEq, Prod.mk.injEq] at hok
  obtain ⟨h1, -⟩ := hok
  subst h1
  exact ⟨hin, fun x h => h⟩

theorem step_preserves (s : ParserState) (l : List Char) (s1 : ParserState) (cb : Bool)
    (hin : ReaderInv s) (hok : step s l = .ok (s1, cb)) :
    ReaderInv s1 ∧ (∀ x, x ∈ s.hasTer → x ∈ s1.hasTer) := by
  simp only [step] at hok
  have hin' : ReaderInv { s with buf := writeBuf s.buf l, lineNum := s.lineNum + 1 } :=
    inv_transfer_simple s _ rfl rfl rfl rfl hin
  exact dispatch_preserves { s with buf := writeBuf s.buf l, lineNum := s.lineNum + 1 }
    (min l.length 81) s1 cb hin' hok

/-- **C1** (invariants): in `read_pdb_from_line_input`, once a TER record has
been processed while chain X is current in model M (recording "M/X" in the
`has_ter` set), every subsequent ATOM/HETATM record in model M whose
chain-name columns (20-22) read X is appended to a chain whose `name` is
"X_H" and whose `auth_name` is "X".  Stated as: (1) the reader invariant
holds initially; (2) every successful `step` preserves the invariant and
never removes entries from `has_ter`; (3) a TER step with a current chain
(M, X) puts "M/X" into `has_ter`; (4) an ATOM/HETATM step in model M whose
chain-name columns X satisfy "M/X" ∈ `has_ter` lands its atom in a current
chain with name "X_H", auth_name "X", growing that chain by one atom;
(5) on a concrete trace ATOM/TER/ATOM with identical chain columns " A",
the first atom goes to chain ("A", auth "A") and the post-TER atom to a
fresh chain ("A_H", auth "A"). -/
theorem c1_ter_isolation :
    (∀ src : String, ReaderInv (initState src)) ∧
    (∀ (s : ParserState) (l : List Char) (s1 : ParserState) (cb : Bool),
      ReaderInv s → step s l = .ok (s1, cb) →
      ReaderInv s1 ∧ (∀ x, x ∈ s.hasTer → x ∈ s1.hasTer)) ∧
    (∀ (s : ParserState) (l : List Char) (s1 : ParserState) (cb : Bool) (mi ci : ℕ),
      ReaderInv s → s.chain = some (mi, ci) →
      is_record_type (writeBuf s.buf l) "TER" = true →
      step s l = .ok (s1, cb) →
      (modelNameD s.st mi ++ "/" ++ chainNameD s.st mi ci) ∈ s1.hasTer) ∧
    (∀ (s : ParserState) (l : List Char) (s1 : ParserState) (cb : Bool) (mi : ℕ),
      ReaderInv s → s.model = some mi →
      (is_record_type (writeBuf s.buf l) "ATOM" = true ∨
        is_record_type (writeBuf s.buf l) "HETATM" = true) →
      (modelNameD s.st mi ++ "/" ++ read_string (bufPtr (writeBuf s.buf l) 20) 2) ∈ s.hasTer →
      step s l = .ok (s1, cb) →
      ∃ ci, s1.chain = some (mi, ci) ∧
        chainNameD s1.st mi ci = read_string (bufPtr (writeBuf s.buf l) 20) 2 ++ "_H" ∧
        chainAuthD s1.st mi ci = read_string (bufPtr (writeBuf s.buf l) 20) 2 ∧
        atomCountAt s1.st mi ci = atomCountAt s.st mi ci + 1) ∧
    ((chainNameD (runParser "ter.pdb" terLines).st 0 0,
      chainAuthD (runParser "ter.pdb" terLines).st 0 0,
      atomCountAt (runParser "ter.pdb" terLines).st 0 0,
      chainNameD (runParser "ter.pdb" terLines).st 0 1,
      chainAuthD (runParser "ter.pdb" terLines).st 0 1,
      atomCountAt (runParser "ter.pdb" terLines).st 0 1) =
      ("A", "A", 1, "A_H", "A", 1)) := by
  refine ⟨?_, ?_, ?_, ?_, ?_⟩
  · intro src
    refine ⟨?_, ?_, ?_⟩
    · intro mi h
      rcases Option.some.inj h with rfl
      exact Nat.zero_lt_one
    · intro mi ci h
      exact Option.noConfusion h
    · intro mi ci h
      exact Option.noConfusion h
  · intro s l s1 cb hin hok
    exact step_preserves s l s1 cb hin hok
  · intro s l s1 cb mi ci hin hch hrec hok
    simp only [step] at hok
    rw [dispatch_ter { s with buf := writeBuf s.buf l, lineNum := s.lineNum + 1 }
      (min l.length 81) hrec] at hok
    exact handleTer_effect { s with buf := writeBuf s.buf l, lineNum := s.lineNum + 1 }
      s1 cb mi ci hch ((hin.2.1 mi ci hch).1) hok
  · intro s l s1 cb mi hin hmod hrec hmem hok
    simp only [step] at hok
    have hor : (is_record_type (writeBuf s.buf l) "ATOM" ||
        is_record_type (writeBuf s.buf l) "HETATM") = true := by
      rcases hrec with h | h
      · rw [h]; exact Bool.true_or _
      · rw [h]; exact Bool.or_true _
    rw [dispatch_atom { s with buf := writeBuf s.buf l, lineNum := s.lineNum + 1 }
      (min l.length 81) hor] at hok
    have hin' : ReaderInv { s with buf := writeBuf s.buf l, lineNum := s.lineNum + 1 } :=
      inv_transfer_simple s _ rfl rfl rfl rfl hin
    obtain ⟨-, -, -, r4⟩ := handleAtom_spec
      { s with buf := writeBuf s.buf l, lineNum := s.lineNum + 1 }
      (min l.length 81) s1 cb hin' hok
    exact r4 mi hmod hmem
  · decide
